import Mathlib

/-!
Module go_service/main.go : sequence allocation and job enqueueing over a shared store

A shallow embedding of the two request handlers `createChat` and
`createMessage` of `src/go_service/main.go`, of the helpers they call, and of
the three library behaviours they rest on:

* the Redis commands the handlers issue (`GET`, `EXISTS`, `INCR`, `SET`,
  `RPUSH`), as functions on an explicit store;
* `fmt.Sprintf` with `%s` / `%d` (key construction) and `fmt.Sscanf` with `%d`
  (parsing of the `chat_number` path segment);
* `encoding/hex.EncodeToString` and `encoding/json.Marshal` for the job
  descriptor.

Machine integers (`int64`) are `Int` with explicit range checks where the
code or the store checks the range.
-/

namespace GoService

/-! ## Constants of `main.go` -/

def jidByteLength : Nat := 12

def sidekiqJobClassChatsConsumer : String := "ChatsCreatorJob"
def sidekiqJobClassMessageCreator : String := "MessageCreatorJob"
def sidekiqQueueChatsCreation : String := "chats_creation_queue"
def sidekiqQueueMessageCreation : String := "messages_creation_queue"

def minInt64 : Int := -9223372036854775808
def maxInt64 : Int := 9223372036854775807

/-! ## `fmt`: the `%d` verb, printing and scanning -/

/-- The character of one decimal digit (`'0' + d`). -/
def digitChar (d : Nat) : Char := Char.ofNat (48 + d)

/-- Decimal digits of a natural number, most significant first; `fuel` bounds
the number of digits and `n + 1` is always enough. -/
def decimalDigits : Nat → Nat → List Char
  | 0, _ => []
  | fuel + 1, n =>
    if n < 10 then [digitChar n]
    else decimalDigits fuel (n / 10) ++ [digitChar (n % 10)]

/-- What `%d` prints for an integer: an optional minus sign and the decimal
digits, no padding. -/
def fmtInt (n : Int) : String :=
  if n < 0 then String.mk ('-' :: decimalDigits (n.natAbs + 1) n.natAbs)
  else String.mk (decimalDigits (n.natAbs + 1) n.natAbs)

/-- The white-space table of `fmt/scan.go` (`isSpace`). -/
def isSpace (r : Char) : Bool :=
  let x := r.toNat
  (0x0009 ≤ x && x ≤ 0x000d) || x = 0x0020 || x = 0x0085 || x = 0x00a0 ||
  x = 0x1680 || (0x2000 ≤ x && x ≤ 0x200a) || (0x2028 ≤ x && x ≤ 0x2029) ||
  x = 0x202f || x = 0x205f || x = 0x3000

/-- The scanner's `SkipSpace` for `Sscanf` (newlines are not space there):
`none` is the "unexpected newline" error, otherwise the remaining input. -/
def skipSpace : List Char → Option (List Char)
  | [] => some []
  | r :: rest =>
    if r = '\r' ∧ rest.head? = some '\n' then skipSpace rest
    else if r = '\n' then none
    else if isSpace r then skipSpace rest
    else some (r :: rest)

def isDecimalDigit (c : Char) : Bool := '0' ≤ c && c ≤ '9'

/-- Value of a run of decimal digit characters, most significant first. -/
def digitsValue (ds : List Char) : Nat :=
  ds.foldl (fun acc c => 10 * acc + (c.toNat - 48)) 0

/-- The call `fmt.Sscanf(str, "%d", &v)` with `v` an `int64`: leading space is
skipped, an optional sign and a non-empty run of decimal digits are consumed,
the token must fit 64 bits, and whatever follows the digits is left unread
without any error. `none` is a non-nil error. -/
def sscanfInt64 (str : String) : Option Int :=
  match skipSpace str.data with
  | none => none
  | some [] => none
  | some (c :: rest) =>
    let body := if c = '+' ∨ c = '-' then rest else c :: rest
    let tok := body.takeWhile isDecimalDigit
    if tok = [] then none
    else
      let v : Int := if c = '-' then -(digitsValue tok : Int) else (digitsValue tok : Int)
      if minInt64 ≤ v ∧ v ≤ maxInt64 then some v else none

/-! ## `encoding/hex` -/

/-- The table `hextable` of `encoding/hex`. -/
def hextable : String := "0123456789abcdef"

/-- The character `hextable[i]`. -/
def hexDigit (i : Nat) : Char := hextable.data.getD i '0'

/-- The function `hex.EncodeToString`: two table characters per byte,
`hextable[v>>4]` and then `hextable[v&0x0f]`. -/
def hexEncodeToString (src : List (Fin 256)) : String :=
  String.mk (src.flatMap fun b => [hexDigit (b.val / 16), hexDigit (b.val % 16)])

/-! ## Records of `main.go` -/

/-- A `time.Time` as far as this program looks at it: its rendering in the
RFC 3339 layout with nanoseconds, which is both what
`Format(time.RFC3339Nano)` returns and what `json.Marshal` writes. -/
structure Time where
  rfc3339Nano : String
deriving DecidableEq, Repr

structure Chat where
  Number : Int
  ApplicationToken : String
  TimeStamp : Time
deriving DecidableEq, Repr

structure Message where
  Number : Int
  Body : String
  ChatNumber : Int
  ApplicationToken : String
  TimeStamp : Time
deriving DecidableEq, Repr

/-- A JSON document as `json.Marshal` produces it, up to its rendering as
text; the fields of an object are kept in the order `Marshal` writes them. -/
inductive Json where
  | str (s : String)
  | num (n : Int)
  | bool (b : Bool)
  | arr (items : List Json)
  | obj (fields : List (String × Json))

structure SidekiqJob where
  Class : String
  Args : List Json
  Retry : Bool
  Queue : String
  Jid : String
  CreatedAt : Time
  EnqueuedAt : Time

/-- The document `json.Marshal` writes for a `SidekiqJob`: the struct's fields
in declaration order under their `json` tags. -/
def marshalSidekiqJob (job : SidekiqJob) : Json :=
  .obj [("class", .str job.Class),
        ("args", .arr job.Args),
        ("retry", .bool job.Retry),
        ("queue", .str job.Queue),
        ("jid", .str job.Jid),
        ("created_at", .str job.CreatedAt.rfc3339Nano),
        ("enqueued_at", .str job.EnqueuedAt.rfc3339Nano)]

/-- The call `json.Marshal(job)`. Strings, integers, booleans, string-keyed
maps of them and time stamps are all values `Marshal` can write, so the call
returns no error for a `SidekiqJob` built by this program. -/
def jsonMarshal (job : SidekiqJob) : Except String Json :=
  .ok (marshalSidekiqJob job)

/-- The payload handed to `c.JSON`. -/
inductive Payload where
  | chat (c : Chat)
  | message (m : Message)
  | error (msg : String)
deriving DecidableEq, Repr

/-- The answer of a handler: HTTP status and JSON payload. -/
structure Response where
  status : Nat
  payload : Payload
deriving DecidableEq, Repr

/-! ## The shared store (Redis) -/

/-- What a key of the store holds: a string or a list. `int n` is the string
that is the decimal form of `n`, the only strings `INCR` takes for integers;
`raw s` is any other string. -/
inductive Value where
  | int (n : Int)
  | raw (s : String)
  | list (items : List Json)

/-- The store: what every key holds, `none` for a missing key. No key expires
(the handlers set no expiry), and a key changes only by a store call. -/
abbrev Store := String → Option Value

/-- The store with one key written. -/
def Store.put (s : Store) (key : String) (v : Value) : Store :=
  fun k => if k = key then some v else s k

/-- How the round trip of one store call goes: answered, lost before the
server ran the command, or run by the server with the reply lost (timeout,
broken connection). The last two are errors for the caller. -/
inductive Fault where
  | served
  | lostRequest
  | lostReply
deriving DecidableEq, Repr

inductive RedisErr where
  | nil
  | wrongType
  | notInteger
  | overflow
  | timeout
deriving DecidableEq, Repr

/-- The text of `err.Error()`. -/
def RedisErr.Error : RedisErr → String
  | .nil => "redis: nil"
  | .wrongType => "WRONGTYPE Operation against a key holding the wrong kind of value"
  | .notInteger => "ERR value is not an integer or out of range"
  | .overflow => "ERR increment or decrement would overflow"
  | .timeout => "context deadline exceeded"

/-- The command `INCR key` on the server: a missing key counts as 0, a string
that is a 64-bit integer below the maximum is replaced by its successor, and
everything else is an error that leaves the store as it was. -/
def serverIncr (key : String) (s : Store) : Except RedisErr Int × Store :=
  match s key with
  | none => (.ok 1, s.put key (.int 1))
  | some (.int n) =>
    if n < minInt64 ∨ maxInt64 < n then (.error .notInteger, s)
    else if n = maxInt64 then (.error .overflow, s)
    else (.ok (n + 1), s.put key (.int (n + 1)))
  | some (.raw _) => (.error .notInteger, s)
  | some (.list _) => (.error .wrongType, s)

/-- The command `RPUSH key item` on the server. -/
def serverRPush (key : String) (item : Json) (s : Store) : Except RedisErr Int × Store :=
  match s key with
  | none => (.ok 1, s.put key (.list [item]))
  | some (.list items) => (.ok (items.length + 1 : Nat), s.put key (.list (items ++ [item])))
  | some _ => (.error .wrongType, s)

/-- A writing call as the client sees it. -/
def withFault {α : Type} (f : Fault) (r : Except RedisErr α × Store) (s : Store) :
    Except RedisErr α × Store :=
  match f with
  | .served => r
  | .lostRequest => (.error .timeout, s)
  | .lostReply => (.error .timeout, r.2)

/-- The call `rdb.Incr(ctx, key).Result()`. -/
def rdbIncr (f : Fault) (key : String) (s : Store) : Except RedisErr Int × Store :=
  withFault f (serverIncr key s) s

/-- The call `rdb.Set(ctx, key, 0, 0).Err()`: an unconditional set to `0`
without expiry. -/
def rdbSet (f : Fault) (key : String) (s : Store) : Except RedisErr Unit × Store :=
  withFault f (.ok (), s.put key (.int 0)) s

/-- The call `rdb.RPush(ctx, key, item).Err()`. -/
def rdbRPush (f : Fault) (key : String) (item : Json) (s : Store) :
    Except RedisErr Int × Store :=
  withFault f (serverRPush key item s) s

/-- The call `rdb.Get(ctx, key).Result()`; a read leaves the store alone. -/
def rdbGet (f : Fault) (key : String) (s : Store) : Except RedisErr String :=
  match f with
  | .served =>
    match s key with
    | none => .error .nil
    | some (.int n) => .ok (fmtInt n)
    | some (.raw v) => .ok v
    | some (.list _) => .error .wrongType
  | _ => .error .timeout

/-- The call `rdb.Exists(ctx, key).Result()`. -/
def rdbExists (f : Fault) (key : String) (s : Store) : Except RedisErr Int :=
  match f with
  | .served =>
    match s key with
    | none => .ok 0
    | some _ => .ok 1
  | _ => .error .timeout

/-! ## Keys (`fmt.Sprintf`) -/

/-- The key `fmt.Sprintf("application:%s", appToken)`, named `chatsCountKey`
in `createChat` and `cacheKey` in `validateApplicationToken`. -/
def chatsCountKey (appToken : String) : String :=
  "application:" ++ appToken

/-- The key `fmt.Sprintf("application:%s:last_chat_number", appToken)`. -/
def lastChatNumberKey (appToken : String) : String :=
  "application:" ++ appToken ++ ":last_chat_number"

/-- The key `fmt.Sprintf("application:%s:chat:%d", appToken, chatNumber)`. -/
def chatMessagesCountKey (appToken : String) (chatNumber : Int) : String :=
  "application:" ++ appToken ++ ":chat:" ++ fmtInt chatNumber

/-- The key
`fmt.Sprintf("application:%s:chat:%d:last_message_number", appToken, chatNumber)`. -/
def lastMessageNumberKey (appToken : String) (chatNumber : Int) : String :=
  "application:" ++ appToken ++ ":chat:" ++ fmtInt chatNumber ++ ":last_message_number"

/-- The key `fmt.Sprintf("queue:%s", job.Queue)`. -/
def queueKey (queue : String) : String :=
  "queue:" ++ queue

/-! ## What surrounds one request -/

/-- The surroundings of one request: how each of its store calls goes (by the
order of the calls in the handler, from 0), what the clock shows at each
reading, and the bytes the random source delivers. -/
structure Env where
  fault : Nat → Fault
  now : Nat → Time
  rand : Nat → Fin 256

/-! ## The handlers of `main.go` -/

def respondWithError (statusCode : Nat) (message : String) : Response :=
  ⟨statusCode, .error message⟩

/-- The function `validateApplicationToken`; `none` is the nil error,
`some msg` an error whose text is `msg`. -/
def validateApplicationToken (f : Fault) (s : Store) (appToken : String) : Option String :=
  let cacheKey := chatsCountKey appToken
  match rdbGet f cacheKey s with
  | .error .nil => some "application not found"
  | .error e => some e.Error
  | .ok _ => none

def handleValidationError (err : String) (appToken : String) : Response :=
  if err = "application not found" then
    respondWithError 404 ("Application with token " ++ appToken ++ " not found")
  else
    respondWithError 500 "Internal server error"

/-- The call `rand.Read(jidBytes)` of `crypto/rand`, which fills the whole
buffer and, as documented, never returns an error. -/
def randRead (env : Env) (n : Nat) : Except String (List (Fin 256)) :=
  .ok ((List.range n).map env.rand)

def generateJID (env : Env) : Except String String :=
  match randRead env jidByteLength with
  | .error e => .error ("error generating JID: " ++ e)
  | .ok jidBytes => .ok (hexEncodeToString jidBytes)

/-- The function `enqueueSidekiqJob`; `f` is how its one store call goes,
`none` is the nil error. -/
def enqueueSidekiqJob (f : Fault) (s : Store) (job : SidekiqJob) : Option String × Store :=
  match jsonMarshal job with
  | .error e => (some ("error serializing Sidekiq job to JSON: " ++ e), s)
  | .ok jobJSON =>
    let queueKey := queueKey job.Queue
    match rdbRPush f queueKey jobJSON s with
    | (.error e, s') => (some ("redis error while adding job to queue: " ++ e.Error), s')
    | (.ok _, s') => (none, s')

/-- The function `enqueueChatCreationJob`; `f` is how its one store call goes.
The keys of `chatMap` are written in the sorted order `json.Marshal` gives a
map. -/
def enqueueChatCreationJob (env : Env) (f : Fault) (s : Store) (chat : Chat) :
    Option String × Store :=
  let chatMap : Json :=
    .obj [("application_token", .str chat.ApplicationToken),
          ("number", .num chat.Number),
          ("timestamp", .str chat.TimeStamp.rfc3339Nano)]
  match generateJID env with
  | .error e => (some e, s)
  | .ok jid =>
    let job : SidekiqJob :=
      { Class := sidekiqJobClassChatsConsumer
        Args := [chatMap]
        Retry := true
        Queue := sidekiqQueueChatsCreation
        Jid := jid
        CreatedAt := env.now 1
        EnqueuedAt := env.now 2 }
    enqueueSidekiqJob f s job

def enqueueMessageCreationJob (env : Env) (f : Fault) (s : Store) (message : Message) :
    Option String × Store :=
  let messageMap : Json :=
    .obj [("application_token", .str message.ApplicationToken),
          ("body", .str message.Body),
          ("chat_number", .num message.ChatNumber),
          ("number", .num message.Number),
          ("timestamp", .str message.TimeStamp.rfc3339Nano)]
  match generateJID env with
  | .error e => (some e, s)
  | .ok jid =>
    let job : SidekiqJob :=
      { Class := sidekiqJobClassMessageCreator
        Args := [messageMap]
        Retry := true
        Queue := sidekiqQueueMessageCreation
        Jid := jid
        CreatedAt := env.now 1
        EnqueuedAt := env.now 2 }
    enqueueSidekiqJob f s job

/-- The handler `createChat`, on the path parameter `token`: the answer and
the store it leaves. -/
def createChat (env : Env) (s : Store) (appToken : String) : Response × Store :=
  if appToken = "" then
    (respondWithError 400 "Application token is required", s)
  else
    match validateApplicationToken (env.fault 0) s appToken with
    | some err => (handleValidationError err appToken, s)
    | none =>
      match rdbIncr (env.fault 1) (lastChatNumberKey appToken) s with
      | (.error _, s1) => (respondWithError 500 "Internal server error", s1)
      | (.ok chatNumber, s1) =>
        match rdbIncr (env.fault 2) (chatsCountKey appToken) s1 with
        | (.error _, s2) => (respondWithError 500 "Internal server error", s2)
        | (.ok _, s2) =>
          match rdbSet (env.fault 3) (chatMessagesCountKey appToken chatNumber) s2 with
          | (.error _, s3) => (respondWithError 500 "Internal server error", s3)
          | (.ok _, s3) =>
            let chat : Chat :=
              { Number := chatNumber, ApplicationToken := appToken, TimeStamp := env.now 0 }
            match enqueueChatCreationJob env (env.fault 4) s3 chat with
            | (some _, s4) => (respondWithError 500 "Internal server error", s4)
            | (none, s4) => (⟨201, .chat chat⟩, s4)

structure MessageCreateRequest where
  Body : String

/-- The call `c.ShouldBindJSON(&req)`. The request body is given by what it
decodes to at `message.body`: `none` when there is no body or it does not
decode, `some b` otherwise (`b` is empty when the field is left out); the
`required` binding refuses the empty string. -/
def shouldBindJSON (body : Option String) : Except String MessageCreateRequest :=
  match body with
  | none => .error "invalid request"
  | some b => if b = "" then .error "Key: 'Body' failed on the 'required' tag" else .ok ⟨b⟩

/-- The handler `createMessage`, on the path parameters `token` and
`chat_number` and the request body. -/
def createMessage (env : Env) (s : Store) (appToken chatNumberStr : String)
    (body : Option String) : Response × Store :=
  if appToken = "" then
    (respondWithError 400 "Application token is required", s)
  else if chatNumberStr = "" then
    (respondWithError 400 "Chat number is required", s)
  else
    match sscanfInt64 chatNumberStr with
    | none => (respondWithError 400 "Invalid chat number format", s)
    | some chatNumber =>
      match shouldBindJSON body with
      | .error _ => (respondWithError 400 "Invalid request body: body is required", s)
      | .ok req =>
        match validateApplicationToken (env.fault 0) s appToken with
        | some err => (handleValidationError err appToken, s)
        | none =>
          match rdbExists (env.fault 1) (chatMessagesCountKey appToken chatNumber) s with
          | .error _ => (respondWithError 500 "Internal server error", s)
          | .ok exists_ =>
            if exists_ = 0 then
              (respondWithError 404
                ("Chat " ++ fmtInt chatNumber ++ " not found for application " ++ appToken), s)
            else
              match rdbIncr (env.fault 2) (lastMessageNumberKey appToken chatNumber) s with
              | (.error _, s1) => (respondWithError 500 "Internal server error", s1)
              | (.ok messageNumber, s1) =>
                match rdbIncr (env.fault 3) (chatMessagesCountKey appToken chatNumber) s1 with
                | (.error _, s2) => (respondWithError 500 "Internal server error", s2)
                | (.ok _, s2) =>
                  let message : Message :=
                    { Number := messageNumber
                      Body := req.Body
                      ChatNumber := chatNumber
                      ApplicationToken := appToken
                      TimeStamp := env.now 0 }
                  match enqueueMessageCreationJob env (env.fault 4) s2 message with
                  | (some _, s3) => (respondWithError 500 "Internal server error", s3)
                  | (none, s3) => (⟨201, .message message⟩, s3)

/-! ## Requests and runs -/

/-- The two routes of `setupRouter` that reach the store. -/
inductive Request where
  | createChat (token : String)
  | createMessage (token chatNumber : String) (body : Option String)
deriving DecidableEq

/-- The router: each request goes to its handler. -/
def handle (env : Env) (s : Store) : Request → Response × Store
  | .createChat token => createChat env s token
  | .createMessage token chatNumber body => createMessage env s token chatNumber body

/-- Requests served one after the other, each in its own surroundings: every
answer with the store the request leaves. -/
def serve (s : Store) : List (Env × Request) → List (Response × Store)
  | [] => []
  | (env, req) :: rest => handle env s req :: serve (handle env s req).2 rest

/-- The store after a run of requests. -/
def storeAfter (s : Store) : List (Env × Request) → Store
  | [] => s
  | (env, req) :: rest => storeAfter (handle env s req).2 rest

/-- The list a key holds, as `LRANGE key 0 -1` reads it: empty for a missing
key. -/
def Store.listAt (s : Store) (key : String) : List Json :=
  match s key with
  | some (.list items) => items
  | _ => []

/-- The integer a counter key holds, 0 for a missing key (as `INCR` reads
it). -/
def Store.counterAt (s : Store) (key : String) : Int :=
  match s key with
  | some (.int n) => n
  | _ => 0

/-- The descriptor `enqueueChatCreationJob` builds for a chat. -/
def chatCreationJob (env : Env) (chat : Chat) : SidekiqJob :=
  { Class := sidekiqJobClassChatsConsumer
    Args := [.obj [("application_token", .str chat.ApplicationToken),
                   ("number", .num chat.Number),
                   ("timestamp", .str chat.TimeStamp.rfc3339Nano)]]
    Retry := true
    Queue := sidekiqQueueChatsCreation
    Jid := hexEncodeToString ((List.range jidByteLength).map env.rand)
    CreatedAt := env.now 1
    EnqueuedAt := env.now 2 }

/-- The descriptor `enqueueMessageCreationJob` builds for a message. -/
def messageCreationJob (env : Env) (message : Message) : SidekiqJob :=
  { Class := sidekiqJobClassMessageCreator
    Args := [.obj [("application_token", .str message.ApplicationToken),
                   ("body", .str message.Body),
                   ("chat_number", .num message.ChatNumber),
                   ("number", .num message.Number),
                   ("timestamp", .str message.TimeStamp.rfc3339Nano)]]
    Retry := true
    Queue := sidekiqQueueMessageCreation
    Jid := hexEncodeToString ((List.range jidByteLength).map env.rand)
    CreatedAt := env.now 1
    EnqueuedAt := env.now 2 }

/-! ## Concrete surroundings and stores -/

/-- Surroundings in which every store call is answered. -/
def calmEnv : Env :=
  { fault := fun _ => .served
    now := fun _ => ⟨"2024-05-01T12:00:00.000000001Z"⟩
    rand := fun i => ⟨(37 * i + 11) % 256, Nat.mod_lt _ (by decide)⟩ }

/-- A store that holds the application key of token `abc` and nothing else. -/
def abcStore : Store :=
  fun k => if k = "application:abc" then some (.int 0) else none

/-- A store in which token `abc` is registered and its chat 12 exists. -/
def chat12Store : Store :=
  fun k =>
    if k = "application:abc" then some (.int 12)
    else if k = "application:abc:last_chat_number" then some (.int 12)
    else if k = "application:abc:chat:12" then some (.int 0)
    else none

/-- The empty store. -/
def emptyStore : Store := fun _ => none

/-- The token of a request (its `token` path parameter). -/
def Request.token : Request → String
  | .createChat token => token
  | .createMessage token _ _ => token

/-- Surroundings in which the fifth store call of the request (the `RPUSH` of
the job) is lost before it reaches the server, and all others are answered. -/
def enqueueLostEnv : Env :=
  { calmEnv with fault := fun i => if i = 4 then .lostRequest else .served }

/-- Three `createChat` requests for token `abc`; the second loses its job
enqueue. -/
def gapRun : List (Env × Request) :=
  [(calmEnv, .createChat "abc"), (enqueueLostEnv, .createChat "abc"),
   (calmEnv, .createChat "abc")]

/-! ## Requests in flight together

`createChat` makes five store calls. Between two of its calls other requests can
have theirs served: the store runs one command at a time and the handler holds
no lock. An in-flight request is therefore cut at its store calls. -/

/-- Where an in-flight `createChat` stands: which store call is next, and the
chat number it holds once `INCR` has returned one. -/
inductive ChatTask where
  | start
  | validated
  | allocated (chatNumber : Int)
  | counted (chatNumber : Int)
  | initialised (chatNumber : Int)
  | done (answer : Response)
deriving DecidableEq

/-- The next store call of an in-flight `createChat`, with the handler's code
up to the call after it. -/
def stepChat (env : Env) (appToken : String) (task : ChatTask) (s : Store) :
    ChatTask × Store :=
  match task with
  | .start =>
    if appToken = "" then
      (.done (respondWithError 400 "Application token is required"), s)
    else
      match validateApplicationToken (env.fault 0) s appToken with
      | some err => (.done (handleValidationError err appToken), s)
      | none => (.validated, s)
  | .validated =>
    match rdbIncr (env.fault 1) (lastChatNumberKey appToken) s with
    | (.error _, s1) => (.done (respondWithError 500 "Internal server error"), s1)
    | (.ok chatNumber, s1) => (.allocated chatNumber, s1)
  | .allocated chatNumber =>
    match rdbIncr (env.fault 2) (chatsCountKey appToken) s with
    | (.error _, s2) => (.done (respondWithError 500 "Internal server error"), s2)
    | (.ok _, s2) => (.counted chatNumber, s2)
  | .counted chatNumber =>
    match rdbSet (env.fault 3) (chatMessagesCountKey appToken chatNumber) s with
    | (.error _, s3) => (.done (respondWithError 500 "Internal server error"), s3)
    | (.ok _, s3) => (.initialised chatNumber, s3)
  | .initialised chatNumber =>
    let chat : Chat :=
      { Number := chatNumber, ApplicationToken := appToken, TimeStamp := env.now 0 }
    match enqueueChatCreationJob env (env.fault 4) s chat with
    | (some _, s4) => (.done (respondWithError 500 "Internal server error"), s4)
    | (none, s4) => (.done ⟨201, .chat chat⟩, s4)
  | .done answer => (.done answer, s)

/-- An in-flight `createChat` run alone for a number of store calls. -/
def runChat (env : Env) (appToken : String) : Nat → ChatTask × Store → ChatTask × Store
  | 0, x => x
  | k + 1, x => runChat env appToken k (stepChat env appToken x.1 x.2)

/-- The chat number an in-flight request holds. -/
def ChatTask.held : ChatTask → Option Int
  | .allocated n => some n
  | .counted n => some n
  | .initialised n => some n
  | .done ⟨_, .chat c⟩ => some c.Number
  | _ => none

/-- Whether an in-flight request has made its `INCR` of the chat sequence. -/
def ChatTask.past : ChatTask → Bool
  | .start => false
  | .validated => false
  | _ => true

/-- The `createChat` requests for one token that are in flight together, and
the store they share. -/
structure Pool (N : Nat) where
  tasks : Fin N → ChatTask
  store : Store

/-- All requests just arrived. -/
def Pool.initial (N : Nat) (s : Store) : Pool N :=
  { tasks := fun _ => .start, store := s }

/-- Request `i` has its next store call served. -/
def Pool.step {N : Nat} (envs : Fin N → Env) (appToken : String) (p : Pool N) (i : Fin N) :
    Pool N :=
  { tasks := fun j =>
      if j = i then (stepChat (envs i) appToken (p.tasks i) p.store).1 else p.tasks j
    store := (stepChat (envs i) appToken (p.tasks i) p.store).2 }

/-- The pool after the store calls were served in the order of `schedule`,
which names the request whose call is served next. -/
def Pool.run {N : Nat} (envs : Fin N → Env) (appToken : String) (p : Pool N)
    (schedule : List (Fin N)) : Pool N :=
  schedule.foldl (Pool.step envs appToken) p

/-- What holds of a pool at every moment of a run that started from store
`s0`: the chat sequence has been raised `m` times, by no more requests than
have made their `INCR`; the numbers held are distinct and lie among the `m`
handed out; a finished request was answered 500 or 201 with its number; and
the application key is still there. -/
def PoolInv {N : Nat} (appToken : String) (s0 : Store) (p : Pool N) : Prop :=
  ∃ m : Nat,
    (p.store (lastChatNumberKey appToken) = s0 (lastChatNumberKey appToken) ∧ m = 0 ∨
      p.store (lastChatNumberKey appToken) =
        some (.int (s0.counterAt (lastChatNumberKey appToken) + m))) ∧
    m ≤ (Finset.univ.filter (fun i => (p.tasks i).past = true)).card ∧
    (∀ i n, (p.tasks i).held = some n →
      s0.counterAt (lastChatNumberKey appToken) + 1 ≤ n ∧
      n ≤ s0.counterAt (lastChatNumberKey appToken) + m) ∧
    (∀ i j n, (p.tasks i).held = some n → (p.tasks j).held = some n → i = j) ∧
    (∀ i r, p.tasks i = .done r →
      r.status = 500 ∨ ∃ n ts, r = ⟨201, .chat ⟨n, appToken, ts⟩⟩) ∧
    p.store (chatsCountKey appToken) ≠ none

/-- Two requests whose store calls alternate. -/
def alternating : List (Fin 2) := [0, 1, 0, 1, 1, 0, 1, 0, 0, 1]

/-- No chat of a token lies ahead of its chat sequence in a store: for every
number, either the chat key and the message-sequence key of that number are
both missing, or the chat sequence of the token holds an integer that has
reached the number. -/
def NoChatsAhead (appToken : String) (s : Store) : Prop :=
  ∀ n : Int,
    (s (chatMessagesCountKey appToken n) = none ∧ s (lastMessageNumberKey appToken n) = none) ∨
    ∃ c, s (lastChatNumberKey appToken) = some (.int c) ∧ n ≤ c

/-- A first chat under token `abc` with two messages in it. -/
def earlierChat : List (Env × Request) :=
  [(calmEnv, .createChat "abc"), (calmEnv, .createMessage "abc" "1" (some "first")),
   (calmEnv, .createMessage "abc" "1" (some "second"))]

/-- Surroundings in which the first store call of the request (the existence
read) is lost, and all others are answered. -/
def readLostEnv : Env :=
  { calmEnv with fault := fun i => if i = 0 then .lostRequest else .served }

/-! ## Tokens that spell a key

The token goes into a key as it is (`%s`), so a key that begins with
`application:` is the application key of the token spelled by the rest of
it. -/

/-- The token whose application key is `lastChatNumberKey appToken`. -/
def tokenOfLastChatNumberKey (appToken : String) : String :=
  appToken ++ ":last_chat_number"

/-- The token whose application key is `chatMessagesCountKey appToken chatNumber`. -/
def tokenOfChatMessagesCountKey (appToken : String) (chatNumber : Int) : String :=
  appToken ++ ":chat:" ++ fmtInt chatNumber

/-- The token whose application key is `lastMessageNumberKey appToken chatNumber`. -/
def tokenOfLastMessageNumberKey (appToken : String) (chatNumber : Int) : String :=
  appToken ++ ":chat:" ++ fmtInt chatNumber ++ ":last_message_number"

/-- The tokens whose application key is a key the request can bring into
being. `createChat` makes its `INCR` on `lastChatNumberKey` and its `SET` on
the chat key of the number that `INCR` returns, one more than the sequence
held; `createMessage` makes its `INCR` on `lastMessageNumberKey` of the chat
number it scanned. The other keys a request writes are the application key
and the chat key it has found present, and the queue. -/
def Request.tokensOfNewKeys (s : Store) : Request → List String
  | .createChat token =>
    [tokenOfLastChatNumberKey token,
     tokenOfChatMessagesCountKey token (s.counterAt (lastChatNumberKey token) + 1)]
  | .createMessage token chatNumber _ =>
    match sscanfInt64 chatNumber with
    | some n => [tokenOfLastMessageNumberKey token n]
    | none => []

/-- Whether a request is a `createMessage` for chat `chatNumber` of token
`appToken` with a body that the binding accepts. -/
def Request.isMessageFor (appToken : String) (chatNumber : Int) : Request → Bool
  | .createMessage token cn (some b) =>
    decide (token = appToken) && decide (sscanfInt64 cn = some chatNumber) && decide (b ≠ "")
  | _ => false

/-- A store in which token `abc` is registered, has no chat yet, and the
message-sequence key of its chat 1 holds 5. -/
def staleStore : Store :=
  fun k =>
    if k = "application:abc" then some (.int 0)
    else if k = "application:abc:chat:1:last_message_number" then some (.int 5)
    else none

/-- A chat and two messages in it, with a `createChat` for the token spelled by
the message-sequence key of that chat served between the two messages. -/
def aliasRun : List (Env × Request) :=
  [(calmEnv, .createChat "abc"),
   (calmEnv, .createMessage "abc" "1" (some "hi")),
   (calmEnv, .createChat "abc:chat:1:last_message_number"),
   (calmEnv, .createMessage "abc" "1" (some "hi again"))]

/-- Requests served after chat 2 of `abc` was created and before its first
message: a third chat, a third message in chat 1, a message for chat 2 without
a body, and a `createChat` for the token spelled by the message-sequence key
of chat 2. -/
def beforeFirstMessage : List (Env × Request) :=
  [(calmEnv, .createChat "abc"),
   (calmEnv, .createMessage "abc" "1" (some "third")),
   (calmEnv, .createMessage "abc" "2" none),
   (calmEnv, .createChat "abc:chat:2:last_message_number")]

/-- Requests served between the first two messages of chat 2 of `abc`: a
message in chat 3, a fourth chat whose enqueue is lost, and a message for an
unregistered token. -/
def beforeSecondMessage : List (Env × Request) :=
  [(calmEnv, .createMessage "abc" "3" (some "elsewhere")),
   (enqueueLostEnv, .createChat "abc"),
   (calmEnv, .createMessage "ghost" "2" (some "hi"))]


/-! ## Facts about the `%d` rendering -/

theorem digitChar_toNat {d : Nat} (h : d < 10) : (digitChar d).toNat = 48 + d := by
  interval_cases d <;> rfl

theorem digitChar_ne_colon {d : Nat} (h : d < 10) : digitChar d ≠ ':' := by
  interval_cases d <;> decide

theorem digitChar_ne_minus {d : Nat} (h : d < 10) : digitChar d ≠ '-' := by
  interval_cases d <;> decide

theorem digitChar_ne_r {d : Nat} (h : d < 10) : digitChar d ≠ 'r' := by
  interval_cases d <;> decide

theorem mem_decimalDigits {fuel n : Nat} {c : Char} (hc : c ∈ decimalDigits fuel n) :
    ∃ d, d < 10 ∧ c = digitChar d := by
  induction fuel generalizing n with
  | zero => simp [decimalDigits] at hc
  | succ k ih =>
    unfold decimalDigits at hc
    split at hc
    · rename_i hn
      simp only [List.mem_singleton] at hc
      exact ⟨n, hn, hc⟩
    · simp only [List.mem_append, List.mem_singleton] at hc
      rcases hc with h | h
      · exact ih h
      · exact ⟨n % 10, Nat.mod_lt _ (by decide), h⟩

theorem digitsValue_snoc (ds : List Char) (c : Char) :
    digitsValue (ds ++ [c]) = 10 * digitsValue ds + (c.toNat - 48) := by
  simp [digitsValue, List.foldl_append]

theorem digitsValue_decimalDigits {fuel n : Nat} (h : n < fuel) :
    digitsValue (decimalDigits fuel n) = n := by
  induction fuel generalizing n with
  | zero => omega
  | succ k ih =>
    unfold decimalDigits
    split
    · rename_i hn
      simp [digitsValue, digitChar_toNat hn]
    · rename_i hn
      have hk : n / 10 < k := by omega
      rw [digitsValue_snoc, ih hk, digitChar_toNat (Nat.mod_lt _ (by decide))]
      omega

theorem decimalDigits_snoc (fuel n : Nat) :
    ∃ init d, d < 10 ∧ decimalDigits (fuel + 1) n = init ++ [digitChar d] := by
  unfold decimalDigits
  split
  · rename_i hn
    exact ⟨[], n, hn, rfl⟩
  · exact ⟨_, n % 10, Nat.mod_lt _ (by decide), rfl⟩

/-- The shape of what `%d` prints: digits that spell the absolute value,
after a minus sign for a negative number. -/
theorem fmtInt_data (n : Int) :
    ∃ ds : List Char, (∀ c ∈ ds, ∃ d, d < 10 ∧ c = digitChar d) ∧
      (∃ init d, d < 10 ∧ ds = init ++ [digitChar d]) ∧
      digitsValue ds = n.natAbs ∧
      (fmtInt n).data = if n < 0 then '-' :: ds else ds := by
  refine ⟨decimalDigits (n.natAbs + 1) n.natAbs, fun c hc => mem_decimalDigits hc,
    decimalDigits_snoc _ _, digitsValue_decimalDigits (Nat.lt_succ_self _), ?_⟩
  unfold fmtInt
  split <;> rfl

theorem colon_not_mem_fmtInt (n : Int) : ':' ∉ (fmtInt n).data := by
  obtain ⟨ds, hds, -, -, hdata⟩ := fmtInt_data n
  rw [hdata]
  intro hmem
  have hin : ':' ∈ ds := by
    split at hmem
    · simpa using hmem
    · exact hmem
  obtain ⟨d, hd, hc⟩ := hds _ hin
  exact digitChar_ne_colon hd hc.symm

theorem fmtInt_snoc (n : Int) :
    ∃ init d, d < 10 ∧ (fmtInt n).data = init ++ [digitChar d] := by
  obtain ⟨ds, -, ⟨init, d, hd, hsnoc⟩, -, hdata⟩ := fmtInt_data n
  split at hdata
  · exact ⟨'-' :: init, d, hd, by rw [hdata, hsnoc]; rfl⟩
  · exact ⟨init, d, hd, by rw [hdata, hsnoc]⟩

theorem fmtInt_injective {a b : Int} (h : fmtInt a = fmtInt b) : a = b := by
  obtain ⟨da, hda, ⟨ia, xa, hxa, hsa⟩, hva, hdata⟩ := fmtInt_data a
  obtain ⟨db, hdb, ⟨ib, xb, hxb, hsb⟩, hvb, hdatb⟩ := fmtInt_data b
  have hd : (fmtInt a).data = (fmtInt b).data := congrArg String.data h
  rw [hdata, hdatb] at hd
  have hne : ∀ ds : List Char, (∀ c ∈ ds, ∃ d, d < 10 ∧ c = digitChar d) →
      ∀ rest, ds ≠ '-' :: rest := by
    intro ds hds rest heq
    obtain ⟨d, hd, hc⟩ := hds '-' (by rw [heq]; exact List.mem_cons_self _ _)
    exact digitChar_ne_minus hd hc.symm
  by_cases ha : a < 0 <;> by_cases hb : b < 0
  · simp only [ha, hb, if_true, List.cons.injEq, true_and] at hd
    have : a.natAbs = b.natAbs := by rw [← hva, ← hvb, hd]
    omega
  · simp only [ha, hb, if_true, if_false] at hd
    exact absurd hd.symm (hne db hdb da)
  · simp only [ha, hb, if_true, if_false] at hd
    exact absurd hd (hne da hda db)
  · simp only [ha, hb, if_false] at hd
    have : a.natAbs = b.natAbs := by rw [← hva, ← hvb, hd]
    omega

/-! ## Facts about the keys -/

theorem str_append_left_cancel (p a b : String) : p ++ a = p ++ b ↔ a = b := by
  constructor
  · intro h
    have := congrArg String.data h
    simp only [String.data_append] at this
    exact String.ext (List.append_cancel_left this)
  · rintro rfl; rfl

theorem list_split_at_first {α : Type} {c : α} {x₁ x₂ z₁ z₂ : List α}
    (h₁ : c ∉ x₁) (h₂ : c ∉ x₂) (h : x₁ ++ c :: z₁ = x₂ ++ c :: z₂) : x₁ = x₂ ∧ z₁ = z₂ := by
  induction x₁ generalizing x₂ with
  | nil =>
    cases x₂ with
    | nil => simpa using h
    | cons b t =>
      simp only [List.nil_append, List.cons_append, List.cons.injEq] at h
      exact absurd (h.1 ▸ List.mem_cons_self _ _) h₂
  | cons a t ih =>
    cases x₂ with
    | nil =>
      simp only [List.nil_append, List.cons_append, List.cons.injEq] at h
      exact absurd (h.1 ▸ List.mem_cons_self _ _) h₁
    | cons b u =>
      simp only [List.cons_append, List.cons.injEq] at h
      have := ih (fun hm => h₁ (List.mem_cons_of_mem _ hm))
        (fun hm => h₂ (List.mem_cons_of_mem _ hm)) h.2
      exact ⟨by rw [h.1, this.1], this.2⟩

theorem chatsCountKey_inj {a b : String} : chatsCountKey a = chatsCountKey b ↔ a = b := by
  unfold chatsCountKey
  exact str_append_left_cancel _ _ _

/-- Two chat keys coincide only for the same token and the same number. -/
theorem chatMessagesCountKey_inj {t u : String} {m n : Int}
    (h : chatMessagesCountKey t m = chatMessagesCountKey u n) : t = u ∧ m = n := by
  unfold chatMessagesCountKey at h
  have hd := congrArg String.data h
  simp only [String.data_append] at hd
  have hr := congrArg List.reverse hd
  simp only [List.reverse_append] at hr
  have hsplit : (fmtInt m).data.reverse ++ ':' :: ("tahc:".data ++ (t.data.reverse ++ "application:".data.reverse))
      = (fmtInt n).data.reverse ++ ':' :: ("tahc:".data ++ (u.data.reverse ++ "application:".data.reverse)) := by
    simpa using hr
  obtain ⟨h1, h2⟩ := list_split_at_first
    (by simpa using colon_not_mem_fmtInt m) (by simpa using colon_not_mem_fmtInt n) hsplit
  have hmn : m = n := fmtInt_injective (String.ext (List.reverse_injective h1))
  have htu : t.data.reverse = u.data.reverse :=
    List.append_cancel_right (List.append_cancel_left h2)
  exact ⟨String.ext (List.reverse_injective htu), hmn⟩


/-! ## Facts about the store calls -/

theorem Store.put_same (s : Store) (k : String) (v : Value) : (s.put k v) k = some v := by
  simp [Store.put]

theorem Store.put_other (s : Store) {k k' : String} (v : Value) (h : k' ≠ k) :
    (s.put k v) k' = s k' := by
  simp [Store.put, h]

theorem serverIncr_store (k : String) (s : Store) :
    ((serverIncr k s).2 = s ∧ ∃ e, (serverIncr k s).1 = .error e) ∨
    ∃ n, serverIncr k s = (.ok n, s.put k (.int n)) ∧
      (s k = none ∧ n = 1 ∨ ∃ c, s k = some (.int c) ∧ n = c + 1) := by
  unfold serverIncr
  rcases hk : s k with _ | (c | r | l)
  · exact Or.inr ⟨1, rfl, Or.inl ⟨rfl, rfl⟩⟩
  · simp only
    split_ifs
    · exact Or.inl ⟨rfl, _, rfl⟩
    · exact Or.inl ⟨rfl, _, rfl⟩
    · exact Or.inr ⟨c + 1, rfl, Or.inr ⟨c, rfl, rfl⟩⟩
  · exact Or.inl ⟨rfl, _, rfl⟩
  · exact Or.inl ⟨rfl, _, rfl⟩

/-- A successful `INCR`: the key now holds the returned number, which is one
more than what it held (0 for a missing key). -/
theorem rdbIncr_ok {f : Fault} {k : String} {s s' : Store} {n : Int}
    (h : rdbIncr f k s = (.ok n, s')) :
    s' = s.put k (.int n) ∧ (s k = none ∧ n = 1 ∨ ∃ c, s k = some (.int c) ∧ n = c + 1) := by
  unfold rdbIncr withFault at h
  cases f with
  | served =>
    simp only at h
    rcases serverIncr_store k s with ⟨-, e, he⟩ | ⟨m, hm, hval⟩
    · rw [h] at he; simp at he
    · rw [hm] at h
      simp only [Prod.mk.injEq, Except.ok.injEq] at h
      obtain ⟨rfl, rfl⟩ := h
      exact ⟨rfl, hval⟩
  | lostRequest => simp at h
  | lostReply => simp at h

/-- Whatever its outcome, `INCR` leaves the store as it was or with the key
raised by one. -/
theorem rdbIncr_store (f : Fault) (k : String) (s : Store) :
    (rdbIncr f k s).2 = s ∨
    ∃ n, (rdbIncr f k s).2 = s.put k (.int n) ∧
      (s k = none ∧ n = 1 ∨ ∃ c, s k = some (.int c) ∧ n = c + 1) := by
  unfold rdbIncr withFault
  cases f with
  | served =>
    rcases serverIncr_store k s with ⟨h, -⟩ | ⟨m, hm, hval⟩
    · exact Or.inl h
    · exact Or.inr ⟨m, by simp only [hm], hval⟩
  | lostRequest => exact Or.inl rfl
  | lostReply =>
    rcases serverIncr_store k s with ⟨h, -⟩ | ⟨m, hm, hval⟩
    · exact Or.inl h
    · exact Or.inr ⟨m, by simp only [hm], hval⟩

theorem rdbSet_ok {f : Fault} {k : String} {s s' : Store}
    (h : rdbSet f k s = (.ok (), s')) : s' = s.put k (.int 0) := by
  unfold rdbSet withFault at h
  cases f <;> simp at h
  exact h.symm

theorem rdbSet_store (f : Fault) (k : String) (s : Store) :
    (rdbSet f k s).2 = s ∨ (rdbSet f k s).2 = s.put k (.int 0) := by
  unfold rdbSet withFault
  cases f
  · exact Or.inr rfl
  · exact Or.inl rfl
  · exact Or.inr rfl

theorem serverRPush_store (k : String) (item : Json) (s : Store) :
    ((serverRPush k item s).2 = s ∧ ∃ e, (serverRPush k item s).1 = .error e) ∨
    ((∃ n, serverRPush k item s = (.ok n, s.put k (.list (s.listAt k ++ [item])))) ∧
      (s k = none ∨ ∃ items, s k = some (.list items))) := by
  unfold serverRPush Store.listAt
  rcases hk : s k with _ | (c | r | l)
  · exact Or.inr ⟨⟨_, rfl⟩, Or.inl rfl⟩
  · exact Or.inl ⟨rfl, _, rfl⟩
  · exact Or.inl ⟨rfl, _, rfl⟩
  · exact Or.inr ⟨⟨_, rfl⟩, Or.inr ⟨l, rfl⟩⟩

theorem rdbRPush_ok {f : Fault} {k : String} {item : Json} {s s' : Store} {n : Int}
    (h : rdbRPush f k item s = (.ok n, s')) :
    s' = s.put k (.list (s.listAt k ++ [item])) := by
  unfold rdbRPush withFault at h
  cases f with
  | served =>
    simp only at h
    rcases serverRPush_store k item s with ⟨-, e, he⟩ | ⟨⟨m, hm⟩, -⟩
    · rw [h] at he; simp at he
    · rw [hm] at h
      simp only [Prod.mk.injEq] at h
      exact h.2.symm
  | lostRequest => simp at h
  | lostReply => simp at h

theorem rdbRPush_store (f : Fault) (k : String) (item : Json) (s : Store) :
    (rdbRPush f k item s).2 = s ∨
    ((rdbRPush f k item s).2 = s.put k (.list (s.listAt k ++ [item])) ∧
      (s k = none ∨ ∃ items, s k = some (.list items))) := by
  unfold rdbRPush withFault
  cases f with
  | served =>
    rcases serverRPush_store k item s with ⟨h, -⟩ | ⟨⟨m, hm⟩, hval⟩
    · exact Or.inl h
    · exact Or.inr ⟨by simp only [hm], hval⟩
  | lostRequest => exact Or.inl rfl
  | lostReply =>
    rcases serverRPush_store k item s with ⟨h, -⟩ | ⟨⟨m, hm⟩, hval⟩
    · exact Or.inl h
    · exact Or.inr ⟨by simp only [hm], hval⟩

/-- The existence check passes exactly when the read is answered and the key
holds a string. -/
theorem validateApplicationToken_none {f : Fault} {s : Store} {t : String} :
    validateApplicationToken f s t = none ↔
      f = .served ∧ ((∃ n, s (chatsCountKey t) = some (.int n)) ∨
        ∃ v, s (chatsCountKey t) = some (.raw v)) := by
  unfold validateApplicationToken rdbGet
  cases f <;> simp
  rcases hk : s (chatsCountKey t) with _ | (c | r | l) <;> simp

theorem validateApplicationToken_present {f : Fault} {s : Store} {t : String}
    (h : validateApplicationToken f s t = none) : s (chatsCountKey t) ≠ none := by
  rcases validateApplicationToken_none.mp h with ⟨-, ⟨n, hn⟩ | ⟨v, hv⟩⟩
  · rw [hn]; simp
  · rw [hv]; simp

/-- On a missing key the existence check reports "application not found"
when the read is answered, and a store error otherwise. -/
theorem validateApplicationToken_absent {f : Fault} {s : Store} {t : String}
    (h : s (chatsCountKey t) = none) :
    validateApplicationToken f s t =
      some (if f = .served then "application not found" else RedisErr.timeout.Error) := by
  unfold validateApplicationToken rdbGet
  cases f <;> simp [h]

theorem handleValidationError_status (err t : String) :
    (handleValidationError err t).status = 404 ∧ err = "application not found" ∨
    (handleValidationError err t).status = 500 ∧ err ≠ "application not found" := by
  unfold handleValidationError respondWithError
  by_cases h : err = "application not found"
  · left; simp [h]
  · right; simp [h]

theorem generateJID_ok (env : Env) :
    generateJID env = .ok (hexEncodeToString ((List.range jidByteLength).map env.rand)) := by
  rfl


/-! ## The paths through the handlers -/

theorem enqueueSidekiqJob_ok {f : Fault} {s s' : Store} {job : SidekiqJob}
    (h : enqueueSidekiqJob f s job = (none, s')) :
    s' = s.put (queueKey job.Queue)
      (.list (s.listAt (queueKey job.Queue) ++ [marshalSidekiqJob job])) := by
  unfold enqueueSidekiqJob jsonMarshal at h
  simp only at h
  rcases hp : rdbRPush f (queueKey job.Queue) (marshalSidekiqJob job) s with ⟨r, s1⟩
  rw [hp] at h
  cases r with
  | error e => simp at h
  | ok n =>
    simp only [Prod.mk.injEq, true_and] at h
    rw [← h]
    exact rdbRPush_ok hp

theorem enqueueSidekiqJob_store (f : Fault) (s : Store) (job : SidekiqJob) :
    (enqueueSidekiqJob f s job).2 = s ∨
    ((enqueueSidekiqJob f s job).2 = s.put (queueKey job.Queue)
        (.list (s.listAt (queueKey job.Queue) ++ [marshalSidekiqJob job])) ∧
      (s (queueKey job.Queue) = none ∨ ∃ items, s (queueKey job.Queue) = some (.list items))) := by
  have h := rdbRPush_store f (queueKey job.Queue) (marshalSidekiqJob job) s
  unfold enqueueSidekiqJob jsonMarshal
  simp only
  rcases hp : rdbRPush f (queueKey job.Queue) (marshalSidekiqJob job) s with ⟨r, s1⟩
  rw [hp] at h
  cases r <;> exact h

theorem enqueueChatCreationJob_eq (env : Env) (f : Fault) (s : Store) (chat : Chat) :
    enqueueChatCreationJob env f s chat = enqueueSidekiqJob f s (chatCreationJob env chat) := by
  rfl

theorem enqueueMessageCreationJob_eq (env : Env) (f : Fault) (s : Store) (message : Message) :
    enqueueMessageCreationJob env f s message =
      enqueueSidekiqJob f s (messageCreationJob env message) := by
  rfl

/-- Every path through `createChat`, by the outcome of its store calls in
order. -/
theorem createChat_cases (env : Env) (s : Store) (t : String) :
    (t = "" ∧ createChat env s t = (respondWithError 400 "Application token is required", s)) ∨
    (t ≠ "" ∧ ∃ err, validateApplicationToken (env.fault 0) s t = some err ∧
      createChat env s t = (handleValidationError err t, s)) ∨
    (t ≠ "" ∧ validateApplicationToken (env.fault 0) s t = none ∧
      ((∃ e s1, rdbIncr (env.fault 1) (lastChatNumberKey t) s = (.error e, s1) ∧
          createChat env s t = (respondWithError 500 "Internal server error", s1)) ∨
       (∃ n s1, rdbIncr (env.fault 1) (lastChatNumberKey t) s = (.ok n, s1) ∧
        ((∃ e s2, rdbIncr (env.fault 2) (chatsCountKey t) s1 = (.error e, s2) ∧
            createChat env s t = (respondWithError 500 "Internal server error", s2)) ∨
         (∃ m s2, rdbIncr (env.fault 2) (chatsCountKey t) s1 = (.ok m, s2) ∧
          ((∃ e s3, rdbSet (env.fault 3) (chatMessagesCountKey t n) s2 = (.error e, s3) ∧
              createChat env s t = (respondWithError 500 "Internal server error", s3)) ∨
           (∃ s3, rdbSet (env.fault 3) (chatMessagesCountKey t n) s2 = (.ok (), s3) ∧
            ((∃ e s4, enqueueChatCreationJob env (env.fault 4) s3 ⟨n, t, env.now 0⟩ = (some e, s4) ∧
                createChat env s t = (respondWithError 500 "Internal server error", s4)) ∨
             (∃ s4, enqueueChatCreationJob env (env.fault 4) s3 ⟨n, t, env.now 0⟩ = (none, s4) ∧
                createChat env s t = (⟨201, .chat ⟨n, t, env.now 0⟩⟩, s4)))))))))) := by
  unfold createChat
  by_cases ht : t = ""
  · left; exact ⟨ht, by simp [ht]⟩
  right
  simp only [ht, if_false]
  rcases hv : validateApplicationToken (env.fault 0) s t with _ | err
  swap
  · left; exact ⟨ht, err, rfl, rfl⟩
  right
  refine ⟨ht, rfl, ?_⟩
  simp only
  rcases h1 : rdbIncr (env.fault 1) (lastChatNumberKey t) s with ⟨r1, s1⟩
  cases r1 with
  | error e => left; exact ⟨e, s1, rfl, rfl⟩
  | ok n =>
    right
    refine ⟨n, s1, rfl, ?_⟩
    simp only
    rcases h2 : rdbIncr (env.fault 2) (chatsCountKey t) s1 with ⟨r2, s2⟩
    cases r2 with
    | error e => left; exact ⟨e, s2, rfl, rfl⟩
    | ok m =>
      right
      refine ⟨m, s2, rfl, ?_⟩
      simp only
      rcases h3 : rdbSet (env.fault 3) (chatMessagesCountKey t n) s2 with ⟨r3, s3⟩
      cases r3 with
      | error e => left; exact ⟨e, s3, rfl, rfl⟩
      | ok u =>
        right
        refine ⟨s3, rfl, ?_⟩
        simp only
        rcases h4 : enqueueChatCreationJob env (env.fault 4) s3 ⟨n, t, env.now 0⟩ with ⟨r4, s4⟩
        cases r4 with
        | some e => left; exact ⟨e, s4, rfl, rfl⟩
        | none => right; exact ⟨s4, rfl, rfl⟩

/-- Every path through `createMessage`, by its checks and the outcome of its
store calls in order. -/
theorem createMessage_cases (env : Env) (s : Store) (t cn : String) (body : Option String) :
    ((createMessage env s t cn body).1.status = 400 ∧ (createMessage env s t cn body).2 = s ∧
      (t = "" ∨ sscanfInt64 cn = none ∨ body = none ∨ body = some "")) ∨
    (∃ n b, t ≠ "" ∧ cn ≠ "" ∧ sscanfInt64 cn = some n ∧ body = some b ∧ b ≠ "" ∧
      ((∃ err, validateApplicationToken (env.fault 0) s t = some err ∧
          createMessage env s t cn body = (handleValidationError err t, s)) ∨
       (validateApplicationToken (env.fault 0) s t = none ∧
        ((∃ e, rdbExists (env.fault 1) (chatMessagesCountKey t n) s = .error e ∧
            createMessage env s t cn body =
              (respondWithError 500 "Internal server error", s)) ∨
         (rdbExists (env.fault 1) (chatMessagesCountKey t n) s = .ok 0 ∧
            createMessage env s t cn body =
              (respondWithError 404
                ("Chat " ++ fmtInt n ++ " not found for application " ++ t), s)) ∨
         (rdbExists (env.fault 1) (chatMessagesCountKey t n) s = .ok 1 ∧
          ((∃ e s1, rdbIncr (env.fault 2) (lastMessageNumberKey t n) s = (.error e, s1) ∧
              createMessage env s t cn body =
                (respondWithError 500 "Internal server error", s1)) ∨
           (∃ k s1, rdbIncr (env.fault 2) (lastMessageNumberKey t n) s = (.ok k, s1) ∧
            ((∃ e s2, rdbIncr (env.fault 3) (chatMessagesCountKey t n) s1 = (.error e, s2) ∧
                createMessage env s t cn body =
                  (respondWithError 500 "Internal server error", s2)) ∨
             (∃ m s2, rdbIncr (env.fault 3) (chatMessagesCountKey t n) s1 = (.ok m, s2) ∧
              ((∃ e s3, enqueueMessageCreationJob env (env.fault 4) s2
                    ⟨k, b, n, t, env.now 0⟩ = (some e, s3) ∧
                  createMessage env s t cn body =
                    (respondWithError 500 "Internal server error", s3)) ∨
               (∃ s3, enqueueMessageCreationJob env (env.fault 4) s2
                    ⟨k, b, n, t, env.now 0⟩ = (none, s3) ∧
                  createMessage env s t cn body =
                    (⟨201, .message ⟨k, b, n, t, env.now 0⟩⟩, s3)))))))))))) := by
  unfold createMessage
  by_cases ht : t = ""
  · left; simp [ht, respondWithError]
  by_cases hc : cn = ""
  · left
    subst hc
    simp [ht, respondWithError]
    left; decide
  simp only [ht, hc, if_false]
  rcases hs : sscanfInt64 cn with _ | n
  · left; simp [respondWithError]
  simp only
  unfold shouldBindJSON
  rcases body with _ | b
  · left; simp [respondWithError]
  by_cases hb : b = ""
  · left; simp [hb, respondWithError]
  simp only [hb, if_false]
  right
  refine ⟨n, b, ht, hc, rfl, rfl, hb, ?_⟩
  rcases hv : validateApplicationToken (env.fault 0) s t with _ | err
  swap
  · left; exact ⟨err, rfl, rfl⟩
  right
  refine ⟨rfl, ?_⟩
  simp only
  have hex : rdbExists (env.fault 1) (chatMessagesCountKey t n) s = .error .timeout ∨
      rdbExists (env.fault 1) (chatMessagesCountKey t n) s = .ok 0 ∨
      rdbExists (env.fault 1) (chatMessagesCountKey t n) s = .ok 1 := by
    unfold rdbExists
    cases env.fault 1 <;> simp
    cases s (chatMessagesCountKey t n) <;> simp
  rcases hex with hex | hex | hex
  · left; exact ⟨_, hex, by rw [hex]⟩
  · right; left; exact ⟨hex, by rw [hex]; simp⟩
  right; right
  refine ⟨hex, ?_⟩
  rw [hex]
  simp only [one_ne_zero, if_false]
  rcases h1 : rdbIncr (env.fault 2) (lastMessageNumberKey t n) s with ⟨r1, s1⟩
  cases r1 with
  | error e => left; exact ⟨e, s1, rfl, rfl⟩
  | ok k =>
    right
    refine ⟨k, s1, rfl, ?_⟩
    simp only
    rcases h2 : rdbIncr (env.fault 3) (chatMessagesCountKey t n) s1 with ⟨r2, s2⟩
    cases r2 with
    | error e => left; exact ⟨e, s2, rfl, rfl⟩
    | ok m =>
      right
      refine ⟨m, s2, rfl, ?_⟩
      simp only
      rcases h4 : enqueueMessageCreationJob env (env.fault 4) s2 ⟨k, b, n, t, env.now 0⟩
        with ⟨r4, s4⟩
      cases r4 with
      | some e => left; exact ⟨e, s4, rfl, rfl⟩
      | none => right; exact ⟨s4, rfl, rfl⟩


/-! ## Which keys can coincide -/

theorem queueKey_ne_chatsCountKey (q t : String) : queueKey q ≠ chatsCountKey t := by
  unfold queueKey chatsCountKey
  intro h
  have := congrArg String.data h
  simp [String.data_append] at this

theorem queueKey_ne_lastChatNumberKey (q t : String) : queueKey q ≠ lastChatNumberKey t := by
  unfold queueKey lastChatNumberKey
  intro h
  have := congrArg String.data h
  simp [String.data_append] at this

theorem queueKey_ne_chatMessagesCountKey (q t : String) (n : Int) :
    queueKey q ≠ chatMessagesCountKey t n := by
  unfold queueKey chatMessagesCountKey
  intro h
  have := congrArg String.data h
  simp [String.data_append] at this

theorem queueKey_ne_lastMessageNumberKey (q t : String) (n : Int) :
    queueKey q ≠ lastMessageNumberKey t n := by
  unfold queueKey lastMessageNumberKey
  intro h
  have := congrArg String.data h
  simp [String.data_append] at this

theorem queueKey_chats_ne_messages :
    queueKey sidekiqQueueChatsCreation ≠ queueKey sidekiqQueueMessageCreation := by
  decide

theorem lastChatNumberKey_ne_chatsCountKey (t : String) :
    lastChatNumberKey t ≠ chatsCountKey t := by
  unfold lastChatNumberKey chatsCountKey
  intro h
  have := congrArg String.data h
  simp [String.data_append] at this

theorem chatMessagesCountKey_ne_chatsCountKey (t : String) (n : Int) :
    chatMessagesCountKey t n ≠ chatsCountKey t := by
  unfold chatMessagesCountKey chatsCountKey
  intro h
  have := congrArg String.data h
  simp [String.data_append] at this

theorem lastMessageNumberKey_ne_chatsCountKey (t : String) (n : Int) :
    lastMessageNumberKey t n ≠ chatsCountKey t := by
  unfold lastMessageNumberKey chatsCountKey
  intro h
  have := congrArg String.data h
  simp [String.data_append] at this

theorem lastMessageNumberKey_ne_lastChatNumberKey (t : String) (n : Int) :
    lastMessageNumberKey t n ≠ lastChatNumberKey t := by
  unfold lastMessageNumberKey lastChatNumberKey
  intro h
  have := congrArg String.data h
  simp [String.data_append] at this

/-- A chat key ends in a digit, so it is never the chat-sequence key of any
token. -/
theorem chatMessagesCountKey_ne_lastChatNumberKey (t u : String) (n : Int) :
    chatMessagesCountKey t n ≠ lastChatNumberKey u := by
  obtain ⟨init, d, hd, hf⟩ := fmtInt_snoc n
  unfold chatMessagesCountKey lastChatNumberKey
  intro h
  have := congrArg (fun l => l.reverse.head?) (congrArg String.data h)
  simp [String.data_append, hf] at this
  exact digitChar_ne_r hd this

/-- A chat key ends in a digit, so it is never the message-sequence key of
any token and chat. -/
theorem chatMessagesCountKey_ne_lastMessageNumberKey (t u : String) (n m : Int) :
    chatMessagesCountKey t n ≠ lastMessageNumberKey u m := by
  obtain ⟨init, d, hd, hf⟩ := fmtInt_snoc n
  unfold chatMessagesCountKey lastMessageNumberKey
  intro h
  have := congrArg (fun l => l.reverse.head?) (congrArg String.data h)
  simp [String.data_append, hf] at this
  exact digitChar_ne_r hd this

/-- The application key of `u` is one of the other keys of token `t` only
when `u` is `t` followed by a colon and more. -/
theorem chatsCountKey_eq_lastChatNumberKey {u t : String}
    (h : chatsCountKey u = lastChatNumberKey t) : u = t ++ ":" ++ "last_chat_number" := by
  unfold chatsCountKey lastChatNumberKey at h
  rw [String.append_assoc, str_append_left_cancel] at h
  rw [h]
  apply String.ext
  simp [String.data_append]

theorem chatsCountKey_eq_chatMessagesCountKey {u t : String} {n : Int}
    (h : chatsCountKey u = chatMessagesCountKey t n) : u = t ++ ":" ++ ("chat:" ++ fmtInt n) := by
  unfold chatsCountKey chatMessagesCountKey at h
  rw [String.append_assoc, String.append_assoc, str_append_left_cancel] at h
  rw [h]
  apply String.ext
  simp [String.data_append]

theorem chatsCountKey_eq_lastMessageNumberKey {u t : String} {n : Int}
    (h : chatsCountKey u = lastMessageNumberKey t n) :
    u = t ++ ":" ++ ("chat:" ++ fmtInt n ++ ":last_message_number") := by
  unfold chatsCountKey lastMessageNumberKey at h
  rw [String.append_assoc, String.append_assoc, String.append_assoc, str_append_left_cancel] at h
  rw [h]
  apply String.ext
  simp [String.data_append]

/-- A chat-sequence key is never a message-sequence key, whatever the
tokens. -/
theorem lastChatNumberKey_ne_lastMessageNumberKey (u t : String) (n : Int) :
    lastChatNumberKey u ≠ lastMessageNumberKey t n := by
  unfold lastChatNumberKey lastMessageNumberKey
  intro h
  have := congrArg (fun l => l.reverse.take 8) (congrArg String.data h)
  simp [String.data_append] at this

/-- Two message-sequence keys coincide only for the same token and chat. -/
theorem lastMessageNumberKey_inj {t u : String} {m n : Int}
    (h : lastMessageNumberKey t m = lastMessageNumberKey u n) : t = u ∧ m = n := by
  apply chatMessagesCountKey_inj
  unfold lastMessageNumberKey at h
  unfold chatMessagesCountKey
  have hd := congrArg String.data h
  simp only [String.data_append] at hd
  apply String.ext
  simp only [String.data_append]
  exact List.append_cancel_right hd


/-! ## Properties of the store that the handlers carry along -/

theorem rdbIncr_keeps (f : Fault) (key : String) {k : String} {s : Store} (h : s k ≠ none) :
    (rdbIncr f key s).2 k ≠ none := by
  rcases rdbIncr_store f key s with h1 | ⟨n, h1, -⟩
  · rw [h1]; exact h
  · rw [h1]
    by_cases hk : k = key
    · subst hk; rw [Store.put_same]; simp
    · rw [Store.put_other _ _ hk]; exact h

theorem rdbIncr_other {f : Fault} {key k : String} {s : Store} (h : k ≠ key) :
    (rdbIncr f key s).2 k = s k := by
  rcases rdbIncr_store f key s with h1 | ⟨n, h1, -⟩
  · rw [h1]
  · rw [h1, Store.put_other _ _ h]

theorem rdbSet_other {f : Fault} {key k : String} {s : Store} (h : k ≠ key) :
    (rdbSet f key s).2 k = s k := by
  rcases rdbSet_store f key s with h1 | h1
  · rw [h1]
  · rw [h1, Store.put_other _ _ h]

theorem enqueueSidekiqJob_other {f : Fault} {job : SidekiqJob} {k : String} {s : Store}
    (h : k ≠ queueKey job.Queue) : (enqueueSidekiqJob f s job).2 k = s k := by
  rcases enqueueSidekiqJob_store f s job with h1 | ⟨h1, -⟩
  · rw [h1]
  · rw [h1, Store.put_other _ _ h]

/-- A property of the store that every store call of `createChat` keeps is
kept by `createChat`, whatever path it takes. -/
theorem createChat_preserves {Q : Store → Prop} (env : Env) (s : Store) (t : String)
    (hincr₁ : ∀ f s0, Q s0 → Q (rdbIncr f (lastChatNumberKey t) s0).2)
    (hincr₂ : ∀ f s0, s0 (chatsCountKey t) ≠ none → Q s0 →
      Q (rdbIncr f (chatsCountKey t) s0).2)
    (hset : ∀ f n s0, Q s0 → Q (rdbSet f (chatMessagesCountKey t n) s0).2)
    (hpush : ∀ f job s0, job.Queue = sidekiqQueueChatsCreation → Q s0 →
      Q (enqueueSidekiqJob f s0 job).2)
    (h : Q s) : Q (createChat env s t).2 := by
  rcases createChat_cases env s t with ⟨-, hr⟩ | ⟨-, err, -, hr⟩ | ⟨-, hv, hrest⟩
  · rw [hr]; exact h
  · rw [hr]; exact h
  have hpres := validateApplicationToken_present hv
  rcases hrest with ⟨e, s1, h1, hr⟩ | ⟨n, s1, h1, hrest⟩
  · rw [hr]
    have := hincr₁ (env.fault 1) s h
    rwa [h1] at this
  have q1 : Q s1 := by
    have := hincr₁ (env.fault 1) s h
    rwa [h1] at this
  have p1 : s1 (chatsCountKey t) ≠ none := by
    have := rdbIncr_keeps (env.fault 1) (lastChatNumberKey t) hpres
    rwa [h1] at this
  rcases hrest with ⟨e, s2, h2, hr⟩ | ⟨m, s2, h2, hrest⟩
  · rw [hr]
    have := hincr₂ (env.fault 2) s1 p1 q1
    rwa [h2] at this
  have q2 : Q s2 := by
    have := hincr₂ (env.fault 2) s1 p1 q1
    rwa [h2] at this
  rcases hrest with ⟨e, s3, h3, hr⟩ | ⟨s3, h3, hrest⟩
  · rw [hr]
    have := hset (env.fault 3) n s2 q2
    rwa [h3] at this
  have q3 : Q s3 := by
    have := hset (env.fault 3) n s2 q2
    rwa [h3] at this
  rcases hrest with ⟨e, s4, h4, hr⟩ | ⟨s4, h4, hr⟩
  · rw [hr]
    have := hpush (env.fault 4) (chatCreationJob env ⟨n, t, env.now 0⟩) s3 rfl q3
    rw [show enqueueSidekiqJob (env.fault 4) s3 (chatCreationJob env ⟨n, t, env.now 0⟩) = _
      from h4] at this
    exact this
  · rw [hr]
    have := hpush (env.fault 4) (chatCreationJob env ⟨n, t, env.now 0⟩) s3 rfl q3
    rw [show enqueueSidekiqJob (env.fault 4) s3 (chatCreationJob env ⟨n, t, env.now 0⟩) = _
      from h4] at this
    exact this

/-- A property of the store that every store call of `createMessage` keeps is
kept by `createMessage`, whatever path it takes. -/
theorem createMessage_preserves {Q : Store → Prop} (env : Env) (s : Store) (t cn : String)
    (body : Option String)
    (hincr₁ : ∀ f n s0, s0 (chatMessagesCountKey t n) ≠ none → Q s0 →
      Q (rdbIncr f (lastMessageNumberKey t n) s0).2)
    (hincr₂ : ∀ f n s0, s0 (chatMessagesCountKey t n) ≠ none → Q s0 →
      Q (rdbIncr f (chatMessagesCountKey t n) s0).2)
    (hpush : ∀ f job s0, job.Queue = sidekiqQueueMessageCreation → Q s0 →
      Q (enqueueSidekiqJob f s0 job).2)
    (h : Q s) : Q (createMessage env s t cn body).2 := by
  rcases createMessage_cases env s t cn body with ⟨-, hr, -⟩ | ⟨n, b, -, -, -, -, -, hrest⟩
  · rw [hr]; exact h
  rcases hrest with ⟨err, -, hr⟩ | ⟨-, hrest⟩
  · rw [hr]; exact h
  rcases hrest with ⟨e, -, hr⟩ | ⟨-, hr⟩ | ⟨hex, hrest⟩
  · rw [hr]; exact h
  · rw [hr]; exact h
  have hpres : s (chatMessagesCountKey t n) ≠ none := by
    unfold rdbExists at hex
    intro hnone
    cases hf : env.fault 1 <;> rw [hf] at hex <;> simp [hnone] at hex
  rcases hrest with ⟨e, s1, h1, hr⟩ | ⟨k, s1, h1, hrest⟩
  · rw [hr]
    have := hincr₁ (env.fault 2) n s hpres h
    rwa [h1] at this
  have q1 : Q s1 := by
    have := hincr₁ (env.fault 2) n s hpres h
    rwa [h1] at this
  have p1 : s1 (chatMessagesCountKey t n) ≠ none := by
    have := rdbIncr_keeps (env.fault 2) (lastMessageNumberKey t n) hpres
    rwa [h1] at this
  rcases hrest with ⟨e, s2, h2, hr⟩ | ⟨m, s2, h2, hrest⟩
  · rw [hr]
    have := hincr₂ (env.fault 3) n s1 p1 q1
    rwa [h2] at this
  have q2 : Q s2 := by
    have := hincr₂ (env.fault 3) n s1 p1 q1
    rwa [h2] at this
  rcases hrest with ⟨e, s3, h3, hr⟩ | ⟨s3, h3, hr⟩
  · rw [hr]
    have := hpush (env.fault 4) (messageCreationJob env ⟨k, b, n, t, env.now 0⟩) s2 rfl q2
    rw [show enqueueSidekiqJob (env.fault 4) s2
      (messageCreationJob env ⟨k, b, n, t, env.now 0⟩) = _ from h3] at this
    exact this
  · rw [hr]
    have := hpush (env.fault 4) (messageCreationJob env ⟨k, b, n, t, env.now 0⟩) s2 rfl q2
    rw [show enqueueSidekiqJob (env.fault 4) s2
      (messageCreationJob env ⟨k, b, n, t, env.now 0⟩) = _ from h3] at this
    exact this


/-! ## The successful path, spelled out -/

theorem handleValidationError_present {f : Fault} {s : Store} {t err : String}
    (hp : s (chatsCountKey t) ≠ none) (h : validateApplicationToken f s t = some err) :
    handleValidationError err t = respondWithError 500 "Internal server error" := by
  unfold validateApplicationToken rdbGet at h
  have herr : err ≠ "application not found" := by
    cases f
    · rcases hk : s (chatsCountKey t) with _ | (c | r | l)
      · exact absurd hk hp
      · simp [hk] at h
      · simp [hk] at h
      · simp [hk] at h
        rw [← h]; decide
    · simp at h
      rw [← h]; decide
    · simp at h
      rw [← h]; decide
  unfold handleValidationError
  simp [herr]

/-- A successful `INCR` on a key that holds a string finds an integer there. -/
theorem rdbIncr_ok_present {f : Fault} {k : String} {s s' : Store} {n : Int}
    (h : rdbIncr f k s = (.ok n, s')) (hp : s k ≠ none) :
    ∃ a, s k = some (.int a) ∧ n = a + 1 ∧ s' = s.put k (.int (a + 1)) := by
  obtain ⟨hs, hval⟩ := rdbIncr_ok h
  rcases hval with ⟨hnone, -⟩ | ⟨a, ha, hn⟩
  · exact absurd hnone hp
  · exact ⟨a, ha, hn, by rw [hs, hn]⟩

/-- The 201 path of `createChat`: the number is one more than the chat
counter held, and the store is the old one with four keys written. -/
theorem createChat_201 {env : Env} {s : Store} {t : String}
    (h : (createChat env s t).1.status = 201) :
    t ≠ "" ∧ ∃ n a,
      (s (lastChatNumberKey t) = none ∧ n = 1 ∨
        ∃ k, s (lastChatNumberKey t) = some (.int k) ∧ n = k + 1) ∧
      s (chatsCountKey t) = some (.int a) ∧
      createChat env s t =
        (⟨201, .chat ⟨n, t, env.now 0⟩⟩,
          (((s.put (lastChatNumberKey t) (.int n)).put (chatsCountKey t) (.int (a + 1))).put
              (chatMessagesCountKey t n) (.int 0)).put
            (queueKey sidekiqQueueChatsCreation)
            (.list (s.listAt (queueKey sidekiqQueueChatsCreation) ++
              [marshalSidekiqJob (chatCreationJob env ⟨n, t, env.now 0⟩)]))) := by
  rcases createChat_cases env s t with ⟨-, hr⟩ | ⟨-, err, -, hr⟩ | ⟨ht, hv, hrest⟩
  · rw [hr] at h; simp [respondWithError] at h
  · rw [hr] at h
    rcases handleValidationError_status err t with ⟨h4, -⟩ | ⟨h5, -⟩
    · rw [h4] at h; simp at h
    · rw [h5] at h; simp at h
  refine ⟨ht, ?_⟩
  have hpres := validateApplicationToken_present hv
  rcases hrest with ⟨e, s1, h1, hr⟩ | ⟨n, s1, h1, hrest⟩
  · rw [hr] at h; simp [respondWithError] at h
  rcases hrest with ⟨e, s2, h2, hr⟩ | ⟨m, s2, h2, hrest⟩
  · rw [hr] at h; simp [respondWithError] at h
  rcases hrest with ⟨e, s3, h3, hr⟩ | ⟨s3, h3, hrest⟩
  · rw [hr] at h; simp [respondWithError] at h
  rcases hrest with ⟨e, s4, h4, hr⟩ | ⟨s4, h4, hr⟩
  · rw [hr] at h; simp [respondWithError] at h
  obtain ⟨hs1, hval⟩ := rdbIncr_ok h1
  have hp1 : s1 (chatsCountKey t) ≠ none := by
    rw [hs1, Store.put_other _ _ (lastChatNumberKey_ne_chatsCountKey t).symm]
    exact hpres
  obtain ⟨a, ha, -, hs2⟩ := rdbIncr_ok_present h2 hp1
  rw [hs1, Store.put_other _ _ (lastChatNumberKey_ne_chatsCountKey t).symm] at ha
  have hs3 := rdbSet_ok h3
  rw [enqueueChatCreationJob_eq] at h4
  have hs4 := enqueueSidekiqJob_ok h4
  have hq : s3.listAt (queueKey sidekiqQueueChatsCreation) =
      s.listAt (queueKey sidekiqQueueChatsCreation) := by
    unfold Store.listAt
    rw [hs3, hs2, hs1, Store.put_other _ _ (queueKey_ne_chatMessagesCountKey _ _ _),
      Store.put_other _ _ (queueKey_ne_chatsCountKey _ _),
      Store.put_other _ _ (queueKey_ne_lastChatNumberKey _ _)]
  refine ⟨n, a, hval, ha, ?_⟩
  rw [hr, hs4]
  show _ = (_, Store.put _ (queueKey sidekiqQueueChatsCreation) _)
  rw [← hq, hs3, hs2, hs1]
  rfl

/-- Without a failing store call `createChat` answers 201 for a token that is
given and registered. -/
theorem createChat_not500 {env : Env} {s : Store} {t : String} (ht : t ≠ "")
    (hp : s (chatsCountKey t) ≠ none) (h : (createChat env s t).1.status ≠ 500) :
    (createChat env s t).1.status = 201 := by
  rcases createChat_cases env s t with ⟨h0, -⟩ | ⟨-, err, hv, hr⟩ | ⟨-, hv, hrest⟩
  · exact absurd h0 ht
  · rw [hr, handleValidationError_present hp hv] at h
    simp [respondWithError] at h
  rcases hrest with ⟨e, s1, h1, hr⟩ | ⟨n, s1, h1, hrest⟩
  · rw [hr] at h; simp [respondWithError] at h
  rcases hrest with ⟨e, s2, h2, hr⟩ | ⟨m, s2, h2, hrest⟩
  · rw [hr] at h; simp [respondWithError] at h
  rcases hrest with ⟨e, s3, h3, hr⟩ | ⟨s3, h3, hrest⟩
  · rw [hr] at h; simp [respondWithError] at h
  rcases hrest with ⟨e, s4, h4, hr⟩ | ⟨s4, h4, hr⟩
  · rw [hr] at h; simp [respondWithError] at h
  · rw [hr]

/-- The 201 path of `createMessage`: the number is one more than the message
counter of the chat held, and the store is the old one with three keys
written. -/
theorem createMessage_201 {env : Env} {s : Store} {t cn : String} {body : Option String}
    (h : (createMessage env s t cn body).1.status = 201) :
    t ≠ "" ∧ ∃ n b k a, sscanfInt64 cn = some n ∧ body = some b ∧ b ≠ "" ∧
      s (chatsCountKey t) ≠ none ∧
      (s (lastMessageNumberKey t n) = none ∧ k = 1 ∨
        ∃ c, s (lastMessageNumberKey t n) = some (.int c) ∧ k = c + 1) ∧
      s (chatMessagesCountKey t n) = some (.int a) ∧
      createMessage env s t cn body =
        (⟨201, .message ⟨k, b, n, t, env.now 0⟩⟩,
          ((s.put (lastMessageNumberKey t n) (.int k)).put
              (chatMessagesCountKey t n) (.int (a + 1))).put
            (queueKey sidekiqQueueMessageCreation)
            (.list (s.listAt (queueKey sidekiqQueueMessageCreation) ++
              [marshalSidekiqJob (messageCreationJob env ⟨k, b, n, t, env.now 0⟩)]))) := by
  rcases createMessage_cases env s t cn body with ⟨h4, -, -⟩ |
    ⟨n, b, ht, -, hn, hb, hb', hrest⟩
  · rw [h4] at h; simp at h
  refine ⟨ht, n, b, ?_⟩
  rcases hrest with ⟨err, -, hr⟩ | ⟨hv, hrest⟩
  · rw [hr] at h
    rcases handleValidationError_status err t with ⟨h4, -⟩ | ⟨h5, -⟩
    · rw [h4] at h; simp at h
    · rw [h5] at h; simp at h
  rcases hrest with ⟨e, -, hr⟩ | ⟨-, hr⟩ | ⟨hex, hrest⟩
  · rw [hr] at h; simp [respondWithError] at h
  · rw [hr] at h; simp [respondWithError] at h
  have hpres : s (chatMessagesCountKey t n) ≠ none := by
    unfold rdbExists at hex
    intro hnone
    cases hf : env.fault 1 <;> rw [hf] at hex <;> simp [hnone] at hex
  rcases hrest with ⟨e, s1, h1, hr⟩ | ⟨k, s1, h1, hrest⟩
  · rw [hr] at h; simp [respondWithError] at h
  rcases hrest with ⟨e, s2, h2, hr⟩ | ⟨m, s2, h2, hrest⟩
  · rw [hr] at h; simp [respondWithError] at h
  rcases hrest with ⟨e, s3, h3, hr⟩ | ⟨s3, h3, hr⟩
  · rw [hr] at h; simp [respondWithError] at h
  obtain ⟨hs1, hval⟩ := rdbIncr_ok h1
  have hp1 : s1 (chatMessagesCountKey t n) ≠ none := by
    rw [hs1, Store.put_other _ _ (chatMessagesCountKey_ne_lastMessageNumberKey t t n n)]
    exact hpres
  obtain ⟨a, ha, -, hs2⟩ := rdbIncr_ok_present h2 hp1
  rw [hs1, Store.put_other _ _ (chatMessagesCountKey_ne_lastMessageNumberKey t t n n)] at ha
  rw [enqueueMessageCreationJob_eq] at h3
  have hs3 := enqueueSidekiqJob_ok h3
  have hq : s2.listAt (queueKey sidekiqQueueMessageCreation) =
      s.listAt (queueKey sidekiqQueueMessageCreation) := by
    unfold Store.listAt
    rw [hs2, hs1, Store.put_other _ _ (queueKey_ne_chatMessagesCountKey _ _ _),
      Store.put_other _ _ (queueKey_ne_lastMessageNumberKey _ _ _)]
  refine ⟨k, a, hn, hb, hb', validateApplicationToken_present hv, hval, ha, ?_⟩
  rw [hr, hs3]
  show _ = (_, Store.put _ (queueKey sidekiqQueueMessageCreation) _)
  rw [← hq, hs2, hs1]
  rfl

/-- Without a failing store call `createMessage` answers 201 for a chat that
exists under a token that is given and registered, when the chat number
scans and the body is not empty. -/
theorem createMessage_not500 {env : Env} {s : Store} {t cn b : String} {n : Int}
    (ht : t ≠ "") (hn : sscanfInt64 cn = some n) (hb : b ≠ "")
    (hp : s (chatsCountKey t) ≠ none) (hc : s (chatMessagesCountKey t n) ≠ none)
    (h : (createMessage env s t cn (some b)).1.status ≠ 500) :
    (createMessage env s t cn (some b)).1.status = 201 := by
  rcases createMessage_cases env s t cn (some b) with ⟨-, -, h0 | h0 | h0 | h0⟩ |
    ⟨n', b', -, -, hn', hb', -, hrest⟩
  · exact absurd h0 ht
  · rw [hn] at h0; simp at h0
  · simp at h0
  · simp only [Option.some.injEq] at h0; exact absurd h0 hb
  rw [hn] at hn'
  simp only [Option.some.injEq] at hn' hb'
  subst hn' hb'
  rcases hrest with ⟨err, hv, hr⟩ | ⟨hv, hrest⟩
  · rw [hr, handleValidationError_present hp hv] at h
    simp [respondWithError] at h
  rcases hrest with ⟨e, -, hr⟩ | ⟨hex, hr⟩ | ⟨hex, hrest⟩
  · rw [hr] at h; simp [respondWithError] at h
  · exfalso
    unfold rdbExists at hex
    cases hf : env.fault 1 <;> rw [hf] at hex
    · rcases hk : s (chatMessagesCountKey t n) with _ | v
      · exact hc hk
      · simp [hk] at hex
    · simp at hex
    · simp at hex
  rcases hrest with ⟨e, s1, h1, hr⟩ | ⟨k, s1, h1, hrest⟩
  · rw [hr] at h; simp [respondWithError] at h
  rcases hrest with ⟨e, s2, h2, hr⟩ | ⟨m, s2, h2, hrest⟩
  · rw [hr] at h; simp [respondWithError] at h
  rcases hrest with ⟨e, s3, h3, hr⟩ | ⟨s3, h3, hr⟩
  · rw [hr] at h; simp [respondWithError] at h
  · rw [hr]

/-- A `createChat` that is not answered 500 either answers 201 or leaves the
store as it was. -/
theorem createChat_not500_cases {env : Env} {s : Store} {t : String}
    (h : (createChat env s t).1.status ≠ 500) :
    (createChat env s t).1.status = 201 ∨ (createChat env s t).2 = s := by
  rcases createChat_cases env s t with ⟨-, hr⟩ | ⟨-, err, -, hr⟩ | ⟨-, -, hrest⟩
  · right; rw [hr]
  · right; rw [hr]
  rcases hrest with ⟨e, s1, h1, hr⟩ | ⟨n, s1, h1, hrest⟩
  · rw [hr] at h; simp [respondWithError] at h
  rcases hrest with ⟨e, s2, h2, hr⟩ | ⟨m, s2, h2, hrest⟩
  · rw [hr] at h; simp [respondWithError] at h
  rcases hrest with ⟨e, s3, h3, hr⟩ | ⟨s3, h3, hrest⟩
  · rw [hr] at h; simp [respondWithError] at h
  rcases hrest with ⟨e, s4, h4, hr⟩ | ⟨s4, h4, hr⟩
  · rw [hr] at h; simp [respondWithError] at h
  · left; rw [hr]


/-! ## Keys that are application keys -/

theorem chatsCountKey_tokenOfLastChatNumberKey (t : String) :
    chatsCountKey (tokenOfLastChatNumberKey t) = lastChatNumberKey t := by
  unfold chatsCountKey tokenOfLastChatNumberKey lastChatNumberKey
  simp only [String.append_assoc]

theorem chatsCountKey_tokenOfChatMessagesCountKey (t : String) (n : Int) :
    chatsCountKey (tokenOfChatMessagesCountKey t n) = chatMessagesCountKey t n := by
  unfold chatsCountKey tokenOfChatMessagesCountKey chatMessagesCountKey
  simp only [String.append_assoc]

theorem chatsCountKey_tokenOfLastMessageNumberKey (t : String) (n : Int) :
    chatsCountKey (tokenOfLastMessageNumberKey t n) = lastMessageNumberKey t n := by
  unfold chatsCountKey tokenOfLastMessageNumberKey lastMessageNumberKey
  simp only [String.append_assoc]

theorem chatsCountKey_eq_lastChatNumberKey_iff {u t : String} :
    chatsCountKey u = lastChatNumberKey t ↔ u = tokenOfLastChatNumberKey t := by
  rw [← chatsCountKey_tokenOfLastChatNumberKey, chatsCountKey_inj]

theorem chatsCountKey_eq_chatMessagesCountKey_iff {u t : String} {n : Int} :
    chatsCountKey u = chatMessagesCountKey t n ↔ u = tokenOfChatMessagesCountKey t n := by
  rw [← chatsCountKey_tokenOfChatMessagesCountKey, chatsCountKey_inj]

theorem chatsCountKey_eq_lastMessageNumberKey_iff {u t : String} {n : Int} :
    chatsCountKey u = lastMessageNumberKey t n ↔ u = tokenOfLastMessageNumberKey t n := by
  rw [← chatsCountKey_tokenOfLastMessageNumberKey, chatsCountKey_inj]

/-! ## What a request leaves alone -/

/-- The number a served `INCR` returns is one more than the counter held. -/
theorem rdbIncr_ok_counterAt {f : Fault} {k : String} {s s' : Store} {n : Int}
    (h : rdbIncr f k s = (.ok n, s')) : n = s.counterAt k + 1 := by
  unfold Store.counterAt
  rcases (rdbIncr_ok h).2 with ⟨h0, rfl⟩ | ⟨c, hc, rfl⟩
  · rw [h0]; rfl
  · rw [hc]

/-- The request `createChat` writes no key other than the chat sequence of its
token, the application key, the chat key of the next number and the queue. -/
theorem createChat_other (env : Env) (s : Store) (t : String) {k : String}
    (h1 : k ≠ lastChatNumberKey t) (h2 : k ≠ chatsCountKey t)
    (h3 : k ≠ chatMessagesCountKey t (s.counterAt (lastChatNumberKey t) + 1))
    (h4 : k ≠ queueKey sidekiqQueueChatsCreation) :
    (createChat env s t).2 k = s k := by
  rcases createChat_cases env s t with ⟨-, hr⟩ | ⟨-, err, -, hr⟩ | ⟨-, -, hrest⟩
  · rw [hr]
  · rw [hr]
  have a1 : ∀ f, (rdbIncr f (lastChatNumberKey t) s).2 k = s k := fun f => rdbIncr_other h1
  rcases hrest with ⟨e, s1, hi, hr⟩ | ⟨n, s1, hi, hrest⟩
  · rw [hr]
    have := a1 (env.fault 1); rwa [hi] at this
  have b1 : s1 k = s k := by
    have := a1 (env.fault 1); rwa [hi] at this
  have hn : n = s.counterAt (lastChatNumberKey t) + 1 := rdbIncr_ok_counterAt hi
  have a2 : ∀ f, (rdbIncr f (chatsCountKey t) s1).2 k = s k :=
    fun f => by rw [rdbIncr_other h2, b1]
  rcases hrest with ⟨e, s2, hi2, hr⟩ | ⟨m, s2, hi2, hrest⟩
  · rw [hr]
    have := a2 (env.fault 2); rwa [hi2] at this
  have b2 : s2 k = s k := by
    have := a2 (env.fault 2); rwa [hi2] at this
  have a3 : ∀ f, (rdbSet f (chatMessagesCountKey t n) s2).2 k = s k :=
    fun f => by rw [rdbSet_other (by rw [hn]; exact h3), b2]
  rcases hrest with ⟨e, s3, hi3, hr⟩ | ⟨s3, hi3, hrest⟩
  · rw [hr]
    have := a3 (env.fault 3); rwa [hi3] at this
  have b3 : s3 k = s k := by
    have := a3 (env.fault 3); rwa [hi3] at this
  have a4 : (enqueueChatCreationJob env (env.fault 4) s3 ⟨n, t, env.now 0⟩).2 k = s k := by
    rw [enqueueChatCreationJob_eq, enqueueSidekiqJob_other h4, b3]
  rcases hrest with ⟨e, s4, hi4, hr⟩ | ⟨s4, hi4, hr⟩
  · rw [hr]; rwa [hi4] at a4
  · rw [hr]; rwa [hi4] at a4

/-- A property of the store that every store call of `createMessage` keeps is
kept by `createMessage`; the calls are those for the chat number the request
scanned, made once the body was accepted and the chat key found. -/
theorem createMessage_preserves_scanned {Q : Store → Prop} (env : Env) (s : Store)
    (t cn : String) (body : Option String)
    (hincr₁ : ∀ f n b s0, sscanfInt64 cn = some n → body = some b → b ≠ "" →
      s0 (chatMessagesCountKey t n) ≠ none → Q s0 →
      Q (rdbIncr f (lastMessageNumberKey t n) s0).2)
    (hincr₂ : ∀ f n s0, sscanfInt64 cn = some n → s0 (chatMessagesCountKey t n) ≠ none →
      Q s0 → Q (rdbIncr f (chatMessagesCountKey t n) s0).2)
    (hpush : ∀ f job s0, job.Queue = sidekiqQueueMessageCreation → Q s0 →
      Q (enqueueSidekiqJob f s0 job).2)
    (h : Q s) : Q (createMessage env s t cn body).2 := by
  rcases createMessage_cases env s t cn body with ⟨-, hr, -⟩ | ⟨n, b, -, -, hn, hb, hb', hrest⟩
  · rw [hr]; exact h
  rcases hrest with ⟨err, -, hr⟩ | ⟨-, hrest⟩
  · rw [hr]; exact h
  rcases hrest with ⟨e, -, hr⟩ | ⟨-, hr⟩ | ⟨hex, hrest⟩
  · rw [hr]; exact h
  · rw [hr]; exact h
  have hpres : s (chatMessagesCountKey t n) ≠ none := by
    unfold rdbExists at hex
    intro hnone
    cases hf : env.fault 1 <;> rw [hf] at hex <;> simp [hnone] at hex
  rcases hrest with ⟨e, s1, h1, hr⟩ | ⟨k, s1, h1, hrest⟩
  · rw [hr]
    have := hincr₁ (env.fault 2) n b s hn hb hb' hpres h
    rwa [h1] at this
  have q1 : Q s1 := by
    have := hincr₁ (env.fault 2) n b s hn hb hb' hpres h
    rwa [h1] at this
  have p1 : s1 (chatMessagesCountKey t n) ≠ none := by
    have := rdbIncr_keeps (env.fault 2) (lastMessageNumberKey t n) hpres
    rwa [h1] at this
  rcases hrest with ⟨e, s2, h2, hr⟩ | ⟨m, s2, h2, hrest⟩
  · rw [hr]
    have := hincr₂ (env.fault 3) n s1 hn p1 q1
    rwa [h2] at this
  have q2 : Q s2 := by
    have := hincr₂ (env.fault 3) n s1 hn p1 q1
    rwa [h2] at this
  rcases hrest with ⟨e, s3, h3, hr⟩ | ⟨s3, h3, hr⟩
  · rw [hr]
    have := hpush (env.fault 4) (messageCreationJob env ⟨k, b, n, t, env.now 0⟩) s2 rfl q2
    rw [show enqueueSidekiqJob (env.fault 4) s2
      (messageCreationJob env ⟨k, b, n, t, env.now 0⟩) = _ from h3] at this
    exact this
  · rw [hr]
    have := hpush (env.fault 4) (messageCreationJob env ⟨k, b, n, t, env.now 0⟩) s2 rfl q2
    rw [show enqueueSidekiqJob (env.fault 4) s2
      (messageCreationJob env ⟨k, b, n, t, env.now 0⟩) = _ from h3] at this
    exact this

/-- The request `createMessage` writes no key other than the message sequence
and the chat key of the chat it scanned, and the queue. -/
theorem createMessage_other (env : Env) (s : Store) (t cn : String) (body : Option String)
    {k : String}
    (h : ∀ n b, sscanfInt64 cn = some n → body = some b → b ≠ "" →
      k ≠ lastMessageNumberKey t n ∧ k ≠ chatMessagesCountKey t n)
    (hq : k ≠ queueKey sidekiqQueueMessageCreation) :
    (createMessage env s t cn body).2 k = s k := by
  rcases createMessage_cases env s t cn body with ⟨-, hr, -⟩ | ⟨n, b, -, -, hn, hb, hb', -⟩
  · rw [hr]
  obtain ⟨hk1, hk2⟩ := h n b hn hb hb'
  apply createMessage_preserves_scanned (Q := fun s0 => s0 k = s k)
  · intro f n' b' s0 hn' _ _ _ h0
    rw [hn] at hn'
    simp only [Option.some.injEq] at hn'
    subst hn'
    rw [rdbIncr_other hk1, h0]
  · intro f n' s0 hn' _ h0
    rw [hn] at hn'
    simp only [Option.some.injEq] at hn'
    subst hn'
    rw [rdbIncr_other hk2, h0]
  · intro f job s0 hj h0
    rw [enqueueSidekiqJob_other (by rw [hj]; exact hq), h0]
  · rfl

theorem rdbSet_keeps (f : Fault) (key : String) {k : String} {s : Store} (h : s k ≠ none) :
    (rdbSet f key s).2 k ≠ none := by
  rcases rdbSet_store f key s with h1 | h1
  · rw [h1]; exact h
  · rw [h1]
    by_cases hk : k = key
    · subst hk; rw [Store.put_same]; simp
    · rw [Store.put_other _ _ hk]; exact h

theorem enqueueSidekiqJob_keeps (f : Fault) (job : SidekiqJob) {k : String} {s : Store}
    (h : s k ≠ none) : (enqueueSidekiqJob f s job).2 k ≠ none := by
  rcases enqueueSidekiqJob_store f s job with h1 | ⟨h1, -⟩
  · rw [h1]; exact h
  · rw [h1]
    by_cases hk : k = queueKey job.Queue
    · subst hk; rw [Store.put_same]; simp
    · rw [Store.put_other _ _ hk]; exact h

/-- No request removes a key. -/
theorem handle_keeps_present (env : Env) (s : Store) (req : Request) {k : String}
    (h : s k ≠ none) : (handle env s req).2 k ≠ none := by
  cases req with
  | createChat t =>
    simp only [handle]
    apply createChat_preserves (Q := fun s0 => s0 k ≠ none)
    · intro f s0 h0; exact rdbIncr_keeps f _ h0
    · intro f s0 _ h0; exact rdbIncr_keeps f _ h0
    · intro f n s0 h0; exact rdbSet_keeps f _ h0
    · intro f job s0 _ h0; exact enqueueSidekiqJob_keeps f job h0
    · exact h
  | createMessage t cn body =>
    simp only [handle]
    apply createMessage_preserves (Q := fun s0 => s0 k ≠ none)
    · intro f n s0 _ h0; exact rdbIncr_keeps f _ h0
    · intro f n s0 _ h0; exact rdbIncr_keeps f _ h0
    · intro f job s0 _ h0; exact enqueueSidekiqJob_keeps f job h0
    · exact h

/-- A property of the store that every request of a run keeps is kept by the
run. -/
theorem storeAfter_induct {P : Store → Prop} {R : Env × Request → Prop}
    (hstep : ∀ env s req, R (env, req) → P s → P (handle env s req).2) :
    ∀ (reqs : List (Env × Request)) (s : Store), (∀ x ∈ reqs, R x) → P s →
      P (storeAfter s reqs) := by
  intro reqs
  induction reqs with
  | nil => intro s _ h; exact h
  | cons x rest ih =>
    obtain ⟨env, req⟩ := x
    intro s hR h
    simp only [storeAfter]
    exact ih _ (fun y hy => hR y (List.mem_cons_of_mem _ hy))
      (hstep env s req (hR _ (List.mem_cons_self _ _)) h)

theorem storeAfter_keeps_present (reqs : List (Env × Request)) (s : Store) {k : String}
    (h : s k ≠ none) : (storeAfter s reqs) k ≠ none :=
  storeAfter_induct (P := fun s0 => s0 k ≠ none) (R := fun _ => True)
    (fun env s0 req _ h0 => handle_keeps_present env s0 req h0) reqs s (fun _ _ => trivial) h

/-- The existence check reports "application not found" on an answered read
exactly when the application key is missing. -/
theorem validateApplicationToken_not_found_iff {s : Store} {u : String} :
    validateApplicationToken .served s u = some "application not found" ↔
      s (chatsCountKey u) = none := by
  unfold validateApplicationToken rdbGet
  rcases hk : s (chatsCountKey u) with _ | (c | r | l)
  · simp [hk]
  · simp [hk]
  · simp [hk]
  · simp only [hk, reduceCtorEq, iff_false]
    decide

/-! ## Sequential creation (C2) -/

/-- C2. For every store and every token that is given (not the empty path
parameter) and whose application key is present: when no store call fails (no
request is answered 500), two `createChat` requests for that token served one
after the other both answer 201, the first with chat number `k + 1` and the
second with `k + 2`, where `k` is what `application:<token>:last_chat_number`
held before the first request (0 when the key is missing, so the first chat
ever created is number 1). -/
theorem createChat_twice_numbers (env₁ env₂ : Env) (s : Store) (t : String)
    (ht : t ≠ "") (hp : s (chatsCountKey t) ≠ none)
    (h₁ : (createChat env₁ s t).1.status ≠ 500)
    (h₂ : (createChat env₂ (createChat env₁ s t).2 t).1.status ≠ 500) :
    (createChat env₁ s t).1 =
      ⟨201, .chat ⟨s.counterAt (lastChatNumberKey t) + 1, t, env₁.now 0⟩⟩ ∧
    (createChat env₂ (createChat env₁ s t).2 t).1 =
      ⟨201, .chat ⟨s.counterAt (lastChatNumberKey t) + 2, t, env₂.now 0⟩⟩ := by
  obtain ⟨-, n, a, hn, ha, hr⟩ := createChat_201 (createChat_not500 ht hp h₁)
  have hn' : n = s.counterAt (lastChatNumberKey t) + 1 := by
    unfold Store.counterAt
    rcases hn with ⟨h0, rfl⟩ | ⟨k, hk, rfl⟩
    · rw [h0]; rfl
    · rw [hk]
  rw [hr] at h₂ ⊢
  simp only at h₂ ⊢
  have hkey : ∀ v w, (((s.put (lastChatNumberKey t) (.int n)).put (chatsCountKey t) v).put
      (chatMessagesCountKey t n) (.int 0)).put (queueKey sidekiqQueueChatsCreation) w
      (lastChatNumberKey t) = some (.int n) := by
    intro v w
    rw [Store.put_other _ _ (queueKey_ne_lastChatNumberKey _ _).symm,
      Store.put_other _ _ (chatMessagesCountKey_ne_lastChatNumberKey _ _ _).symm,
      Store.put_other _ _ (lastChatNumberKey_ne_chatsCountKey _), Store.put_same]
  have hpres : ∀ w, (((s.put (lastChatNumberKey t) (.int n)).put (chatsCountKey t)
      (.int (a + 1))).put (chatMessagesCountKey t n) (.int 0)).put
      (queueKey sidekiqQueueChatsCreation) w (chatsCountKey t) ≠ none := by
    intro w
    rw [Store.put_other _ _ (queueKey_ne_chatsCountKey _ _).symm,
      Store.put_other _ _ (chatMessagesCountKey_ne_chatsCountKey _ _).symm, Store.put_same]
    simp
  obtain ⟨-, n₂, a₂, hn₂, -, hr₂⟩ := createChat_201 (createChat_not500 ht (hpres _) h₂)
  rw [hkey] at hn₂
  rw [hr₂]
  refine ⟨by rw [hn'], ?_⟩
  rcases hn₂ with ⟨h0, -⟩ | ⟨k, hk, rfl⟩
  · simp at h0
  · simp only [Option.some.injEq, Value.int.injEq] at hk
    rw [← hk, hn']
    simp only [Response.mk.injEq, Payload.chat.injEq, Chat.mk.injEq, and_true, true_and]
    ring

theorem createChat_twice_numbers_witness :
    "abc" ≠ "" ∧ abcStore (chatsCountKey "abc") ≠ none ∧
    (createChat calmEnv abcStore "abc").1 = ⟨201, .chat ⟨1, "abc", calmEnv.now 0⟩⟩ ∧
    (createChat calmEnv (createChat calmEnv abcStore "abc").2 "abc").1 =
      ⟨201, .chat ⟨2, "abc", calmEnv.now 0⟩⟩ :=
  ⟨by decide, by simp [abcStore, chatsCountKey],
    createChat_twice_numbers calmEnv calmEnv abcStore "abc" (by decide)
      (by simp [abcStore, chatsCountKey]) (by decide) (by decide)⟩

/-! ## Rejected requests (C5) -/

/-- A request that is answered 400 or 404 has written nothing. -/
theorem handle_rejected_store (env : Env) (s : Store) (req : Request)
    (h : (handle env s req).1.status = 400 ∨ (handle env s req).1.status = 404) :
    (handle env s req).2 = s := by
  have hne : (handle env s req).1.status ≠ 500 ∧ (handle env s req).1.status ≠ 201 := by
    rcases h with h | h <;> rw [h] <;> decide
  cases req with
  | createChat t =>
    simp only [handle] at hne ⊢
    rcases createChat_not500_cases hne.1 with h201 | hs
    · exact absurd h201 hne.2
    · exact hs
  | createMessage t cn body =>
    simp only [handle] at hne ⊢
    rcases createMessage_cases env s t cn body with ⟨-, hs, -⟩ |
      ⟨n, b, -, -, -, -, -, hrest⟩
    · exact hs
    rcases hrest with ⟨err, -, hr⟩ | ⟨-, hrest⟩
    · rw [hr]
    rcases hrest with ⟨e, -, hr⟩ | ⟨-, hr⟩ | ⟨-, hrest⟩
    · rw [hr]
    · rw [hr]
    exfalso
    rcases hrest with ⟨e, s1, h1, hr⟩ | ⟨k, s1, h1, hrest⟩
    · rw [hr] at hne; simp [respondWithError] at hne
    rcases hrest with ⟨e, s2, h2, hr⟩ | ⟨m, s2, h2, hrest⟩
    · rw [hr] at hne; simp [respondWithError] at hne
    rcases hrest with ⟨e, s3, h3, hr⟩ | ⟨s3, h3, hr⟩
    · rw [hr] at hne; simp [respondWithError] at hne
    · rw [hr] at hne; simp at hne

/-- C5, as the code has it. Rejected requests leave the store as it was: every
request answered 400 or 404 has written nothing. (a) On a token that is not
empty and whose key `application:<token>` is missing, `createChat`, and
`createMessage` with a chat number that scans and a non-empty body, leave the
store untouched and answer 404 when the existence read is answered.
(b) `createMessage` whose request body is missing, or whose message body is
the empty string, answers 400 whatever the token and the chat number are, and
leaves the store untouched. -/
theorem rejected_requests_leave_store (env env' : Env) (s : Store) (t cn b : String) (n : Int)
    (t' cn' : String) (body' : Option String)
    (ht : t ≠ "") (habs : s (chatsCountKey t) = none)
    (hcn : sscanfInt64 cn = some n) (hb : b ≠ "")
    (hbody : body' = none ∨ body' = some "") :
    (∀ req : Request,
      (handle env s req).1.status = 400 ∨ (handle env s req).1.status = 404 →
        (handle env s req).2 = s) ∧
    ((createChat env s t).2 = s ∧ (createMessage env s t cn (some b)).2 = s ∧
      (env.fault 0 = .served →
        (createChat env s t).1.status = 404 ∧
        (createMessage env s t cn (some b)).1.status = 404)) ∧
    ((createMessage env' s t' cn' body').1.status = 400 ∧
      (createMessage env' s t' cn' body').2 = s) := by
  have hv := validateApplicationToken_absent (f := env.fault 0) habs
  have hchat : createChat env s t = (handleValidationError
      (if env.fault 0 = .served then "application not found" else RedisErr.timeout.Error) t,
      s) := by
    rcases createChat_cases env s t with ⟨h0, -⟩ | ⟨-, err, hv', hr⟩ | ⟨-, hv', -⟩
    · exact absurd h0 ht
    · rw [hv] at hv'
      simp only [Option.some.injEq] at hv'
      rw [hr, ← hv']
    · rw [hv] at hv'; simp at hv'
  have hmsg : createMessage env s t cn (some b) = (handleValidationError
      (if env.fault 0 = .served then "application not found" else RedisErr.timeout.Error) t,
      s) := by
    rcases createMessage_cases env s t cn (some b) with ⟨-, -, h0 | h0 | h0 | h0⟩ |
      ⟨n', b', -, -, -, -, -, ⟨err, hv', hr⟩ | ⟨hv', -⟩⟩
    · exact absurd h0 ht
    · rw [hcn] at h0; simp at h0
    · simp at h0
    · simp only [Option.some.injEq] at h0; exact absurd h0 hb
    · rw [hv] at hv'
      simp only [Option.some.injEq] at hv'
      rw [hr, ← hv']
    · rw [hv] at hv'; simp at hv'
  refine ⟨fun req h => handle_rejected_store env s req h,
    ⟨by rw [hchat], by rw [hmsg], ?_⟩, ?_⟩
  · intro hf
    rw [hchat, hmsg]
    simp [hf, handleValidationError, respondWithError]
  · rcases createMessage_cases env' s t' cn' body' with ⟨h4, hs, -⟩ |
      ⟨n', b', -, -, -, hb', hne, -⟩
    · exact ⟨h4, hs⟩
    · rcases hbody with h | h
      · rw [h] at hb'; simp at hb'
      · rw [h] at hb'
        simp only [Option.some.injEq] at hb'
        exact absurd hb'.symm hne

theorem rejected_requests_leave_store_witness :
    (∀ req : Request,
      (handle calmEnv abcStore req).1.status = 400 ∨
        (handle calmEnv abcStore req).1.status = 404 →
        (handle calmEnv abcStore req).2 = abcStore) ∧
    ((createChat calmEnv abcStore "ghost").2 = abcStore ∧
      (createMessage calmEnv abcStore "ghost" "1" (some "hi")).2 = abcStore ∧
      (calmEnv.fault 0 = .served →
        (createChat calmEnv abcStore "ghost").1.status = 404 ∧
        (createMessage calmEnv abcStore "ghost" "1" (some "hi")).1.status = 404)) ∧
    ((createMessage calmEnv abcStore "abc" "1" (some "")).1.status = 400 ∧
      (createMessage calmEnv abcStore "abc" "1" (some "")).2 = abcStore) :=
  rejected_requests_leave_store calmEnv calmEnv abcStore "ghost" "1" "hi" 1 "abc" "1" (some "")
    (by decide) rfl (by decide) (by decide) (Or.inr rfl)

/-- C5 (a) fails as stated: the key `application:` of the empty token is
missing from the empty store, yet `createChat` and `createMessage` answer the
empty token with 400, not 404, before the store is asked; and when the
existence read is lost, the unregistered token `ghost` is answered 500. -/
theorem missing_key_is_not_always_404 :
    emptyStore (chatsCountKey "") = none ∧
    (createChat calmEnv emptyStore "").1 =
      ⟨400, .error "Application token is required"⟩ ∧
    (createMessage calmEnv emptyStore "" "1" (some "hi")).1 =
      ⟨400, .error "Application token is required"⟩ ∧
    abcStore (chatsCountKey "ghost") = none ∧
    (createChat readLostEnv abcStore "ghost").1 = ⟨500, .error "Internal server error"⟩ := by
  refine ⟨rfl, by decide, by decide, rfl, by decide⟩

/-! ## The queue after a 201 (C7) -/

/-- C7. For every request answered 201, the list at
`queue:chats_creation_queue` (for `createChat`) or at
`queue:messages_creation_queue` (for `createMessage`) is afterwards the list
it was with exactly one element appended at the tail, and the other queue key
is untouched. The element is the JSON object with class `ChatsCreatorJob`
(`MessageCreatorJob`), `retry` true, `queue` the queue name, the generated
`jid`, the two time stamps, and `args` a one-element array whose object
carries the fields of the record returned in the answer (`number`,
`application_token`, and for a message also `body` and `chat_number`) and its
`timestamp`. -/
theorem job_appended_on_201 (env : Env) (s : Store) (req : Request)
    (h : (handle env s req).1.status = 201) :
    (∀ t, req = .createChat t →
      ∃ c jid, (handle env s req).1.payload = .chat c ∧ generateJID env = .ok jid ∧
        (handle env s req).2 "queue:chats_creation_queue" =
          some (.list (s.listAt "queue:chats_creation_queue" ++
            [.obj [("class", .str "ChatsCreatorJob"),
                   ("args", .arr [.obj [("application_token", .str c.ApplicationToken),
                                        ("number", .num c.Number),
                                        ("timestamp", .str c.TimeStamp.rfc3339Nano)]]),
                   ("retry", .bool true),
                   ("queue", .str "chats_creation_queue"),
                   ("jid", .str jid),
                   ("created_at", .str (env.now 1).rfc3339Nano),
                   ("enqueued_at", .str (env.now 2).rfc3339Nano)]])) ∧
        (handle env s req).2 "queue:messages_creation_queue" =
          s "queue:messages_creation_queue") ∧
    (∀ t cn body, req = .createMessage t cn body →
      ∃ m jid, (handle env s req).1.payload = .message m ∧ generateJID env = .ok jid ∧
        (handle env s req).2 "queue:messages_creation_queue" =
          some (.list (s.listAt "queue:messages_creation_queue" ++
            [.obj [("class", .str "MessageCreatorJob"),
                   ("args", .arr [.obj [("application_token", .str m.ApplicationToken),
                                        ("body", .str m.Body),
                                        ("chat_number", .num m.ChatNumber),
                                        ("number", .num m.Number),
                                        ("timestamp", .str m.TimeStamp.rfc3339Nano)]]),
                   ("retry", .bool true),
                   ("queue", .str "messages_creation_queue"),
                   ("jid", .str jid),
                   ("created_at", .str (env.now 1).rfc3339Nano),
                   ("enqueued_at", .str (env.now 2).rfc3339Nano)]])) ∧
        (handle env s req).2 "queue:chats_creation_queue" =
          s "queue:chats_creation_queue") := by
  have hqc : queueKey sidekiqQueueChatsCreation = "queue:chats_creation_queue" := by decide
  have hqm : queueKey sidekiqQueueMessageCreation = "queue:messages_creation_queue" := by
    decide
  constructor
  · rintro t rfl
    simp only [handle] at h ⊢
    obtain ⟨-, n, a, -, -, hr⟩ := createChat_201 h
    refine ⟨⟨n, t, env.now 0⟩, _, by rw [hr], generateJID_ok env, ?_, ?_⟩
    · rw [hr, ← hqc]
      simp only
      rw [Store.put_same]
      rfl
    · rw [hr, ← hqm]
      simp only
      rw [Store.put_other _ _ queueKey_chats_ne_messages.symm,
        Store.put_other _ _ (queueKey_ne_chatMessagesCountKey _ _ _),
        Store.put_other _ _ (queueKey_ne_chatsCountKey _ _),
        Store.put_other _ _ (queueKey_ne_lastChatNumberKey _ _)]
  · rintro t cn body rfl
    simp only [handle] at h ⊢
    obtain ⟨-, n, b, k, a, -, -, -, -, -, -, hr⟩ := createMessage_201 h
    refine ⟨⟨k, b, n, t, env.now 0⟩, _, by rw [hr], generateJID_ok env, ?_, ?_⟩
    · rw [hr, ← hqm]
      simp only
      rw [Store.put_same]
      rfl
    · rw [hr, ← hqc]
      simp only
      rw [Store.put_other _ _ queueKey_chats_ne_messages,
        Store.put_other _ _ (queueKey_ne_chatMessagesCountKey _ _ _),
        Store.put_other _ _ (queueKey_ne_lastMessageNumberKey _ _ _)]


theorem job_appended_on_201_witness :
    ((handle calmEnv abcStore (.createChat "abc")).1.status = 201 ∧
      ∃ c jid, (handle calmEnv abcStore (.createChat "abc")).1.payload = .chat c ∧
        generateJID calmEnv = .ok jid ∧
        (handle calmEnv abcStore (.createChat "abc")).2 "queue:chats_creation_queue" =
          some (.list (abcStore.listAt "queue:chats_creation_queue" ++
            [.obj [("class", .str "ChatsCreatorJob"),
                   ("args", .arr [.obj [("application_token", .str c.ApplicationToken),
                                        ("number", .num c.Number),
                                        ("timestamp", .str c.TimeStamp.rfc3339Nano)]]),
                   ("retry", .bool true),
                   ("queue", .str "chats_creation_queue"),
                   ("jid", .str jid),
                   ("created_at", .str (calmEnv.now 1).rfc3339Nano),
                   ("enqueued_at", .str (calmEnv.now 2).rfc3339Nano)]])) ∧
        (handle calmEnv abcStore (.createChat "abc")).2 "queue:messages_creation_queue" =
          abcStore "queue:messages_creation_queue") ∧
    ((handle calmEnv chat12Store (.createMessage "abc" "12" (some "hi"))).1.status = 201 ∧
      ∃ m jid, (handle calmEnv chat12Store (.createMessage "abc" "12" (some "hi"))).1.payload =
          .message m ∧
        generateJID calmEnv = .ok jid ∧
        (handle calmEnv chat12Store (.createMessage "abc" "12" (some "hi"))).2
            "queue:messages_creation_queue" =
          some (.list (chat12Store.listAt "queue:messages_creation_queue" ++
            [.obj [("class", .str "MessageCreatorJob"),
                   ("args", .arr [.obj [("application_token", .str m.ApplicationToken),
                                        ("body", .str m.Body),
                                        ("chat_number", .num m.ChatNumber),
                                        ("number", .num m.Number),
                                        ("timestamp", .str m.TimeStamp.rfc3339Nano)]]),
                   ("retry", .bool true),
                   ("queue", .str "messages_creation_queue"),
                   ("jid", .str jid),
                   ("created_at", .str (calmEnv.now 1).rfc3339Nano),
                   ("enqueued_at", .str (calmEnv.now 2).rfc3339Nano)]])) ∧
        (handle calmEnv chat12Store (.createMessage "abc" "12" (some "hi"))).2
            "queue:chats_creation_queue" =
          chat12Store "queue:chats_creation_queue") :=
  ⟨⟨by decide,
      (job_appended_on_201 calmEnv abcStore (.createChat "abc") (by decide)).1 "abc" rfl⟩,
    ⟨by decide,
      (job_appended_on_201 calmEnv chat12Store (.createMessage "abc" "12" (some "hi"))
        (by decide)).2 "abc" "12" (some "hi") rfl⟩⟩

/-! ## The chat number segment (C8) -/

/-- X1. A `chat_number` segment that `Sscanf` refuses is answered 400, and the
store is left as it was, for every token, body and store. -/
theorem createMessage_unscannable_is_400 (env : Env) (s : Store) (t cn : String)
    (body : Option String) (h : sscanfInt64 cn = none) :
    (createMessage env s t cn body).1.status = 400 ∧ (createMessage env s t cn body).2 = s := by
  rcases createMessage_cases env s t cn body with ⟨h4, hs, -⟩ | ⟨n, b, -, -, hn, -⟩
  · exact ⟨h4, hs⟩
  · rw [h] at hn; simp at hn

theorem createMessage_unscannable_is_400_witness :
    sscanfInt64 "abc" = none ∧
    (createMessage calmEnv chat12Store "abc" "abc" (some "hi")).1.status = 400 ∧
    (createMessage calmEnv chat12Store "abc" "abc" (some "hi")).2 = chat12Store :=
  ⟨by decide,
    createMessage_unscannable_is_400 calmEnv chat12Store "abc" "abc" (some "hi") (by decide)⟩

/-- C8 at the segments the claim names: `"abc"` is refused by the scan, but
`"12abc"` and `"1.5"` scan as 12 and 1, the text after the digits being left
unread; `createMessage` with `"12abc"` is then served as a request for chat
12 and answers 201. -/
theorem createMessage_trailing_text_accepted :
    sscanfInt64 "abc" = none ∧ sscanfInt64 "12abc" = some 12 ∧ sscanfInt64 "1.5" = some 1 ∧
    (createMessage calmEnv chat12Store "abc" "12abc" (some "hi")).1 =
      ⟨201, .message ⟨1, "hi", 12, "abc", calmEnv.now 0⟩⟩ ∧
    (createMessage calmEnv chat12Store "abc" "12abc" (some "hi")).2
        "application:abc:chat:12:last_message_number" = some (.int 1) := by
  refine ⟨by decide, by decide, by decide, by decide, rfl⟩

/-! ## Application scopes (C9) -/

theorem validateApplicationToken_congr {f : Fault} {s s' : Store} {u : String}
    (h : s' (chatsCountKey u) = s (chatsCountKey u)) :
    validateApplicationToken f s' u = validateApplicationToken f s u := by
  unfold validateApplicationToken rdbGet
  simp only [h]

theorem validateApplicationToken_incr (f f' : Fault) (key : String) (s : Store) (u : String)
    (h : chatsCountKey u ≠ key ∨ s key ≠ none) :
    validateApplicationToken f (rdbIncr f' key s).2 u = validateApplicationToken f s u := by
  by_cases hk : chatsCountKey u = key
  · have hp : s key ≠ none := by
      rcases h with h | h
      · exact absurd hk h
      · exact h
    rcases rdbIncr_store f' key s with h1 | ⟨n, h1, hval⟩
    · rw [h1]
    · rcases hval with ⟨h0, -⟩ | ⟨c, hc, -⟩
      · exact absurd h0 hp
      · unfold validateApplicationToken rdbGet
        rw [h1, hk]
        simp only [Store.put_same, hc]
        cases f <;> rfl
  · exact validateApplicationToken_congr (rdbIncr_other hk)

/-- The existence check of a token answers after a request what it answered
before, unless the token spells a key that the request can bring into
being. -/
theorem handle_scope_check_same (env : Env) (s : Store) (req : Request) (u : String)
    (f : Fault) (hu : u ∉ req.tokensOfNewKeys s) :
    validateApplicationToken f (handle env s req).2 u = validateApplicationToken f s u := by
  cases req with
  | createChat t =>
    simp only [Request.tokensOfNewKeys, List.mem_cons, List.mem_singleton, List.not_mem_nil,
      or_false, not_or] at hu
    simp only [handle]
    by_cases hut : u = t
    · subst hut
      apply createChat_preserves (Q := fun s0 =>
        validateApplicationToken f s0 u = validateApplicationToken f s u)
      · intro f' s0 h0
        rw [validateApplicationToken_incr _ _ _ _ _
          (Or.inl (lastChatNumberKey_ne_chatsCountKey u).symm), h0]
      · intro f' s0 hp h0
        rw [validateApplicationToken_incr _ _ _ _ _ (Or.inr hp), h0]
      · intro f' n s0 h0
        rw [validateApplicationToken_congr
          (rdbSet_other (chatMessagesCountKey_ne_chatsCountKey u n).symm), h0]
      · intro f' job s0 hq h0
        rw [validateApplicationToken_congr (enqueueSidekiqJob_other ?_), h0]
        exact (queueKey_ne_chatsCountKey _ _).symm
      · rfl
    · apply validateApplicationToken_congr
      apply createChat_other
      · exact fun h => hu.1 (chatsCountKey_eq_lastChatNumberKey_iff.mp h)
      · exact fun h => hut (chatsCountKey_inj.mp h)
      · exact fun h => hu.2 (chatsCountKey_eq_chatMessagesCountKey_iff.mp h)
      · exact (queueKey_ne_chatsCountKey _ _).symm
  | createMessage t cn body =>
    simp only [handle]
    apply createMessage_preserves_scanned (Q := fun s0 =>
      validateApplicationToken f s0 u = validateApplicationToken f s u)
    · intro f' n b s0 hn _ _ _ h0
      rw [validateApplicationToken_incr _ _ _ _ _ (Or.inl ?_), h0]
      intro h
      apply hu
      simp only [Request.tokensOfNewKeys, hn, List.mem_singleton]
      exact chatsCountKey_eq_lastMessageNumberKey_iff.mp h
    · intro f' n s0 _ hp h0
      rw [validateApplicationToken_incr _ _ _ _ _ (Or.inr hp), h0]
    · intro f' job s0 hq h0
      rw [validateApplicationToken_congr (enqueueSidekiqJob_other ?_), h0]
      exact (queueKey_ne_chatsCountKey _ _).symm
    · rfl

/-- C9, as the code has it. For every store, every request (any token, chat
number and body, whatever its outcome and whichever of its store calls fail)
and every token `u`: an application key `application:<u>` that is present
before the request is present after it, so no request deletes an application
scope; and unless `u` spells a key that the request can bring into being
(`<token>:last_chat_number` and `<token>:chat:<k+1>` for `createChat`, where
`k` is what the chat sequence of the token held, and
`<token>:chat:<n>:last_message_number` for `createMessage` with chat number
`n`), the key is missing after the request exactly when it was missing before
and `validateApplicationToken` answers for `u` after the request what it
answered before. -/
theorem application_scope_unchanged (env : Env) (s : Store) (req : Request) (u : String)
    (f : Fault) :
    (s (chatsCountKey u) ≠ none → (handle env s req).2 (chatsCountKey u) ≠ none) ∧
    (u ∉ req.tokensOfNewKeys s →
      ((handle env s req).2 (chatsCountKey u) = none ↔ s (chatsCountKey u) = none) ∧
      validateApplicationToken f (handle env s req).2 u = validateApplicationToken f s u) := by
  refine ⟨handle_keeps_present env s req, fun hu => ⟨?_, ?_⟩⟩
  · rw [← validateApplicationToken_not_found_iff, ← validateApplicationToken_not_found_iff,
      handle_scope_check_same env s req u .served hu]
  · exact handle_scope_check_same env s req u f hu

/-- C9 at a `createChat` for `abc` in a store that holds only
`application:abc`: the request brings the keys of `abc:last_chat_number` and
`abc:chat:1` into being, and the existence check of `abc:foo`, of `abc:`, of
`abc:chat:2` and of `abc` itself answers after it what it answered before;
the application key of `abc` is still there. -/
theorem application_scope_unchanged_witness :
    (Request.createChat "abc").tokensOfNewKeys abcStore =
      ["abc:last_chat_number", "abc:chat:1"] ∧
    (validateApplicationToken .served (handle calmEnv abcStore (.createChat "abc")).2
        "abc:foo" = validateApplicationToken .served abcStore "abc:foo") ∧
    (validateApplicationToken .served (handle calmEnv abcStore (.createChat "abc")).2
        "abc:" = validateApplicationToken .served abcStore "abc:") ∧
    (validateApplicationToken .served (handle calmEnv abcStore (.createChat "abc")).2
        "abc:chat:2" = validateApplicationToken .served abcStore "abc:chat:2") ∧
    (validateApplicationToken .served (handle calmEnv abcStore (.createChat "abc")).2
        "abc" = validateApplicationToken .served abcStore "abc") ∧
    (handle calmEnv abcStore (.createChat "abc")).2 (chatsCountKey "abc") ≠ none :=
  ⟨by decide,
    ((application_scope_unchanged calmEnv abcStore (.createChat "abc") "abc:foo" .served).2
      (by decide)).2,
    ((application_scope_unchanged calmEnv abcStore (.createChat "abc") "abc:" .served).2
      (by decide)).2,
    ((application_scope_unchanged calmEnv abcStore (.createChat "abc") "abc:chat:2" .served).2
      (by decide)).2,
    ((application_scope_unchanged calmEnv abcStore (.createChat "abc") "abc" .served).2
      (by decide)).2,
    (application_scope_unchanged calmEnv abcStore (.createChat "abc") "abc" .served).1
      (by simp [abcStore, chatsCountKey])⟩

/-- C9 fails as stated: in a store that holds only `application:abc`, the
token `abc:last_chat_number` is unknown before a `createChat` for `abc` and
is found to exist after it, because the request creates the key
`application:abc:last_chat_number`; likewise `abc:chat:1`. In a store where
chat 12 of `abc` exists, the token `abc:chat:12:last_message_number` is
unknown before a `createMessage` for that chat and found to exist after
it. -/
theorem createChat_creates_application_scope :
    validateApplicationToken .served abcStore "abc:last_chat_number" =
      some "application not found" ∧
    validateApplicationToken .served (createChat calmEnv abcStore "abc").2
      "abc:last_chat_number" = none ∧
    validateApplicationToken .served abcStore "abc:chat:1" = some "application not found" ∧
    validateApplicationToken .served (createChat calmEnv abcStore "abc").2 "abc:chat:1" =
      none ∧
    validateApplicationToken .served chat12Store "abc:chat:12:last_message_number" =
      some "application not found" ∧
    validateApplicationToken .served
      (createMessage calmEnv chat12Store "abc" "12" (some "hi")).2
      "abc:chat:12:last_message_number" = none := by
  decide

/-! ## Job ids (C10) -/

theorem hexDigit_is_hex {i : Nat} (h : i < 16) :
    ('0' ≤ hexDigit i ∧ hexDigit i ≤ '9') ∨ ('a' ≤ hexDigit i ∧ hexDigit i ≤ 'f') := by
  interval_cases i <;> decide

theorem hexDigit_injective {i j : Nat} (hi : i < 16) (hj : j < 16)
    (h : hexDigit i = hexDigit j) : i = j := by
  have key : ∀ k, k < 16 → (hexDigit k).toNat = if k < 10 then 48 + k else 87 + k := by
    intro k hk
    interval_cases k <;> rfl
  have := congrArg Char.toNat h
  rw [key i hi, key j hj] at this
  split_ifs at this <;> omega

theorem hexEncodeToString_cons (b : Fin 256) (bs : List (Fin 256)) :
    (hexEncodeToString (b :: bs)).data =
      hexDigit (b.val / 16) :: hexDigit (b.val % 16) :: (hexEncodeToString bs).data := by
  simp [hexEncodeToString]

theorem hexEncodeToString_length (bs : List (Fin 256)) :
    (hexEncodeToString bs).length = 2 * bs.length := by
  induction bs with
  | nil => rfl
  | cons b bs ih =>
    have h := hexEncodeToString_cons b bs
    rw [String.length, h, List.length_cons, List.length_cons, ← String.length, ih,
      List.length_cons]
    ring

theorem hexEncodeToString_chars (bs : List (Fin 256)) :
    ∀ c ∈ (hexEncodeToString bs).data,
      ('0' ≤ c ∧ c ≤ '9') ∨ ('a' ≤ c ∧ c ≤ 'f') := by
  induction bs with
  | nil => intro c hc; simp [hexEncodeToString] at hc
  | cons b bs ih =>
    intro c hc
    rw [hexEncodeToString_cons] at hc
    simp only [List.mem_cons] at hc
    rcases hc with rfl | rfl | hc
    · exact hexDigit_is_hex (by omega)
    · exact hexDigit_is_hex (Nat.mod_lt _ (by decide))
    · exact ih c hc

theorem hexEncodeToString_injective {bs bs' : List (Fin 256)}
    (h : hexEncodeToString bs = hexEncodeToString bs') : bs = bs' := by
  induction bs generalizing bs' with
  | nil =>
    cases bs' with
    | nil => rfl
    | cons b' t' =>
      have := congrArg String.data h
      rw [hexEncodeToString_cons] at this
      simp [hexEncodeToString] at this
  | cons b t ih =>
    cases bs' with
    | nil =>
      have := congrArg String.data h
      rw [hexEncodeToString_cons] at this
      simp [hexEncodeToString] at this
    | cons b' t' =>
      have hd := congrArg String.data h
      rw [hexEncodeToString_cons, hexEncodeToString_cons] at hd
      simp only [List.cons.injEq] at hd
      obtain ⟨h1, h2, h3⟩ := hd
      have e1 := hexDigit_injective (by omega) (by omega) h1
      have e2 := hexDigit_injective (Nat.mod_lt _ (by decide)) (Nat.mod_lt _ (by decide)) h2
      have hb : b = b' := Fin.ext (by omega)
      rw [hb, ih (String.ext h3)]

/-- C10. Whatever 12 bytes the random source delivers, `generateJID` returns a
string of exactly 24 characters, each one of `0`-`9` or `a`-`f`, and two
deliveries give the same job id only if they are the same 12 bytes. -/
theorem generateJID_24_hex_injective (env env' : Env) :
    ∃ bytes bytes' jid jid',
      randRead env jidByteLength = .ok bytes ∧ randRead env' jidByteLength = .ok bytes' ∧
      bytes.length = 12 ∧
      generateJID env = .ok jid ∧ generateJID env' = .ok jid' ∧
      jid.length = 24 ∧
      (∀ c ∈ jid.data, ('0' ≤ c ∧ c ≤ '9') ∨ ('a' ≤ c ∧ c ≤ 'f')) ∧
      (jid = jid' ↔ bytes = bytes') := by
  refine ⟨(List.range jidByteLength).map env.rand, (List.range jidByteLength).map env'.rand,
    _, _, rfl, rfl, by simp [jidByteLength], generateJID_ok env, generateJID_ok env', ?_,
    hexEncodeToString_chars _, ?_⟩
  · rw [hexEncodeToString_length]
    simp [jidByteLength]
  · exact ⟨hexEncodeToString_injective, fun h => by rw [h]⟩


/-! ## Numbers are not handed out twice (C6) -/

theorem rdbIncr_int_mono (f : Fault) (key : String) (s : Store) {k : String} {c : Int}
    (h : s k = some (.int c)) : ∃ c', c ≤ c' ∧ (rdbIncr f key s).2 k = some (.int c') := by
  rcases rdbIncr_store f key s with h1 | ⟨n, h1, hval⟩
  · exact ⟨c, le_refl _, by rw [h1, h]⟩
  · by_cases hk : k = key
    · subst hk
      rcases hval with ⟨h0, -⟩ | ⟨c0, hc0, hn⟩
      · rw [h] at h0; simp at h0
      · rw [h] at hc0
        simp only [Option.some.injEq, Value.int.injEq] at hc0
        exact ⟨n, by omega, by rw [h1, Store.put_same]⟩
    · exact ⟨c, le_refl _, by rw [h1, Store.put_other _ _ hk, h]⟩

theorem enqueueSidekiqJob_int (f : Fault) (job : SidekiqJob) (s : Store) {k : String} {c : Int}
    (h : s k = some (.int c)) : (enqueueSidekiqJob f s job).2 k = some (.int c) := by
  rcases enqueueSidekiqJob_store f s job with h1 | ⟨h1, hq⟩
  · rw [h1, h]
  · have hk : k ≠ queueKey job.Queue := by
      rintro rfl
      rcases hq with hq | ⟨items, hq⟩ <;> rw [h] at hq <;> simp at hq
    rw [h1, Store.put_other _ _ hk, h]

/-- An integer held by a key that is no chat key is only ever raised by a
request, whatever the request and whatever its outcome. -/
theorem handle_int_mono (env : Env) (s : Store) (req : Request) {k : String}
    (hk : ∀ t n, k ≠ chatMessagesCountKey t n) {c : Int} (h : s k = some (.int c)) :
    ∃ c', c ≤ c' ∧ (handle env s req).2 k = some (.int c') := by
  cases req with
  | createChat t =>
    simp only [handle]
    apply createChat_preserves (Q := fun s0 => ∃ c', c ≤ c' ∧ s0 k = some (.int c'))
    · rintro f s0 ⟨c', hc, h0⟩
      obtain ⟨c'', hc', h1⟩ := rdbIncr_int_mono f (lastChatNumberKey t) s0 h0
      exact ⟨c'', le_trans hc hc', h1⟩
    · rintro f s0 - ⟨c', hc, h0⟩
      obtain ⟨c'', hc', h1⟩ := rdbIncr_int_mono f (chatsCountKey t) s0 h0
      exact ⟨c'', le_trans hc hc', h1⟩
    · rintro f n s0 ⟨c', hc, h0⟩
      exact ⟨c', hc, by rw [rdbSet_other (hk t n), h0]⟩
    · rintro f job s0 - ⟨c', hc, h0⟩
      exact ⟨c', hc, enqueueSidekiqJob_int f job s0 h0⟩
    · exact ⟨c, le_refl _, h⟩
  | createMessage t cn body =>
    simp only [handle]
    apply createMessage_preserves (Q := fun s0 => ∃ c', c ≤ c' ∧ s0 k = some (.int c'))
    · rintro f n s0 - ⟨c', hc, h0⟩
      obtain ⟨c'', hc', h1⟩ := rdbIncr_int_mono f (lastMessageNumberKey t n) s0 h0
      exact ⟨c'', le_trans hc hc', h1⟩
    · rintro f n s0 - ⟨c', hc, h0⟩
      obtain ⟨c'', hc', h1⟩ := rdbIncr_int_mono f (chatMessagesCountKey t n) s0 h0
      exact ⟨c'', le_trans hc hc', h1⟩
    · rintro f job s0 - ⟨c', hc, h0⟩
      exact ⟨c', hc, enqueueSidekiqJob_int f job s0 h0⟩
    · exact ⟨c, le_refl _, h⟩

/-- A number carried by a later answer exceeds what the sequence key holds
now, when every answer that carries a number took it from an `INCR` of that
key. -/
theorem serve_later_gt (key : String) (hk : ∀ t n, key ≠ chatMessagesCountKey t n)
    (P : Response → Int → Prop)
    (hP : ∀ env s req v, P (handle env s req).1 v →
      (s key = none ∧ v = 1 ∨ ∃ k, s key = some (.int k) ∧ v = k + 1) ∧
      (handle env s req).2 key = some (.int v))
    (reqs : List (Env × Request)) :
    ∀ (s : Store) (k : Int), s key = some (.int k) →
      ∀ b ∈ serve s reqs, ∀ v, P b.1 v → k < v := by
  induction reqs with
  | nil => intro s k _ b hb; simp [serve] at hb
  | cons x rest ih =>
    obtain ⟨env, req⟩ := x
    intro s k hs b hb v hv
    simp only [serve, List.mem_cons] at hb
    rcases hb with rfl | hb
    · rcases (hP env s req v hv).1 with ⟨h0, -⟩ | ⟨k', hk', rfl⟩
      · rw [hs] at h0; simp at h0
      · rw [hs] at hk'
        simp only [Option.some.injEq, Value.int.injEq] at hk'
        omega
    · obtain ⟨k', hle, hk'⟩ := handle_int_mono env s req hk hs
      exact lt_of_le_of_lt hle (ih _ k' hk' b hb v hv)

theorem serve_pairwise (key : String) (hk : ∀ t n, key ≠ chatMessagesCountKey t n)
    (P : Response → Int → Prop)
    (hP : ∀ env s req v, P (handle env s req).1 v →
      (s key = none ∧ v = 1 ∨ ∃ k, s key = some (.int k) ∧ v = k + 1) ∧
      (handle env s req).2 key = some (.int v))
    (reqs : List (Env × Request)) (s : Store) :
    (serve s reqs).Pairwise (fun a b => ∀ v, P b.1 v →
      (∀ k, a.2 key = some (.int k) → k < v) ∧ (∀ w, P a.1 w → w < v)) := by
  induction reqs generalizing s with
  | nil => simp [serve]
  | cons x rest ih =>
    obtain ⟨env, req⟩ := x
    simp only [serve, List.pairwise_cons]
    refine ⟨fun b hb v hv => ?_, ih _⟩
    have key_gt : ∀ k, (handle env s req).2 key = some (.int k) → k < v :=
      fun k hk' => serve_later_gt key hk P hP rest _ k hk' b hb v hv
    exact ⟨key_gt, fun w hw => key_gt w (hP env s req w hw).2⟩

theorem createChat_201_store_counter {env : Env} {s : Store} {t : String}
    (h : (createChat env s t).1.status = 201) :
    ∃ n ts, (createChat env s t).1 = ⟨201, .chat ⟨n, t, ts⟩⟩ ∧
      (s (lastChatNumberKey t) = none ∧ n = 1 ∨
        ∃ k, s (lastChatNumberKey t) = some (.int k) ∧ n = k + 1) ∧
      (createChat env s t).2 (lastChatNumberKey t) = some (.int n) := by
  obtain ⟨-, n, a, hn, -, hr⟩ := createChat_201 h
  refine ⟨n, env.now 0, by rw [hr], hn, ?_⟩
  rw [hr]
  simp only
  rw [Store.put_other _ _ (queueKey_ne_lastChatNumberKey _ _).symm,
    Store.put_other _ _ (chatMessagesCountKey_ne_lastChatNumberKey _ _ _).symm,
    Store.put_other _ _ (lastChatNumberKey_ne_chatsCountKey _), Store.put_same]

theorem createMessage_201_store_counter {env : Env} {s : Store} {t cn : String}
    {body : Option String} (h : (createMessage env s t cn body).1.status = 201) :
    ∃ k b n ts, (createMessage env s t cn body).1 = ⟨201, .message ⟨k, b, n, t, ts⟩⟩ ∧
      (s (lastMessageNumberKey t n) = none ∧ k = 1 ∨
        ∃ c, s (lastMessageNumberKey t n) = some (.int c) ∧ k = c + 1) ∧
      (createMessage env s t cn body).2 (lastMessageNumberKey t n) = some (.int k) := by
  obtain ⟨-, n, b, k, a, -, -, -, -, hk, -, hr⟩ := createMessage_201 h
  refine ⟨k, b, n, env.now 0, by rw [hr], hk, ?_⟩
  rw [hr]
  simp only
  rw [Store.put_other _ _ (queueKey_ne_lastMessageNumberKey _ _ _).symm,
    Store.put_other _ _ (chatMessagesCountKey_ne_lastMessageNumberKey _ _ _ _).symm,
    Store.put_same]

theorem createChat_payload_not_message {env : Env} {s : Store} {t : String} {m : Message}
    (h : (createChat env s t).1 = ⟨201, .message m⟩) : False := by
  have hst : (createChat env s t).1.status = 201 := by rw [h]
  obtain ⟨n, ts, hr, -⟩ := createChat_201_store_counter hst
  rw [hr] at h
  simp at h

theorem createMessage_payload_not_chat {env : Env} {s : Store} {t cn : String}
    {body : Option String} {c : Chat}
    (h : (createMessage env s t cn body).1 = ⟨201, .chat c⟩) : False := by
  have hst : (createMessage env s t cn body).1.status = 201 := by rw [h]
  obtain ⟨k, b, n, ts, hr, -⟩ := createMessage_201_store_counter hst
  rw [hr] at h
  simp at h

/-- The number a request's `INCR` returned is what the chat-sequence key
holds when the request ends, whatever the later store calls do. -/
theorem createChat_consumed_stays (env : Env) (s : Store) (t : String) (k : Int) (s₁ : Store)
    (ht : t ≠ "") (hv : validateApplicationToken (env.fault 0) s t = none)
    (hi : rdbIncr (env.fault 1) (lastChatNumberKey t) s = (.ok k, s₁)) :
    (createChat env s t).2 (lastChatNumberKey t) = some (.int k) := by
  have h1k : s₁ (lastChatNumberKey t) = some (.int k) := by
    rw [(rdbIncr_ok hi).1, Store.put_same]
  rcases createChat_cases env s t with ⟨h0, -⟩ | ⟨-, err, hv', -⟩ | ⟨-, -, hrest⟩
  · exact absurd h0 ht
  · rw [hv] at hv'; simp at hv'
  rcases hrest with ⟨e, s1, h1, hr⟩ | ⟨n, s1, h1, hrest⟩
  · rw [hi] at h1; simp at h1
  rw [hi] at h1
  simp only [Prod.mk.injEq, Except.ok.injEq] at h1
  obtain ⟨rfl, rfl⟩ := h1
  have e2 : ∀ f, (rdbIncr f (chatsCountKey t) s₁).2 (lastChatNumberKey t) = some (.int k) :=
    fun f => by rw [rdbIncr_other (lastChatNumberKey_ne_chatsCountKey t), h1k]
  rcases hrest with ⟨e, s2, h2, hr⟩ | ⟨m, s2, h2, hrest⟩
  · rw [hr]; have := e2 (env.fault 2); rwa [h2] at this
  have h2k : s2 (lastChatNumberKey t) = some (.int k) := by
    have := e2 (env.fault 2); rwa [h2] at this
  have e3 : ∀ f, (rdbSet f (chatMessagesCountKey t k) s2).2 (lastChatNumberKey t)
      = some (.int k) :=
    fun f => by
      rw [rdbSet_other (chatMessagesCountKey_ne_lastChatNumberKey _ _ _).symm, h2k]
  rcases hrest with ⟨e, s3, h3, hr⟩ | ⟨s3, h3, hrest⟩
  · rw [hr]; have := e3 (env.fault 3); rwa [h3] at this
  have h3k : s3 (lastChatNumberKey t) = some (.int k) := by
    have := e3 (env.fault 3); rwa [h3] at this
  have e4 : (enqueueChatCreationJob env (env.fault 4) s3 ⟨k, t, env.now 0⟩).2
      (lastChatNumberKey t) = some (.int k) := by
    rw [enqueueChatCreationJob_eq]
    exact enqueueSidekiqJob_int _ _ _ h3k
  rcases hrest with ⟨e, s4, h4, hr⟩ | ⟨s4, h4, hr⟩
  · rw [hr]; rwa [h4] at e4
  · rw [hr]; rwa [h4] at e4

/-- The number a request's `INCR` returned is what the message-sequence key
holds when the request ends, whatever the later store calls do. -/
theorem createMessage_consumed_stays (env : Env) (s : Store) (t cn b : String) (n k : Int)
    (s₁ : Store) (ht : t ≠ "") (hcn : sscanfInt64 cn = some n) (hb : b ≠ "")
    (hv : validateApplicationToken (env.fault 0) s t = none)
    (hex : rdbExists (env.fault 1) (chatMessagesCountKey t n) s = .ok 1)
    (hi : rdbIncr (env.fault 2) (lastMessageNumberKey t n) s = (.ok k, s₁)) :
    (createMessage env s t cn (some b)).2 (lastMessageNumberKey t n) = some (.int k) := by
  have h1k : s₁ (lastMessageNumberKey t n) = some (.int k) := by
    rw [(rdbIncr_ok hi).1, Store.put_same]
  rcases createMessage_cases env s t cn (some b) with ⟨-, -, h0 | h0 | h0 | h0⟩ |
    ⟨n', b', -, -, hn', hb', -, hrest⟩
  · exact absurd h0 ht
  · rw [hcn] at h0; simp at h0
  · simp at h0
  · simp only [Option.some.injEq] at h0; exact absurd h0 hb
  rw [hcn] at hn'
  simp only [Option.some.injEq] at hn' hb'
  subst hn' hb'
  rcases hrest with ⟨err, hv', -⟩ | ⟨-, hrest⟩
  · rw [hv] at hv'; simp at hv'
  rcases hrest with ⟨e, hex', -⟩ | ⟨hex', -⟩ | ⟨-, hrest⟩
  · rw [hex] at hex'; simp at hex'
  · rw [hex] at hex'; simp at hex'
  rcases hrest with ⟨e, s1, h1, hr⟩ | ⟨k', s1, h1, hrest⟩
  · rw [hi] at h1; simp at h1
  rw [hi] at h1
  simp only [Prod.mk.injEq, Except.ok.injEq] at h1
  obtain ⟨rfl, rfl⟩ := h1
  have e2 : ∀ f, (rdbIncr f (chatMessagesCountKey t n) s₁).2 (lastMessageNumberKey t n)
      = some (.int k) :=
    fun f => by
      rw [rdbIncr_other (chatMessagesCountKey_ne_lastMessageNumberKey _ _ _ _).symm, h1k]
  rcases hrest with ⟨e, s2, h2, hr⟩ | ⟨m, s2, h2, hrest⟩
  · rw [hr]; have := e2 (env.fault 3); rwa [h2] at this
  have h2k : s2 (lastMessageNumberKey t n) = some (.int k) := by
    have := e2 (env.fault 3); rwa [h2] at this
  have e4 : (enqueueMessageCreationJob env (env.fault 4) s2 ⟨k, b, n, t, env.now 0⟩).2
      (lastMessageNumberKey t n) = some (.int k) := by
    rw [enqueueMessageCreationJob_eq]
    exact enqueueSidekiqJob_int _ _ _ h2k
  rcases hrest with ⟨e, s3, h3, hr⟩ | ⟨s3, h3, hr⟩
  · rw [hr]; rwa [h3] at e4
  · rw [hr]; rwa [h3] at e4

/-- C6. Allocated numbers are never reused, also when later steps fail. In
every run of requests, each in surroundings where any store call may fail
(in particular in every sequence of `createChat` requests for one token):
a chat number returned under a token by a 201 answer is greater than what
`application:<token>:last_chat_number` held after any earlier request,
whether that request ended in 201 or in 500, and greater than every chat
number returned under that token before, so the numbers of the 201 answers
are strictly increasing; and the number a request got from its `INCR` of that
key is what the key holds when the request ends. The same holds for the
message numbers of one token and chat and
`application:<token>:chat:<n>:last_message_number`. -/
theorem allocated_numbers_never_reused (s : Store) (reqs : List (Env × Request)) (t : String)
    (n : Int) :
    (serve s reqs).Pairwise (fun a b =>
      ∀ c, b.1 = ⟨201, .chat c⟩ → c.ApplicationToken = t →
        (∀ k, a.2 (lastChatNumberKey t) = some (.int k) → k < c.Number) ∧
        (∀ c₀, a.1 = ⟨201, .chat c₀⟩ → c₀.ApplicationToken = t → c₀.Number < c.Number)) ∧
    (serve s reqs).Pairwise (fun a b =>
      ∀ m, b.1 = ⟨201, .message m⟩ → m.ApplicationToken = t → m.ChatNumber = n →
        (∀ k, a.2 (lastMessageNumberKey t n) = some (.int k) → k < m.Number) ∧
        (∀ m₀, a.1 = ⟨201, .message m₀⟩ → m₀.ApplicationToken = t → m₀.ChatNumber = n →
          m₀.Number < m.Number)) ∧
    (∀ (env : Env) (s₀ s₁ : Store) (k : Int), t ≠ "" →
      validateApplicationToken (env.fault 0) s₀ t = none →
      rdbIncr (env.fault 1) (lastChatNumberKey t) s₀ = (.ok k, s₁) →
      (createChat env s₀ t).2 (lastChatNumberKey t) = some (.int k)) ∧
    (∀ (env : Env) (s₀ s₁ : Store) (cn b : String) (k : Int), t ≠ "" →
      sscanfInt64 cn = some n → b ≠ "" →
      validateApplicationToken (env.fault 0) s₀ t = none →
      rdbExists (env.fault 1) (chatMessagesCountKey t n) s₀ = .ok 1 →
      rdbIncr (env.fault 2) (lastMessageNumberKey t n) s₀ = (.ok k, s₁) →
      (createMessage env s₀ t cn (some b)).2 (lastMessageNumberKey t n) = some (.int k)) := by
  refine ⟨?_, ?_, fun env s₀ s₁ k ht hv hi => createChat_consumed_stays env s₀ t k s₁ ht hv hi,
    fun env s₀ s₁ cn b k ht hcn hb hv hex hi =>
      createMessage_consumed_stays env s₀ t cn b n k s₁ ht hcn hb hv hex hi⟩
  · have hP := serve_pairwise (lastChatNumberKey t)
      (fun t' n' => (chatMessagesCountKey_ne_lastChatNumberKey t' t n').symm)
      (fun r v => ∃ c, r = ⟨201, .chat c⟩ ∧ c.ApplicationToken = t ∧ c.Number = v) ?_ reqs s
    · refine hP.imp ?_
      intro a b hab c hb hc
      obtain ⟨h1, h2⟩ := hab c.Number ⟨c, hb, hc, rfl⟩
      exact ⟨h1, fun c₀ ha hc₀ => h2 c₀.Number ⟨c₀, ha, hc₀, rfl⟩⟩
    · rintro env s' req v ⟨c, hr, hc, rfl⟩
      cases req with
      | createChat t' =>
        simp only [handle] at hr ⊢
        have hst : (createChat env s' t').1.status = 201 := by rw [hr]
        obtain ⟨n', ts, hr', hn', hs'⟩ := createChat_201_store_counter hst
        rw [hr'] at hr
        simp only [Response.mk.injEq, Payload.chat.injEq, true_and] at hr
        subst hr
        simp only at hc
        subst hc
        exact ⟨hn', hs'⟩
      | createMessage t' cn body =>
        simp only [handle] at hr
        exact (createMessage_payload_not_chat hr).elim
  · have hP := serve_pairwise (lastMessageNumberKey t n)
      (fun t' n' => (chatMessagesCountKey_ne_lastMessageNumberKey t' t n' n).symm)
      (fun r v => ∃ m, r = ⟨201, .message m⟩ ∧ m.ApplicationToken = t ∧ m.ChatNumber = n ∧
        m.Number = v) ?_ reqs s
    · refine hP.imp ?_
      intro a b hab m hb hm hmn
      obtain ⟨h1, h2⟩ := hab m.Number ⟨m, hb, hm, hmn, rfl⟩
      exact ⟨h1, fun m₀ ha hm₀ hmn₀ => h2 m₀.Number ⟨m₀, ha, hm₀, hmn₀, rfl⟩⟩
    · rintro env s' req v ⟨m, hr, hm, hmn, rfl⟩
      cases req with
      | createChat t' =>
        simp only [handle] at hr
        exact (createChat_payload_not_message hr).elim
      | createMessage t' cn body =>
        simp only [handle] at hr ⊢
        have hst : (createMessage env s' t' cn body).1.status = 201 := by rw [hr]
        obtain ⟨k', b', n', ts, hr', hk', hs'⟩ := createMessage_201_store_counter hst
        rw [hr'] at hr
        simp only [Response.mk.injEq, Payload.message.injEq, true_and] at hr
        subst hr
        simp only at hm hmn
        subst hm hmn
        exact ⟨hk', hs'⟩


theorem allocated_numbers_never_reused_witness :
    (serve abcStore gapRun).map (fun r => r.1) =
      [⟨201, .chat ⟨1, "abc", calmEnv.now 0⟩⟩,
       ⟨500, .error "Internal server error"⟩,
       ⟨201, .chat ⟨3, "abc", calmEnv.now 0⟩⟩] ∧
    (serve abcStore gapRun).Pairwise (fun a b =>
      ∀ c, b.1 = ⟨201, .chat c⟩ → c.ApplicationToken = "abc" →
        (∀ k, a.2 (lastChatNumberKey "abc") = some (.int k) → k < c.Number) ∧
        (∀ c₀, a.1 = ⟨201, .chat c₀⟩ → c₀.ApplicationToken = "abc" →
          c₀.Number < c.Number)) :=
  ⟨by decide, (allocated_numbers_never_reused abcStore gapRun "abc" 1).1⟩

/-! ## Messages for a chat that was never created (C4) -/

/-- A request leaves a missing chat key missing, unless it is a `createChat`
for that token that ends in 500 or returns that number. -/
theorem handle_keeps_chat_absent (env : Env) (s : Store) (req : Request) (t : String) (n : Int)
    (h0 : s (chatMessagesCountKey t n) = none)
    (hreq : req = .createChat t → (handle env s req).1.status ≠ 500 ∧
      ∀ c, (handle env s req).1.payload = .chat c → c.Number ≠ n) :
    (handle env s req).2 (chatMessagesCountKey t n) = none := by
  cases req with
  | createChat t' =>
    simp only [handle] at hreq ⊢
    by_cases htt : t' = t
    · subst htt
      obtain ⟨h5, hnum⟩ := hreq rfl
      rcases createChat_not500_cases h5 with h201 | hsame
      · obtain ⟨-, n', a, -, -, hr⟩ := createChat_201 h201
        have hne : n' ≠ n := hnum ⟨n', t', env.now 0⟩ (by rw [hr])
        have hk : chatMessagesCountKey t' n ≠ chatMessagesCountKey t' n' :=
          fun h => hne (chatMessagesCountKey_inj h).2.symm
        rw [hr]
        simp only
        rw [Store.put_other _ _ (queueKey_ne_chatMessagesCountKey _ _ _).symm,
          Store.put_other _ _ hk,
          Store.put_other _ _ (chatMessagesCountKey_ne_chatsCountKey _ _),
          Store.put_other _ _ (chatMessagesCountKey_ne_lastChatNumberKey _ _ _)]
        exact h0
      · rw [hsame]; exact h0
    · apply createChat_preserves (Q := fun s0 => s0 (chatMessagesCountKey t n) = none)
      · intro f s0 hs0
        rw [rdbIncr_other (chatMessagesCountKey_ne_lastChatNumberKey _ _ _), hs0]
      · intro f s0 hp hs0
        have hk : chatMessagesCountKey t n ≠ chatsCountKey t' := by
          intro h; rw [h] at hs0; exact hp hs0
        rw [rdbIncr_other hk, hs0]
      · intro f n' s0 hs0
        have hk : chatMessagesCountKey t n ≠ chatMessagesCountKey t' n' :=
          fun h => htt (chatMessagesCountKey_inj h).1.symm
        rw [rdbSet_other hk, hs0]
      · intro f job s0 hq hs0
        rw [enqueueSidekiqJob_other (queueKey_ne_chatMessagesCountKey _ _ _).symm, hs0]
      · exact h0
  | createMessage t' cn body =>
    simp only [handle]
    apply createMessage_preserves (Q := fun s0 => s0 (chatMessagesCountKey t n) = none)
    · intro f n' s0 _ hs0
      rw [rdbIncr_other (chatMessagesCountKey_ne_lastMessageNumberKey _ _ _ _), hs0]
    · intro f n' s0 hp hs0
      have hk : chatMessagesCountKey t n ≠ chatMessagesCountKey t' n' := by
        intro h; rw [h] at hs0; exact hp hs0
      rw [rdbIncr_other hk, hs0]
    · intro f job s0 hq hs0
      rw [enqueueSidekiqJob_other (queueKey_ne_chatMessagesCountKey _ _ _).symm, hs0]
    · exact h0

/-- X5. The cut of `createChat` at its store calls loses nothing: run alone for
five calls, an in-flight request ends with the answer and the store of
`createChat`. -/
theorem runChat_eq_createChat (env : Env) (s : Store) (t : String) :
    runChat env t 5 (.start, s) = (.done (createChat env s t).1, (createChat env s t).2) := by
  simp only [runChat]
  rcases createChat_cases env s t with ⟨h0, hr⟩ | ⟨h0, err, hv, hr⟩ | ⟨h0, hv, hrest⟩
  · rw [hr]; simp [stepChat, h0]
  · rw [hr]; simp [stepChat, h0, hv]
  rcases hrest with ⟨e, s1, h1, hr⟩ | ⟨n, s1, h1, hrest⟩
  · rw [hr]; simp [stepChat, h0, hv, h1]
  rcases hrest with ⟨e, s2, h2, hr⟩ | ⟨m, s2, h2, hrest⟩
  · rw [hr]; simp [stepChat, h0, hv, h1, h2]
  rcases hrest with ⟨e, s3, h3, hr⟩ | ⟨s3, h3, hrest⟩
  · rw [hr]; simp [stepChat, h0, hv, h1, h2, h3]
  rcases hrest with ⟨e, s4, h4, hr⟩ | ⟨s4, h4, hr⟩
  · rw [hr]; simp [stepChat, h0, hv, h1, h2, h3, h4]
  · rw [hr]; simp [stepChat, h0, hv, h1, h2, h3, h4]

/-- What one store call of an in-flight request does, for a token that is
given and registered: it keeps the application key, never steps back behind
the `INCR`, finishes only with 500 or with 201 and the held number, and
either leaves the chat sequence alone and the held number as it was, or is
the `INCR` itself, which raises the sequence by one and holds the new value
if the reply arrives. -/
theorem stepChat_summary (env : Env) (t : String) (task : ChatTask) (s : Store)
    (ht : t ≠ "") (hp : s (chatsCountKey t) ≠ none) :
    (stepChat env t task s).2 (chatsCountKey t) ≠ none ∧
    (task.past = true → (stepChat env t task s).1.past = true) ∧
    (∀ r, (stepChat env t task s).1 = .done r →
      task = .done r ∨ r.status = 500 ∨ ∃ n ts, r = ⟨201, .chat ⟨n, t, ts⟩⟩) ∧
    (((stepChat env t task s).2 (lastChatNumberKey t) = s (lastChatNumberKey t) ∧
        ((stepChat env t task s).1.held = none ∨
          (stepChat env t task s).1.held = task.held)) ∨
      (task = .validated ∧ (stepChat env t task s).1.past = true ∧
        ∃ n, (stepChat env t task s).2 (lastChatNumberKey t) = some (.int n) ∧
          (s (lastChatNumberKey t) = none ∧ n = 1 ∨
            ∃ c, s (lastChatNumberKey t) = some (.int c) ∧ n = c + 1) ∧
          ((stepChat env t task s).1.held = some n ∨
            (stepChat env t task s).1.held = none))) := by
  cases task with
  | start =>
    simp only [stepChat, ht, if_false]
    rcases hv : validateApplicationToken (env.fault 0) s t with _ | err
    · simp only
      refine ⟨hp, by simp [ChatTask.past], by simp, Or.inl ⟨(by first | rfl | trivial), Or.inl rfl⟩⟩
    · simp only
      rw [handleValidationError_present hp hv]
      refine ⟨hp, by simp [ChatTask.past], ?_, Or.inl ⟨(by first | rfl | trivial), Or.inl rfl⟩⟩
      intro r hr
      simp only [ChatTask.done.injEq] at hr
      right; left; rw [← hr]; rfl
  | validated =>
    simp only [stepChat]
    have hkeep := rdbIncr_keeps (env.fault 1) (lastChatNumberKey t) hp
    have hst := rdbIncr_store (env.fault 1) (lastChatNumberKey t) s
    rcases h1 : rdbIncr (env.fault 1) (lastChatNumberKey t) s with ⟨r1, s1⟩
    rw [h1] at hkeep hst
    simp only at hkeep hst
    cases r1 with
    | error e =>
      simp only
      refine ⟨hkeep, by simp [ChatTask.past], ?_, ?_⟩
      · intro r hr
        simp only [ChatTask.done.injEq] at hr
        right; left; rw [← hr]; rfl
      · rcases hst with hs | ⟨n, hs, hval⟩
        · exact Or.inl ⟨by rw [hs], Or.inl rfl⟩
        · exact Or.inr ⟨(by first | rfl | trivial), rfl, n, by rw [hs, Store.put_same], hval, Or.inr rfl⟩
    | ok n =>
      simp only
      obtain ⟨hs, hval⟩ := rdbIncr_ok h1
      refine ⟨hkeep, by simp [ChatTask.past], by simp, ?_⟩
      exact Or.inr ⟨(by first | rfl | trivial), rfl, n, by rw [hs, Store.put_same], hval, Or.inl rfl⟩
  | allocated n =>
    simp only [stepChat]
    have hkeep := rdbIncr_keeps (env.fault 2) (chatsCountKey t) hp
    have hoth : (rdbIncr (env.fault 2) (chatsCountKey t) s).2 (lastChatNumberKey t) =
        s (lastChatNumberKey t) := rdbIncr_other (lastChatNumberKey_ne_chatsCountKey t)
    rcases h2 : rdbIncr (env.fault 2) (chatsCountKey t) s with ⟨r2, s2⟩
    rw [h2] at hkeep hoth
    simp only at hkeep hoth
    cases r2 with
    | error e =>
      simp only
      refine ⟨hkeep, fun _ => rfl, ?_, Or.inl ⟨hoth, Or.inl rfl⟩⟩
      intro r hr
      simp only [ChatTask.done.injEq] at hr
      right; left; rw [← hr]; rfl
    | ok m =>
      simp only
      exact ⟨hkeep, fun _ => rfl, by simp, Or.inl ⟨hoth, Or.inr rfl⟩⟩
  | counted n =>
    simp only [stepChat]
    have hkeep : (rdbSet (env.fault 3) (chatMessagesCountKey t n) s).2 (chatsCountKey t) ≠
        none := by
      rw [rdbSet_other (chatMessagesCountKey_ne_chatsCountKey t n).symm]; exact hp
    have hoth : (rdbSet (env.fault 3) (chatMessagesCountKey t n) s).2 (lastChatNumberKey t) =
        s (lastChatNumberKey t) :=
      rdbSet_other (chatMessagesCountKey_ne_lastChatNumberKey t t n).symm
    rcases h3 : rdbSet (env.fault 3) (chatMessagesCountKey t n) s with ⟨r3, s3⟩
    rw [h3] at hkeep hoth
    simp only at hkeep hoth
    cases r3 with
    | error e =>
      simp only
      refine ⟨hkeep, fun _ => rfl, ?_, Or.inl ⟨hoth, Or.inl rfl⟩⟩
      intro r hr
      simp only [ChatTask.done.injEq] at hr
      right; left; rw [← hr]; rfl
    | ok u =>
      simp only
      exact ⟨hkeep, fun _ => rfl, by simp, Or.inl ⟨hoth, Or.inr rfl⟩⟩
  | initialised n =>
    simp only [stepChat]
    have hkeep : (enqueueChatCreationJob env (env.fault 4) s ⟨n, t, env.now 0⟩).2
        (chatsCountKey t) ≠ none := by
      rw [enqueueChatCreationJob_eq,
        enqueueSidekiqJob_other (queueKey_ne_chatsCountKey _ _).symm]
      exact hp
    have hoth : (enqueueChatCreationJob env (env.fault 4) s ⟨n, t, env.now 0⟩).2
        (lastChatNumberKey t) = s (lastChatNumberKey t) := by
      rw [enqueueChatCreationJob_eq,
        enqueueSidekiqJob_other (queueKey_ne_lastChatNumberKey _ _).symm]
    rcases h4 : enqueueChatCreationJob env (env.fault 4) s ⟨n, t, env.now 0⟩ with ⟨r4, s4⟩
    rw [h4] at hkeep hoth
    simp only at hkeep hoth
    cases r4 with
    | some e =>
      simp only
      refine ⟨hkeep, fun _ => rfl, ?_, Or.inl ⟨hoth, Or.inl rfl⟩⟩
      intro r hr
      simp only [ChatTask.done.injEq] at hr
      right; left; rw [← hr]; rfl
    | none =>
      simp only
      refine ⟨hkeep, fun _ => rfl, ?_, Or.inl ⟨hoth, Or.inr rfl⟩⟩
      intro r hr
      simp only [ChatTask.done.injEq] at hr
      right; right
      exact ⟨n, env.now 0, hr.symm⟩
  | done r =>
    simp only [stepChat]
    exact ⟨hp, fun h => h, fun r' hr' => Or.inl hr', Or.inl ⟨(by first | rfl | trivial), Or.inr (by first | rfl | trivial)⟩⟩

theorem PoolInv_initial (N : Nat) (t : String) (s : Store) (hp : s (chatsCountKey t) ≠ none) :
    PoolInv t s (Pool.initial N s) := by
  refine ⟨0, Or.inl ⟨rfl, rfl⟩, Nat.zero_le _, ?_, ?_, ?_, hp⟩
  · intro i n h; simp [Pool.initial, ChatTask.held] at h
  · intro i j n h; simp [Pool.initial, ChatTask.held] at h
  · intro i r h; simp [Pool.initial] at h

theorem PoolInv_step {N : Nat} (envs : Fin N → Env) (t : String) (s0 : Store) (p : Pool N)
    (i : Fin N) (ht : t ≠ "") (h : PoolInv t s0 p) : PoolInv t s0 (p.step envs t i) := by
  obtain ⟨m, hcnt, hcard, hrng, hinj, hdn, hpres⟩ := h
  obtain ⟨hpres', hpast, hshape, halloc⟩ :=
    stepChat_summary (envs i) t (p.tasks i) p.store ht hpres
  have htask_i : (p.step envs t i).tasks i = (stepChat (envs i) t (p.tasks i) p.store).1 := by
    simp [Pool.step]
  have htask_ne : ∀ j, j ≠ i → (p.step envs t i).tasks j = p.tasks j := by
    intro j hj; simp [Pool.step, hj]
  have hstore : (p.step envs t i).store = (stepChat (envs i) t (p.tasks i) p.store).2 := rfl
  have hdone' : ∀ j r, (p.step envs t i).tasks j = .done r →
      r.status = 500 ∨ ∃ n ts, r = ⟨201, .chat ⟨n, t, ts⟩⟩ := by
    intro j r hj
    by_cases hji : j = i
    · subst hji
      rw [htask_i] at hj
      rcases hshape r hj with h1 | h1 | h1
      · exact hdn j r h1
      · exact Or.inl h1
      · exact Or.inr h1
    · rw [htask_ne j hji] at hj
      exact hdn j r hj
  rcases halloc with ⟨hsame, hheld⟩ | ⟨hval, hpast', n, hn, hrel, hheld⟩
  · -- a call that leaves the chat sequence alone
    have hold : ∀ j v, ((p.step envs t i).tasks j).held = some v →
        (p.tasks j).held = some v := by
      intro j v hj
      by_cases hji : j = i
      · subst hji
        rw [htask_i] at hj
        rcases hheld with h1 | h1
        · rw [h1] at hj; simp at hj
        · rw [h1] at hj; exact hj
      · rw [htask_ne j hji] at hj; exact hj
    refine ⟨m, ?_, ?_, ?_, ?_, hdone', by rw [hstore]; exact hpres'⟩
    · rw [hstore, hsame]; exact hcnt
    · refine le_trans hcard (Finset.card_le_card ?_)
      intro j hj
      simp only [Finset.mem_filter, Finset.mem_univ, true_and] at hj ⊢
      by_cases hji : j = i
      · subst hji; rw [htask_i]; exact hpast hj
      · rw [htask_ne j hji]; exact hj
    · intro j v hj; exact hrng j v (hold j v hj)
    · intro a b v ha hb; exact hinj a b v (hold a v ha) (hold b v hb)
  · -- the `INCR` of the chat sequence
    have hn' : n = s0.counterAt (lastChatNumberKey t) + m + 1 := by
      rcases hcnt with ⟨h0, hm0⟩ | hB
      · subst hm0
        rw [h0] at hrel
        unfold Store.counterAt
        rcases hrel with ⟨hnone, rfl⟩ | ⟨c, hc, rfl⟩
        · rw [hnone]; simp
        · rw [hc]; simp
      · rw [hB] at hrel
        rcases hrel with ⟨hnone, -⟩ | ⟨c, hc, rfl⟩
        · simp at hnone
        · simp only [Option.some.injEq, Value.int.injEq] at hc
          rw [← hc]
    have hnotpast : (p.tasks i).past = false := by rw [hval]; rfl
    have hnew : ∀ v, ((p.step envs t i).tasks i).held = some v → v = n := by
      intro v hv
      rw [htask_i] at hv
      rcases hheld with h1 | h1
      · rw [h1] at hv; simp only [Option.some.injEq] at hv; exact hv.symm
      · rw [h1] at hv; simp at hv
    refine ⟨m + 1, Or.inr ?_, ?_, ?_, ?_, hdone', by rw [hstore]; exact hpres'⟩
    · rw [hstore, hn, hn']
      push_cast
      rw [add_assoc]
    · have hsub : insert i (Finset.univ.filter (fun j => (p.tasks j).past = true)) ⊆
          Finset.univ.filter (fun j => ((p.step envs t i).tasks j).past = true) := by
        intro j hj
        simp only [Finset.mem_insert, Finset.mem_filter, Finset.mem_univ, true_and] at hj ⊢
        by_cases hji : j = i
        · subst hji; rw [htask_i]; exact hpast'
        · rw [htask_ne j hji]
          rcases hj with hj | hj
          · exact absurd hj hji
          · exact hj
      have hnotin : i ∉ Finset.univ.filter (fun j => (p.tasks j).past = true) := by
        simp [hnotpast]
      have := Finset.card_le_card hsub
      rw [Finset.card_insert_of_not_mem hnotin] at this
      omega
    · intro j v hj
      by_cases hji : j = i
      · subst hji
        rw [hnew v hj, hn']
        push_cast
        constructor <;> omega
      · rw [htask_ne j hji] at hj
        obtain ⟨h1, h2⟩ := hrng j v hj
        push_cast
        constructor <;> omega
    · intro a b v ha hb
      by_cases hai : a = i <;> by_cases hbi : b = i
      · rw [hai, hbi]
      · exfalso
        subst hai
        rw [htask_ne b hbi] at hb
        have := (hrng b v hb).2
        rw [hnew v ha, hn'] at this
        omega
      · exfalso
        subst hbi
        rw [htask_ne a hai] at ha
        have := (hrng a v ha).2
        rw [hnew v hb, hn'] at this
        omega
      · rw [htask_ne a hai] at ha
        rw [htask_ne b hbi] at hb
        exact hinj a b v ha hb

theorem PoolInv_run {N : Nat} (envs : Fin N → Env) (t : String) (s0 : Store)
    (ht : t ≠ "") (schedule : List (Fin N)) :
    ∀ p : Pool N, PoolInv t s0 p → PoolInv t s0 (p.run envs t schedule) := by
  induction schedule with
  | nil => intro p h; exact h
  | cons i rest ih =>
    intro p h
    simp only [Pool.run, List.foldl_cons]
    exact ih _ (PoolInv_step envs t s0 p i ht h)

/-- C1. For every number `N` of `createChat` requests for one token that are
in flight together, whatever the order in which their store calls are served,
and every prior value `k` of `application:<token>:last_chat_number` (0 for a
missing key): when the token is given (not empty) and its application key is
present, every request has finished and no store call failed (no request is
answered 500), then every request is answered 201 with a chat number, no two
requests get the same number, and the numbers returned are exactly
`k + 1, ..., k + N`. -/
theorem concurrent_createChat_numbers (N : Nat) (envs : Fin N → Env) (t : String) (s : Store)
    (schedule : List (Fin N)) (ht : t ≠ "") (hp : s (chatsCountKey t) ≠ none)
    (hdone : ∀ i, ∃ r, ((Pool.initial N s).run envs t schedule).tasks i = .done r ∧
      r.status ≠ 500) :
    ∃ number : Fin N → Int,
      (∀ i, ∃ ts, ((Pool.initial N s).run envs t schedule).tasks i =
        .done ⟨201, .chat ⟨number i, t, ts⟩⟩) ∧
      Function.Injective number ∧
      ∀ v : Int, (∃ i, number i = v) ↔
        s.counterAt (lastChatNumberKey t) + 1 ≤ v ∧
        v ≤ s.counterAt (lastChatNumberKey t) + N := by
  obtain ⟨m, -, hcard, hrng, hinj, hdn, -⟩ :=
    PoolInv_run envs t s ht schedule _ (PoolInv_initial N t s hp)
  generalize (Pool.initial N s).run envs t schedule = p at hdone hcard hrng hinj hdn
  set k := s.counterAt (lastChatNumberKey t) with hk
  have hans : ∀ i, ∃ n ts, p.tasks i = .done ⟨201, .chat ⟨n, t, ts⟩⟩ := by
    intro i
    obtain ⟨r, hr, h5⟩ := hdone i
    rcases hdn i r hr with h | ⟨n, ts, h⟩
    · exact absurd h h5
    · exact ⟨n, ts, by rw [hr, h]⟩
  choose number hnumber using hans
  have hheld : ∀ i, (p.tasks i).held = some (number i) := by
    intro i
    obtain ⟨ts, h⟩ := hnumber i
    rw [h]; rfl
  have hmN : m ≤ N := by
    refine le_trans hcard ?_
    calc (Finset.univ.filter (fun i => (p.tasks i).past = true)).card
        ≤ (Finset.univ : Finset (Fin N)).card := Finset.card_le_card (Finset.filter_subset _ _)
      _ = N := by simp
  have hinj' : Function.Injective number := by
    intro a b hab
    exact hinj a b (number a) (hheld a) (by rw [hab]; exact hheld b)
  have hsub : Finset.univ.image number ⊆ Finset.Icc (k + 1) (k + N) := by
    intro v hv
    simp only [Finset.mem_image, Finset.mem_univ, true_and] at hv
    obtain ⟨i, rfl⟩ := hv
    obtain ⟨h1, h2⟩ := hrng i (number i) (hheld i)
    simp only [Finset.mem_Icc]
    constructor
    · exact h1
    · have : (m : Int) ≤ N := by exact_mod_cast hmN
      omega
  have hcardeq : (Finset.Icc (k + 1) (k + N)).card ≤ (Finset.univ.image number).card := by
    rw [Finset.card_image_of_injective _ hinj', Int.card_Icc]
    simp
  have heq := Finset.eq_of_subset_of_card_le hsub hcardeq
  refine ⟨number, hnumber, hinj', ?_⟩
  intro v
  have : v ∈ Finset.univ.image number ↔ v ∈ Finset.Icc (k + 1) (k + N) := by rw [heq]
  simp only [Finset.mem_image, Finset.mem_univ, true_and, Finset.mem_Icc] at this
  exact this


theorem concurrent_createChat_numbers_witness :
    ((Pool.initial 2 abcStore).run (fun _ => calmEnv) "abc" alternating).tasks 0 =
      .done ⟨201, .chat ⟨1, "abc", calmEnv.now 0⟩⟩ ∧
    ((Pool.initial 2 abcStore).run (fun _ => calmEnv) "abc" alternating).tasks 1 =
      .done ⟨201, .chat ⟨2, "abc", calmEnv.now 0⟩⟩ ∧
    ∃ number : Fin 2 → Int,
      (∀ i, ∃ ts, ((Pool.initial 2 abcStore).run (fun _ => calmEnv) "abc" alternating).tasks i =
        .done ⟨201, .chat ⟨number i, "abc", ts⟩⟩) ∧
      Function.Injective number ∧
      ∀ v : Int, (∃ i, number i = v) ↔
        abcStore.counterAt (lastChatNumberKey "abc") + 1 ≤ v ∧
        v ≤ abcStore.counterAt (lastChatNumberKey "abc") + (2 : Nat) :=
  have h0 : ((Pool.initial 2 abcStore).run (fun _ => calmEnv) "abc" alternating).tasks 0 =
      .done ⟨201, .chat ⟨1, "abc", calmEnv.now 0⟩⟩ := by decide
  have h1 : ((Pool.initial 2 abcStore).run (fun _ => calmEnv) "abc" alternating).tasks 1 =
      .done ⟨201, .chat ⟨2, "abc", calmEnv.now 0⟩⟩ := by decide
  ⟨h0, h1,
    concurrent_createChat_numbers 2 (fun _ => calmEnv) "abc" abcStore alternating (by decide)
      (by simp [abcStore, chatsCountKey])
      (by
        intro i
        fin_cases i
        · exact ⟨_, h0, by decide⟩
        · exact ⟨_, h1, by decide⟩)⟩

/-! ## A new chat starts its messages at 1 (C3) -/

/-- A request brings a message sequence into being only for a chat that
exists. -/
theorem handle_message_seq_needs_chat (env : Env) (s : Store) (req : Request) (t : String)
    (n : Int)
    (h : s (lastMessageNumberKey t n) = none ∨ s (chatMessagesCountKey t n) ≠ none) :
    (handle env s req).2 (lastMessageNumberKey t n) = none ∨
      (handle env s req).2 (chatMessagesCountKey t n) ≠ none := by
  rcases h with h | h
  swap
  · exact Or.inr (handle_keeps_present env s req h)
  cases req with
  | createChat t' =>
    simp only [handle]
    left
    apply createChat_preserves (Q := fun s0 => s0 (lastMessageNumberKey t n) = none)
    · intro f s0 h0
      rw [rdbIncr_other (lastChatNumberKey_ne_lastMessageNumberKey _ _ _).symm, h0]
    · intro f s0 hp h0
      have hk : lastMessageNumberKey t n ≠ chatsCountKey t' := by
        intro e; rw [e] at h0; exact hp h0
      rw [rdbIncr_other hk, h0]
    · intro f n' s0 h0
      rw [rdbSet_other (chatMessagesCountKey_ne_lastMessageNumberKey _ _ _ _).symm, h0]
    · intro f job s0 _ h0
      rw [enqueueSidekiqJob_other (queueKey_ne_lastMessageNumberKey _ _ _).symm, h0]
    · exact h
  | createMessage t' cn body =>
    simp only [handle]
    apply createMessage_preserves (Q := fun s0 =>
      s0 (lastMessageNumberKey t n) = none ∨ s0 (chatMessagesCountKey t n) ≠ none)
    · intro f n' s0 hp h0
      by_cases hk : lastMessageNumberKey t n = lastMessageNumberKey t' n'
      · obtain ⟨rfl, rfl⟩ := lastMessageNumberKey_inj hk
        exact Or.inr (rdbIncr_keeps f _ hp)
      · rcases h0 with h0 | h0
        · left; rw [rdbIncr_other hk, h0]
        · exact Or.inr (rdbIncr_keeps f _ h0)
    · intro f n' s0 hp h0
      rcases h0 with h0 | h0
      · left
        rw [rdbIncr_other (chatMessagesCountKey_ne_lastMessageNumberKey _ _ _ _).symm, h0]
      · exact Or.inr (rdbIncr_keeps f _ h0)
    · intro f job s0 _ h0
      rcases h0 with h0 | h0
      · left
        rw [enqueueSidekiqJob_other (queueKey_ne_lastMessageNumberKey _ _ _).symm, h0]
      · exact Or.inr (enqueueSidekiqJob_keeps f job h0)
    · exact Or.inl h

/-- When `createChat` brings the chat key of number `n` into being, `n` is the
number it took from the chat sequence, and the sequence holds it. -/
theorem createChat_chat_key_created (env : Env) (s : Store) (t : String) (n : Int)
    (h0 : s (chatMessagesCountKey t n) = none)
    (h1 : (createChat env s t).2 (chatMessagesCountKey t n) ≠ none) :
    (createChat env s t).2 (lastChatNumberKey t) = some (.int n) := by
  rcases createChat_cases env s t with ⟨-, hr⟩ | ⟨-, err, -, hr⟩ | ⟨ht, hv, hrest⟩
  · rw [hr] at h1; exact absurd h0 h1
  · rw [hr] at h1; exact absurd h0 h1
  rcases hrest with ⟨e, s1, hi, hr⟩ | ⟨k, s1, hi, hrest⟩
  · exfalso
    rw [hr] at h1
    have := rdbIncr_other (f := env.fault 1) (s := s)
      (chatMessagesCountKey_ne_lastChatNumberKey t t n)
    rw [hi] at this
    exact h1 (by simp only at this ⊢; rw [this, h0])
  have hfin := createChat_consumed_stays env s t k s1 ht hv hi
  by_cases hkn : k = n
  · rw [← hkn]; exact hfin
  exfalso
  have a1 : s1 (chatMessagesCountKey t n) = none := by
    have := rdbIncr_other (f := env.fault 1) (s := s)
      (chatMessagesCountKey_ne_lastChatNumberKey t t n)
    rw [hi] at this
    simp only at this
    rw [this, h0]
  have a2 : ∀ f, (rdbIncr f (chatsCountKey t) s1).2 (chatMessagesCountKey t n) = none :=
    fun f => by rw [rdbIncr_other (chatMessagesCountKey_ne_chatsCountKey t n), a1]
  rcases hrest with ⟨e, s2, h2, hr⟩ | ⟨m, s2, h2, hrest⟩
  · rw [hr] at h1
    have := a2 (env.fault 2); rw [h2] at this
    exact h1 this
  have b2 : s2 (chatMessagesCountKey t n) = none := by
    have := a2 (env.fault 2); rwa [h2] at this
  have hne : chatMessagesCountKey t n ≠ chatMessagesCountKey t k :=
    fun e => hkn (chatMessagesCountKey_inj e).2.symm
  have a3 : ∀ f, (rdbSet f (chatMessagesCountKey t k) s2).2 (chatMessagesCountKey t n) = none :=
    fun f => by rw [rdbSet_other hne, b2]
  rcases hrest with ⟨e, s3, h3, hr⟩ | ⟨s3, h3, hrest⟩
  · rw [hr] at h1
    have := a3 (env.fault 3); rw [h3] at this
    exact h1 this
  have b3 : s3 (chatMessagesCountKey t n) = none := by
    have := a3 (env.fault 3); rwa [h3] at this
  have a4 : (enqueueChatCreationJob env (env.fault 4) s3 ⟨k, t, env.now 0⟩).2
      (chatMessagesCountKey t n) = none := by
    rw [enqueueChatCreationJob_eq,
      enqueueSidekiqJob_other (queueKey_ne_chatMessagesCountKey _ _ _).symm, b3]
  rcases hrest with ⟨e, s4, h4, hr⟩ | ⟨s4, h4, hr⟩
  · rw [hr] at h1; rw [h4] at a4; exact h1 a4
  · rw [hr] at h1; rw [h4] at a4; exact h1 a4

/-- A request brings a chat key into being only under a number the chat
sequence has reached. -/
theorem handle_chat_needs_counter (env : Env) (s : Store) (req : Request) (t : String) (n : Int)
    (h : s (chatMessagesCountKey t n) = none ∨
      ∃ c, s (lastChatNumberKey t) = some (.int c) ∧ n ≤ c) :
    (handle env s req).2 (chatMessagesCountKey t n) = none ∨
      ∃ c, (handle env s req).2 (lastChatNumberKey t) = some (.int c) ∧ n ≤ c := by
  rcases h with h | ⟨c, hc, hn⟩
  · by_cases hreq : req = .createChat t
    · subst hreq
      simp only [handle]
      by_cases h1 : (createChat env s t).2 (chatMessagesCountKey t n) = none
      · exact Or.inl h1
      · exact Or.inr ⟨n, createChat_chat_key_created env s t n h h1, le_refl _⟩
    · exact Or.inl (handle_keeps_chat_absent env s req t n h (fun e => absurd e hreq))
  · obtain ⟨c', hle, hc'⟩ := handle_int_mono env s req
      (fun t' n' => (chatMessagesCountKey_ne_lastChatNumberKey t' t n').symm) hc
    exact Or.inr ⟨c', hc', le_trans hn hle⟩

/-- Every request keeps the chats of a token from lying ahead of its chat
sequence. -/
theorem NoChatsAhead_handle (env : Env) (s : Store) (req : Request) (t : String)
    (h : NoChatsAhead t s) : NoChatsAhead t (handle env s req).2 := by
  intro n
  rcases h n with ⟨hK, hJ⟩ | ⟨c, hc, hn⟩
  · rcases handle_chat_needs_counter env s req t n (Or.inl hK) with h1 | h1
    · rcases handle_message_seq_needs_chat env s req t n (Or.inl hJ) with h2 | h2
      · exact Or.inl ⟨h1, h2⟩
      · exact absurd h1 h2
    · exact Or.inr h1
  · obtain ⟨c', hle, hc'⟩ := handle_int_mono env s req
      (fun t' n' => (chatMessagesCountKey_ne_lastChatNumberKey t' t n').symm) hc
    exact Or.inr ⟨c', hc', le_trans hn hle⟩

theorem NoChatsAhead_storeAfter (t : String) (reqs : List (Env × Request)) (s : Store)
    (h : NoChatsAhead t s) : NoChatsAhead t (storeAfter s reqs) :=
  storeAfter_induct (P := NoChatsAhead t) (R := fun _ => True)
    (fun env s0 req _ h0 => NoChatsAhead_handle env s0 req t h0) reqs s (fun _ _ => trivial) h

/-- Where no chat of the token lies ahead of its chat sequence, the chat that
`createChat` returns has no message sequence yet. -/
theorem new_chat_has_no_message_seq {env : Env} {s : Store} {t : String} {c : Chat}
    (h : NoChatsAhead t s) (hc : (createChat env s t).1 = ⟨201, .chat c⟩) :
    s (lastMessageNumberKey t c.Number) = none := by
  have hst : (createChat env s t).1.status = 201 := by rw [hc]
  obtain ⟨n, ts, hr, hn, -⟩ := createChat_201_store_counter hst
  rw [hr] at hc
  simp only [Response.mk.injEq, Payload.chat.injEq, true_and] at hc
  subst hc
  simp only
  rcases h n with ⟨-, hJ⟩ | ⟨c0, hc0, hle⟩
  · exact hJ
  · exfalso
    rw [hc0] at hn
    rcases hn with ⟨h0, -⟩ | ⟨k, hk, rfl⟩
    · simp at h0
    · simp only [Option.some.injEq, Value.int.injEq] at hk
      omega

theorem abcStore_has_no_chats : NoChatsAhead "abc" abcStore := by
  intro n
  have h1 : chatMessagesCountKey "abc" n ≠ "application:abc" :=
    chatMessagesCountKey_ne_chatsCountKey "abc" n
  have h2 : lastMessageNumberKey "abc" n ≠ "application:abc" :=
    lastMessageNumberKey_ne_chatsCountKey "abc" n
  left
  simp [abcStore, h1, h2]

/-- A request that is no accepted `createMessage` for a chat and no
`createChat` for the token spelled by the message-sequence key of that chat
leaves the message sequence of the chat as it is. -/
theorem handle_message_seq_same (env : Env) (s : Store) (req : Request) (t : String) (n : Int)
    (hm : req.isMessageFor t n = false)
    (hc : req ≠ .createChat (tokenOfLastMessageNumberKey t n)) :
    (handle env s req).2 (lastMessageNumberKey t n) = s (lastMessageNumberKey t n) := by
  cases req with
  | createChat t' =>
    simp only [handle]
    apply createChat_other
    · exact (lastChatNumberKey_ne_lastMessageNumberKey _ _ _).symm
    · intro h
      apply hc
      rw [chatsCountKey_eq_lastMessageNumberKey_iff.mp h.symm]
    · exact (chatMessagesCountKey_ne_lastMessageNumberKey _ _ _ _).symm
    · exact (queueKey_ne_lastMessageNumberKey _ _ _).symm
  | createMessage t' cn body =>
    simp only [handle]
    apply createMessage_other
    · intro n' b hn hb hb'
      refine ⟨?_, (chatMessagesCountKey_ne_lastMessageNumberKey _ _ _ _).symm⟩
      intro h
      obtain ⟨rfl, rfl⟩ := lastMessageNumberKey_inj h
      subst hb
      simp [Request.isMessageFor, hn, hb'] at hm
    · exact (queueKey_ne_lastMessageNumberKey _ _ _).symm

/-- A request that is no accepted `createMessage` for a chat leaves a missing
message sequence of that chat missing: a `createChat` for the token spelled
by the key does not find that token. -/
theorem handle_message_seq_absent (env : Env) (s : Store) (req : Request) (t : String)
    (n : Int) (hm : req.isMessageFor t n = false) (h0 : s (lastMessageNumberKey t n) = none) :
    (handle env s req).2 (lastMessageNumberKey t n) = none := by
  by_cases hc : req = .createChat (tokenOfLastMessageNumberKey t n)
  · subst hc
    simp only [handle]
    rcases createChat_cases env s (tokenOfLastMessageNumberKey t n) with
      ⟨-, hr⟩ | ⟨-, err, -, hr⟩ | ⟨-, hv, -⟩
    · rw [hr]; exact h0
    · rw [hr]; exact h0
    · have := validateApplicationToken_present hv
      rw [chatsCountKey_tokenOfLastMessageNumberKey] at this
      exact absurd h0 this
  · rw [handle_message_seq_same env s req t n hm hc, h0]

/-- A `createMessage` with a body for an existing chat of a registered token
that is not answered 500 answers 201 with the successor of what the message
sequence of the chat held (1 on a missing sequence), and leaves that number
in the sequence. -/
theorem createMessage_next_number {env : Env} {s : Store} {t cn b : String} {n : Int}
    (ht : t ≠ "") (hn : sscanfInt64 cn = some n) (hb : b ≠ "")
    (hp : s (chatsCountKey t) ≠ none) (hc : s (chatMessagesCountKey t n) ≠ none)
    (h : (createMessage env s t cn (some b)).1.status ≠ 500) :
    ∃ k, (s (lastMessageNumberKey t n) = none ∧ k = 1 ∨
        ∃ c, s (lastMessageNumberKey t n) = some (.int c) ∧ k = c + 1) ∧
      (createMessage env s t cn (some b)).1 = ⟨201, .message ⟨k, b, n, t, env.now 0⟩⟩ ∧
      (createMessage env s t cn (some b)).2 (lastMessageNumberKey t n) = some (.int k) := by
  obtain ⟨-, n₁, b₁, k, a, hn₁, hb₁, -, -, hk, -, hr⟩ :=
    createMessage_201 (createMessage_not500 ht hn hb hp hc h)
  rw [hn] at hn₁
  simp only [Option.some.injEq] at hn₁ hb₁
  subst hn₁ hb₁
  refine ⟨k, hk, by rw [hr], ?_⟩
  rw [hr]
  simp only
  rw [Store.put_other _ _ (queueKey_ne_lastMessageNumberKey _ _ _).symm,
    Store.put_other _ _ (chatMessagesCountKey_ne_lastMessageNumberKey _ _ _ _).symm,
    Store.put_same]

/-- C3, as the code has it. If `createChat` for a token answers 201 with chat
number `n` in a store where the key
`application:<token>:chat:<n>:last_message_number` is missing, then the first
`createMessage` for that token and chat `n` with a non-empty body served
afterwards answers 201 with message number 1 and the next one answers 201
with message number 2, when no store call of the two fails (neither is
answered 500). Any other requests may be served in between, for any token and
chat and with any outcome, except that no `createChat` for the token spelled
`<token>:chat:<n>:last_message_number` is served between the two messages;
`between₁` and `between₂` are those requests, none of them a `createMessage`
with a body for the token and chat `n`. -/
theorem createMessage_numbers_start_at_one (s : Store)
    (between₁ between₂ : List (Env × Request)) (env₀ env₁ env₂ : Env)
    (t cn₁ cn₂ b₁ b₂ : String) (c : Chat)
    (hc : (createChat env₀ s t).1 = ⟨201, .chat c⟩)
    (hfresh : s (lastMessageNumberKey t c.Number) = none)
    (hfirst : ∀ x ∈ between₁, x.2.isMessageFor t c.Number = false)
    (hnext : ∀ x ∈ between₂, x.2.isMessageFor t c.Number = false ∧
      x.2 ≠ .createChat (tokenOfLastMessageNumberKey t c.Number))
    (hcn₁ : sscanfInt64 cn₁ = some c.Number) (hcn₂ : sscanfInt64 cn₂ = some c.Number)
    (hb₁ : b₁ ≠ "") (hb₂ : b₂ ≠ "")
    (h₁ : (createMessage env₁ (storeAfter (createChat env₀ s t).2 between₁) t cn₁
      (some b₁)).1.status ≠ 500)
    (h₂ : (createMessage env₂
      (storeAfter
        (createMessage env₁ (storeAfter (createChat env₀ s t).2 between₁) t cn₁ (some b₁)).2
        between₂) t cn₂ (some b₂)).1.status ≠ 500) :
    (createMessage env₁ (storeAfter (createChat env₀ s t).2 between₁) t cn₁ (some b₁)).1 =
      ⟨201, .message ⟨1, b₁, c.Number, t, env₁.now 0⟩⟩ ∧
    (createMessage env₂
      (storeAfter
        (createMessage env₁ (storeAfter (createChat env₀ s t).2 between₁) t cn₁ (some b₁)).2
        between₂) t cn₂ (some b₂)).1 =
      ⟨201, .message ⟨2, b₂, c.Number, t, env₂.now 0⟩⟩ := by
  have hst : (createChat env₀ s t).1.status = 201 := by rw [hc]
  obtain ⟨ht, n, a, -, ha, hr⟩ := createChat_201 hst
  have hcn : c.Number = n := by
    rw [hr] at hc
    simp only [Response.mk.injEq, Payload.chat.injEq, true_and] at hc
    rw [← hc]
  rw [hcn] at hfresh hfirst hnext hcn₁ hcn₂ ⊢
  have happ : (createChat env₀ s t).2 (chatsCountKey t) ≠ none :=
    handle_keeps_present env₀ s (.createChat t) (by rw [ha]; simp)
  have hchat : (createChat env₀ s t).2 (chatMessagesCountKey t n) ≠ none := by
    rw [hr]
    simp only
    rw [Store.put_other _ _ (queueKey_ne_chatMessagesCountKey _ _ _).symm, Store.put_same]
    simp
  have hseq : (createChat env₀ s t).2 (lastMessageNumberKey t n) = none :=
    handle_message_seq_absent env₀ s (.createChat t) t n rfl hfresh
  generalize (createChat env₀ s t).2 = s₁ at h₁ h₂ happ hchat hseq ⊢
  have happ₁ := storeAfter_keeps_present between₁ s₁ happ
  have hchat₁ := storeAfter_keeps_present between₁ s₁ hchat
  have hseq₁ : (storeAfter s₁ between₁) (lastMessageNumberKey t n) = none :=
    storeAfter_induct (P := fun s0 => s0 (lastMessageNumberKey t n) = none)
      (R := fun x => x.2.isMessageFor t n = false)
      (fun env s0 req hR h0 => handle_message_seq_absent env s0 req t n hR h0)
      between₁ s₁ hfirst hseq
  obtain ⟨k₁, hk₁, hr₁, hs₁⟩ := createMessage_next_number ht hcn₁ hb₁ happ₁ hchat₁ h₁
  have hk₁' : k₁ = 1 := by
    rcases hk₁ with ⟨-, h⟩ | ⟨c', h, -⟩
    · exact h
    · rw [hseq₁] at h; simp at h
  subst hk₁'
  have happ₂ : (createMessage env₁ (storeAfter s₁ between₁) t cn₁ (some b₁)).2
      (chatsCountKey t) ≠ none :=
    handle_keeps_present env₁ _ (.createMessage t cn₁ (some b₁)) happ₁
  have hchat₂ : (createMessage env₁ (storeAfter s₁ between₁) t cn₁ (some b₁)).2
      (chatMessagesCountKey t n) ≠ none :=
    handle_keeps_present env₁ _ (.createMessage t cn₁ (some b₁)) hchat₁
  refine ⟨hr₁, ?_⟩
  generalize (createMessage env₁ (storeAfter s₁ between₁) t cn₁ (some b₁)).2 = s₂
    at h₂ happ₂ hchat₂ hs₁ ⊢
  have happ₃ := storeAfter_keeps_present between₂ s₂ happ₂
  have hchat₃ := storeAfter_keeps_present between₂ s₂ hchat₂
  have hseq₃ : (storeAfter s₂ between₂) (lastMessageNumberKey t n) = some (.int 1) :=
    storeAfter_induct (P := fun s0 => s0 (lastMessageNumberKey t n) = some (.int 1))
      (R := fun x => x.2.isMessageFor t n = false ∧
        x.2 ≠ .createChat (tokenOfLastMessageNumberKey t n))
      (fun env s0 req hR h0 =>
        (handle_message_seq_same env s0 req t n hR.1 hR.2).trans h0)
      between₂ s₂ hnext hs₁
  obtain ⟨k₂, hk₂, hr₂, -⟩ := createMessage_next_number ht hcn₂ hb₂ happ₃ hchat₃ h₂
  have hk₂' : k₂ = 2 := by
    rcases hk₂ with ⟨h, -⟩ | ⟨c', h, h'⟩
    · rw [hseq₃] at h; simp at h
    · rw [hseq₃] at h
      simp only [Option.some.injEq, Value.int.injEq] at h
      rw [h', ← h]; rfl
  subst hk₂'
  exact hr₂

/-- C3 on chat 2 of `abc`, created after chat 1 received two messages: with a
third chat, a third message in chat 1, a refused message and a `createChat`
for an unknown token served before the first message of chat 2, and a message
in chat 3, a failed `createChat` and a message for an unknown token served
before the second, the two messages of chat 2 are numbered 1 and 2. -/
theorem createMessage_numbers_start_at_one_witness :
    (createChat calmEnv (storeAfter abcStore earlierChat) "abc").1 =
      ⟨201, .chat ⟨2, "abc", calmEnv.now 0⟩⟩ ∧
    (createMessage calmEnv
      (storeAfter (createChat calmEnv (storeAfter abcStore earlierChat) "abc").2
        beforeFirstMessage) "abc" "2" (some "hi")).1 =
      ⟨201, .message ⟨1, "hi", 2, "abc", calmEnv.now 0⟩⟩ ∧
    (createMessage calmEnv
      (storeAfter
        (createMessage calmEnv
          (storeAfter (createChat calmEnv (storeAfter abcStore earlierChat) "abc").2
            beforeFirstMessage) "abc" "2" (some "hi")).2
        beforeSecondMessage) "abc" "2" (some "hi again")).1 =
      ⟨201, .message ⟨2, "hi again", 2, "abc", calmEnv.now 0⟩⟩ :=
  ⟨by decide,
    createMessage_numbers_start_at_one (storeAfter abcStore earlierChat) beforeFirstMessage
      beforeSecondMessage calmEnv calmEnv calmEnv "abc" "2" "2" "hi" "hi again"
      ⟨2, "abc", calmEnv.now 0⟩ (by decide)
      (new_chat_has_no_message_seq
        (NoChatsAhead_storeAfter "abc" earlierChat abcStore abcStore_has_no_chats)
        (show (createChat calmEnv (storeAfter abcStore earlierChat) "abc").1 =
          ⟨201, .chat ⟨2, "abc", calmEnv.now 0⟩⟩ by decide))
      (by decide) (by decide) (by decide) (by decide) (by decide) (by decide) (by decide)
      (by decide)⟩

/-- C3 fails as stated, with every store call answered. From a store that
holds only `application:abc`: chat 1 is created, its first message gets number
1, a `createChat` for the token spelled `abc:chat:1:last_message_number` is
then served (the message-sequence key of chat 1 is the application key of
that token, and the request raises it), and the next message of chat 1 gets
number 3. And in a store where the message-sequence key of chat 1 already
holds 5 when chat 1 is created, the first message of the chat gets number
6. -/
theorem createMessage_numbers_not_from_one :
    (serve abcStore aliasRun).map (fun x => x.1) =
      [⟨201, .chat ⟨1, "abc", calmEnv.now 0⟩⟩,
       ⟨201, .message ⟨1, "hi", 1, "abc", calmEnv.now 0⟩⟩,
       ⟨201, .chat ⟨1, "abc:chat:1:last_message_number", calmEnv.now 0⟩⟩,
       ⟨201, .message ⟨3, "hi again", 1, "abc", calmEnv.now 0⟩⟩] ∧
    staleStore (chatsCountKey "abc") = some (.int 0) ∧
    (createChat calmEnv staleStore "abc").1 = ⟨201, .chat ⟨1, "abc", calmEnv.now 0⟩⟩ ∧
    (createMessage calmEnv (createChat calmEnv staleStore "abc").2 "abc" "1" (some "hi")).1 =
      ⟨201, .message ⟨6, "hi", 1, "abc", calmEnv.now 0⟩⟩ := by
  refine ⟨by decide, rfl, by decide, by decide⟩

/-! ## Further facts about the handlers -/

theorem digitChar_facts {d : Nat} (h : d < 10) :
    isDecimalDigit (digitChar d) = true ∧ isSpace (digitChar d) = false ∧
    digitChar d ≠ '\r' ∧ digitChar d ≠ '\n' ∧ digitChar d ≠ '+' ∧ digitChar d ≠ '-' := by
  interval_cases d <;> decide

theorem skipSpace_of_not_space (c : Char) (rest : List Char) (h1 : isSpace c = false)
    (h2 : c ≠ '\r') (h3 : c ≠ '\n') : skipSpace (c :: rest) = some (c :: rest) := by
  simp [skipSpace, h1, h2, h3]

/-- X2. The decimal form of a 64-bit chat number scans as that number: a client
that puts the number of a 201 answer into the `chat_number` segment is served
for that chat. -/
theorem sscanfInt64_fmtInt (n : Int) (hlo : minInt64 ≤ n) (hhi : n ≤ maxInt64) :
    sscanfInt64 (fmtInt n) = some n := by
  obtain ⟨ds, hds, ⟨init, d, hd, hsnoc⟩, hval, hdata⟩ := fmtInt_data n
  have hall : ∀ c ∈ ds, isDecimalDigit c = true := by
    intro c hc
    obtain ⟨d', hd', rfl⟩ := hds c hc
    exact (digitChar_facts hd').1
  have htake : ds.takeWhile isDecimalDigit = ds := by
    rw [List.takeWhile_eq_self_iff]
    exact hall
  have hne : ds ≠ [] := by rw [hsnoc]; simp
  obtain ⟨c, rest, hcons⟩ := List.exists_cons_of_ne_nil hne
  obtain ⟨d', hd', hc⟩ := hds c (by rw [hcons]; exact List.mem_cons_self _ _)
  obtain ⟨-, hsp, hr, hn, hplus, hminus⟩ := digitChar_facts hd'
  rw [← hc] at hsp hr hn hplus hminus
  unfold sscanfInt64
  rw [hdata]
  by_cases hneg : n < 0
  · simp only [hneg, if_true]
    rw [skipSpace_of_not_space '-' ds (by decide) (by decide) (by decide)]
    simp only [or_true, if_true, htake, hne, if_false, hval]
    have : (-(n.natAbs : Int)) = n := by omega
    rw [this]
    simp [hlo, hhi]
  · simp only [hneg, if_false]
    rw [hcons, skipSpace_of_not_space c rest hsp hr hn]
    simp only [hplus, hminus, or_self, if_false]
    rw [← hcons, htake]
    simp only [hne, if_false, hval]
    have : ((n.natAbs : Int)) = n := by omega
    rw [this]
    simp [hlo, hhi]

theorem sscanfInt64_fmtInt_witness :
    minInt64 ≤ (-42 : Int) ∧ (-42 : Int) ≤ maxInt64 ∧ sscanfInt64 (fmtInt (-42)) = some (-42) :=
  ⟨by decide, by decide, sscanfInt64_fmtInt (-42) (by decide) (by decide)⟩

/-- X3. Every answer of the two handlers carries one of the four status codes
201, 400, 404 and 500. -/
theorem handle_status_codes (env : Env) (s : Store) (req : Request) :
    (handle env s req).1.status = 201 ∨ (handle env s req).1.status = 400 ∨
    (handle env s req).1.status = 404 ∨ (handle env s req).1.status = 500 := by
  cases req with
  | createChat t =>
    simp only [handle]
    rcases createChat_cases env s t with ⟨-, hr⟩ | ⟨-, err, -, hr⟩ | ⟨-, -, hrest⟩
    · rw [hr]; right; left; rfl
    · rw [hr]
      rcases handleValidationError_status err t with ⟨h, -⟩ | ⟨h, -⟩
      · right; right; left; exact h
      · right; right; right; exact h
    rcases hrest with ⟨e, s1, -, hr⟩ | ⟨n, s1, -, hrest⟩
    · rw [hr]; right; right; right; rfl
    rcases hrest with ⟨e, s2, -, hr⟩ | ⟨m, s2, -, hrest⟩
    · rw [hr]; right; right; right; rfl
    rcases hrest with ⟨e, s3, -, hr⟩ | ⟨s3, -, hrest⟩
    · rw [hr]; right; right; right; rfl
    rcases hrest with ⟨e, s4, -, hr⟩ | ⟨s4, -, hr⟩
    · rw [hr]; right; right; right; rfl
    · rw [hr]; left; rfl
  | createMessage t cn body =>
    simp only [handle]
    rcases createMessage_cases env s t cn body with ⟨h4, -, -⟩ | ⟨n, b, -, -, -, -, -, hrest⟩
    · right; left; exact h4
    rcases hrest with ⟨err, -, hr⟩ | ⟨-, hrest⟩
    · rw [hr]
      rcases handleValidationError_status err t with ⟨h, -⟩ | ⟨h, -⟩
      · right; right; left; exact h
      · right; right; right; exact h
    rcases hrest with ⟨e, -, hr⟩ | ⟨-, hr⟩ | ⟨-, hrest⟩
    · rw [hr]; right; right; right; rfl
    · rw [hr]; right; right; left; rfl
    rcases hrest with ⟨e, s1, -, hr⟩ | ⟨k, s1, -, hrest⟩
    · rw [hr]; right; right; right; rfl
    rcases hrest with ⟨e, s2, -, hr⟩ | ⟨m, s2, -, hrest⟩
    · rw [hr]; right; right; right; rfl
    rcases hrest with ⟨e, s3, -, hr⟩ | ⟨s3, -, hr⟩
    · rw [hr]; right; right; right; rfl
    · rw [hr]; left; rfl

/-- X4. There is no rollback: a `createChat` whose job enqueue is lost answers 500
and leaves the chat sequence raised, the chat count raised and the chat key
set, with nothing in the queue. -/
theorem createChat_500_keeps_writes :
    (createChat enqueueLostEnv abcStore "abc").1 = ⟨500, .error "Internal server error"⟩ ∧
    (createChat enqueueLostEnv abcStore "abc").2 "application:abc:last_chat_number" =
      some (.int 1) ∧
    (createChat enqueueLostEnv abcStore "abc").2 "application:abc" = some (.int 1) ∧
    (createChat enqueueLostEnv abcStore "abc").2 "application:abc:chat:1" = some (.int 0) ∧
    (createChat enqueueLostEnv abcStore "abc").2 "queue:chats_creation_queue" = none := by
  refine ⟨by decide, rfl, rfl, rfl, rfl⟩


/-- X6. A chat that `createChat` returns has no message sequence yet, after
any run of requests (for any tokens, with any outcome) from a store in which
no chat of the token lay ahead of its chat sequence: a store that held, above
what `application:<token>:last_chat_number` held, no chat key and no
message-sequence key of the token. -/
theorem new_chat_is_fresh_after_run (s₀ : Store) (reqs : List (Env × Request)) (env : Env)
    (t : String) (c : Chat) (hinit : NoChatsAhead t s₀)
    (hc : (createChat env (storeAfter s₀ reqs) t).1 = ⟨201, .chat c⟩) :
    (storeAfter s₀ reqs) (lastMessageNumberKey t c.Number) = none :=
  new_chat_has_no_message_seq (NoChatsAhead_storeAfter t reqs s₀ hinit) hc

theorem new_chat_is_fresh_after_run_witness :
    (createChat calmEnv (storeAfter abcStore earlierChat) "abc").1 =
      ⟨201, .chat ⟨2, "abc", calmEnv.now 0⟩⟩ ∧
    (storeAfter abcStore earlierChat) (lastMessageNumberKey "abc" 2) = none :=
  ⟨by decide,
    new_chat_is_fresh_after_run abcStore earlierChat calmEnv "abc" ⟨2, "abc", calmEnv.now 0⟩
      abcStore_has_no_chats (by decide)⟩

end GoService
